import Mathlib

/-!
# WBAN jamming experiment: tissue attenuation model and experiment engine

A shallow embedding of `wban-propagation-model.{h,cc}` and `wban-jamming.cc`.

Conventions of the embedding

* A C++ `double` is a rational number: infinities and NaN are outside the
  model.  In the loss formula, the event times and the positions `+ - * /` on
  doubles are the exact field operations and the decimal literals of the
  source denote their decimal values.
* Where the rounding of a double operation decides a discrete output, the
  operation is the exact one followed by `roundBinary64`, the IEEE 754
  rounding to the nearest binary64 value with ties to the even significand:
  the quotients of the success rates, which are compared with the threshold
  (`noJamRate`, `jamRate`, `jammed`), and the accumulated coordinate of the
  sweep, which decides the number of rows (`sweepLoopBinary64`).  There the
  arguments are binary64 values, and the double a decimal text such as `0.1`
  denotes is `roundBinary64 0.1`.
* The two pieces of `<cmath>` used by the source, the constant `M_PI` and the
  function `pow`, are fields of a `Libm` record passed to the code that uses
  them.
* A `uint32_t` is a natural number; every place where the source can wrap
  carries an explicit `% 4294967296`.
* A `Ptr<MobilityModel>` (and the raw pointer `PeekPointer` extracts from it)
  is a natural-number address, `0` being the null pointer.
* Global variables of `wban-jamming.cc` are the fields of `Globals`, threaded
  explicitly through the callbacks.
-/

namespace Wban

/-! ## wban-propagation-model.h -/

/-- The pieces of the C math library used by `DoCalcRxPower`: the macro `M_PI`
and the function `pow`. -/
structure Libm where
  M_PI : ℚ
  pow : ℚ → ℚ → ℚ

/-- What the proofs need to know about the math library: `M_PI` is positive and
`pow x 0.5` (the square root) is positive on positive arguments. -/
def Libm.Sane (L : Libm) : Prop :=
  0 < L.M_PI ∧ ∀ x : ℚ, 0 < x → 0 < L.pow x 0.5

/-- The dielectric properties of one tissue stack (`struct BodyDielectricParameters`). -/
structure BodyDielectricParameters where
  organConductivity : ℚ
  organPermittivity : ℚ
  organThickness : ℚ
  muscleConductivity : ℚ
  musclePermittivity : ℚ
  muscleThickness : ℚ
  muscleLayer : ℚ
  fatConductivity : ℚ
  fatPermittivity : ℚ
  fatThickness : ℚ
  fatLayer : ℚ
  skinConductivity : ℚ
  skinPermittivity : ℚ
  skinThickness : ℚ
  frequency : ℚ
  deriving DecidableEq

/-- The closed enumeration of organ/frequency profiles (`enum class BodyOrganOption`). -/
inductive BodyOrganOption where
  | SMALL_INTESTINE_2400_MHZ
  | SMALL_INTESTINE_916_5_MHZ
  | FAT_2400_MHZ
  | FAT_402_MHZ
  | SKIN_2400_MHZ
  | SKIN_863_MHZ
  | SKIN_402_MHZ
  | LARGE_INTESTINE_2400_MHZ
  | SMALL_INTESTINE_402_MHZ
  | HEART_2400_MHZ
  | KIDNEY_2400_MHZ
  | HEART_402_MHZ
  | KIDNEY_402_MHZ
  deriving DecidableEq, Repr

/-- The enumerator values: `static_cast<uint32_t>(option)`. -/
def BodyOrganOption.toUInt32 : BodyOrganOption → Nat
  | .SMALL_INTESTINE_2400_MHZ => 0
  | .SMALL_INTESTINE_916_5_MHZ => 1
  | .FAT_2400_MHZ => 2
  | .FAT_402_MHZ => 3
  | .SKIN_2400_MHZ => 4
  | .SKIN_863_MHZ => 5
  | .SKIN_402_MHZ => 6
  | .LARGE_INTESTINE_2400_MHZ => 7
  | .SMALL_INTESTINE_402_MHZ => 8
  | .HEART_2400_MHZ => 9
  | .KIDNEY_2400_MHZ => 10
  | .HEART_402_MHZ => 11
  | .KIDNEY_402_MHZ => 12

/-- A `Ptr<MobilityModel>` or raw `const MobilityModel*`: an address, `0` is null. -/
abbrev Ptr := Nat

/-- The state of a `BodyPropagationLossModel` object.  The member `m_fatLayer`
of the class is never read or written by any function and is left out. -/
structure BodyPropagationLossModel where
  m_bodyOption : BodyOrganOption
  m_parameters : BodyDielectricParameters
  m_useSelectiveAttenuation : Bool
  m_bodyMobility : Finset Ptr

/-! ## wban-propagation-model.cc -/

/-- The aggregate initialiser of one table row, in the field order of the struct. -/
def row (oc op ot mc mp mt ml fc fp ft fl sc sp st fr : ℚ) : BodyDielectricParameters :=
  ⟨oc, op, ot, mc, mp, mt, ml, fc, fp, ft, fl, sc, sp, st, fr⟩

/-- The static catalog `DielectricParameters[]`, 13 rows. -/
def DielectricParameters : List BodyDielectricParameters :=
  [ row 3.1335 54.527 0.01 1.705 52.791 0.012 1 0.10235 5.2853 0.046 1 1.4407 38.063 0.0013 2.4,
    row 2.1738 59.379 0.01 0.94861 54.994 0.012 1 0.051438 5.4594 0.046 1 0.87219 41.322 0.0013 916.5,
    row 1 1 0 1 1 0 0 0.10235 5.2853 0.046 2 1.4407 38.063 0.0013 2.4,
    row 1 1 0 1 1 0 0 0.041151 5.5789 0.046 2 0.68892 46.741 0.0013 402,
    row 1 1 0 1 1 0 0 1 1 0 0 1.4407 38.063 0.0013 2.4,
    row 1 1 0 1 1 0 0 1 1 0 0 0.85451 41.603 0.0013 863,
    row 1 1 0 1 1 0 0 1 1 0 0 0.68892 46.741 0.0013 402,
    row 1.3739 51.877 0.02 1.705 52.791 0.012 1 0.10235 5.2853 0.046 1 1.4407 38.063 0.0013 2.4,
    row 1.9035 66.086 0.01 0.79682 57.112 0.012 1 0.041151 5.5789 0.046 1 0.68892 46.741 0.0013 402,
    row 2.2159 54.918 0.015 1.705 52.791 0.012 1 0.10235 5.2853 0.046 1 1.4407 38.063 0.0013 2.4,
    row 2.3901 52.856 0.01 1.705 52.791 0.012 1 0.10235 5.2853 0.046 1 1.4407 38.063 0.0013 2.4,
    row 0.96577 66.049 0.015 0.79682 57.112 0.012 1 0.041151 5.5789 0.046 1 0.68892 46.741 0.0013 402,
    row 1.0958 66.361 0.01 0.79682 57.112 0.012 1 0.041151 5.5789 0.046 1 0.68892 46.741 0.0013 402 ]

/-- The array access `DielectricParameters[index]`.  Every index the program
forms is an enumerator value, so it is in range; an out-of-range read (undefined
in C++) yields the all-zero row here. -/
def tableAt (index : Nat) : BodyDielectricParameters :=
  DielectricParameters.getD index (row 0 0 0 0 0 0 0 0 0 0 0 0 0 0 0)

/-- The conversion of a `double` to `uint32_t` on return: truncation. -/
def toUInt32 (x : ℚ) : Nat := Nat.floor x % 4294967296

namespace BodyPropagationLossModel

/-- Member `SetBodyOptions`: records the option and copies the whole table row into
`m_parameters`. -/
def SetBodyOptions (self : BodyPropagationLossModel) (bodyOption : BodyOrganOption) :
    BodyPropagationLossModel :=
  let self1 := { self with m_bodyOption := bodyOption }
  let index := self1.m_bodyOption.toUInt32
  { self1 with m_parameters := tableAt index }

/-- The constructor: the member initialisers (`m_useSelectiveAttenuation = false`,
an empty set) followed by `SetBodyOptions(SMALL_INTESTINE_402_MHZ)`.  The fields
`SetBodyOptions` overwrites are uninitialised before the call; the placeholders
below are never observed. -/
def construct : BodyPropagationLossModel :=
  SetBodyOptions
    { m_bodyOption := .SMALL_INTESTINE_2400_MHZ
      m_parameters := row 0 0 0 0 0 0 0 0 0 0 0 0 0 0 0
      m_useSelectiveAttenuation := false
      m_bodyMobility := ∅ }
    .SMALL_INTESTINE_402_MHZ

/-- Member `GetBodyOption`. -/
def GetBodyOption (self : BodyPropagationLossModel) : BodyOrganOption :=
  self.m_bodyOption

/-- Member `SetFatLayer(uint32_t fatLayer)`: the argument is converted to `uint32_t`
at the call and stored in the `double` field. -/
def SetFatLayer (self : BodyPropagationLossModel) (fatLayer : Nat) :
    BodyPropagationLossModel :=
  { self with
    m_parameters := { self.m_parameters with fatLayer := ((fatLayer % 4294967296 : Nat) : ℚ) } }

/-- Member `GetFatLayer`. -/
def GetFatLayer (self : BodyPropagationLossModel) : Nat :=
  toUInt32 self.m_parameters.fatLayer

/-- Member `SetMuscleLayer(uint32_t muscleLayer)`. -/
def SetMuscleLayer (self : BodyPropagationLossModel) (muscleLayer : Nat) :
    BodyPropagationLossModel :=
  { self with
    m_parameters :=
      { self.m_parameters with muscleLayer := ((muscleLayer % 4294967296 : Nat) : ℚ) } }

/-- Member `GetMuscleLayer`. -/
def GetMuscleLayer (self : BodyPropagationLossModel) : Nat :=
  toUInt32 self.m_parameters.muscleLayer

/-- Member `AddBodyMobility`: a null pointer is ignored; otherwise the raw pointer is
inserted and selective attenuation is switched on. -/
def AddBodyMobility (self : BodyPropagationLossModel) (mobility : Ptr) :
    BodyPropagationLossModel :=
  if mobility = 0 then self
  else
    { self with
      m_bodyMobility := insert mobility self.m_bodyMobility
      m_useSelectiveAttenuation := true }

/-- Member `ClearBodyMobility`. -/
def ClearBodyMobility (self : BodyPropagationLossModel) : BodyPropagationLossModel :=
  { self with m_bodyMobility := ∅, m_useSelectiveAttenuation := false }

/-- Member `ShouldApplyBodyLoss`: the gate of the body loss. -/
def ShouldApplyBodyLoss (self : BodyPropagationLossModel) (a b : Ptr) : Bool :=
  if !self.m_useSelectiveAttenuation then true
  else
    let mobilityA : Ptr := if a ≠ 0 then a else 0
    let mobilityB : Ptr := if b ≠ 0 then b else 0
    decide (mobilityA ∈ self.m_bodyMobility) || decide (mobilityB ∈ self.m_bodyMobility)

end BodyPropagationLossModel

/-- The assignment to `organDb` in `DoCalcRxPower`, as a function of the table
row `p` it reads. -/
def organDb (L : Libm) (p : BodyDielectricParameters) : ℚ :=
  (520.8 * L.M_PI * p.organConductivity) / L.pow p.organPermittivity 0.5 * p.organThickness

/-- The assignment to `muscleDb`: `p` is the table row, `m` is `m_parameters`. -/
def muscleDb (L : Libm) (p m : BodyDielectricParameters) : ℚ :=
  (520.8 * L.M_PI * p.muscleConductivity) / L.pow p.musclePermittivity 0.5 * p.muscleThickness *
    p.muscleLayer * m.muscleLayer

/-- The assignment to `fatDb`: `p` is the table row, `m` is `m_parameters`. -/
def fatDb (L : Libm) (p m : BodyDielectricParameters) : ℚ :=
  (520.8 * L.M_PI * p.fatConductivity) / L.pow p.fatPermittivity 0.5 * p.fatThickness *
    p.fatLayer * m.fatLayer

/-- The assignment to `skinDb`. -/
def skinDb (L : Libm) (p : BodyDielectricParameters) : ℚ :=
  (520.8 * L.M_PI * p.skinConductivity) / L.pow p.skinPermittivity 0.5 * p.skinThickness

/-- The assignment to `totalDb`. -/
def totalDb (L : Libm) (p m : BodyDielectricParameters) : ℚ :=
  organDb L p + skinDb L p + fatDb L p m + muscleDb L p m

/-- Member `BodyPropagationLossModel::DoCalcRxPower`. -/
def BodyPropagationLossModel.DoCalcRxPower (L : Libm) (self : BodyPropagationLossModel)
    (txPowerDbm : ℚ) (a b : Ptr) : ℚ :=
  if !self.ShouldApplyBodyLoss a b then txPowerDbm
  else
    let bodyOption := self.m_bodyOption.toUInt32
    txPowerDbm - totalDb L (tableAt bodyOption) self.m_parameters

/-- One call of a public member function that changes the model. -/
inductive Call where
  | AddBodyMobility (mobility : Ptr)
  | ClearBodyMobility
  | SetBodyOptions (bodyOption : BodyOrganOption)
  | SetFatLayer (fatLayer : Nat)
  | SetMuscleLayer (muscleLayer : Nat)

/-- The effect of one call on the model. -/
def Call.apply (s : BodyPropagationLossModel) : Call → BodyPropagationLossModel
  | .AddBodyMobility mobility => s.AddBodyMobility mobility
  | .ClearBodyMobility => s.ClearBodyMobility
  | .SetBodyOptions bodyOption => s.SetBodyOptions bodyOption
  | .SetFatLayer fatLayer => s.SetFatLayer fatLayer
  | .SetMuscleLayer muscleLayer => s.SetMuscleLayer muscleLayer

/-- The model after construction and a sequence of calls. -/
def afterCalls (calls : List Call) : BodyPropagationLossModel :=
  calls.foldl Call.apply BodyPropagationLossModel.construct

/-- The layer loss as the specification words it:
`(520.8 * pi * conductivity / sqrt(permittivity)) * thickness * layerMultiplier`. -/
def specLayerLoss (L : Libm) (conductivity permittivity thickness layerMultiplier : ℚ) : ℚ :=
  (520.8 * L.M_PI * conductivity / L.pow permittivity 0.5) * thickness * layerMultiplier

/-- Heron's iteration for the square root of `x`, started at `(x + 1) / 2`. -/
def heron (x : ℚ) : Nat → ℚ
  | 0 => (x + 1) / 2
  | n + 1 => (heron x n + x / heron x n) / 2

/-- A concrete math library: `M_PI` is the binary64 value of the macro and
`pow x y` is a rational approximation of the square root of `x` (the source
calls `pow` with exponent 0.5 only). -/
def refLibm : Libm where
  M_PI := 884279719003555 / 281474976710656
  pow := fun x _ => heron x 6

/-! ## wban-jamming.cc: counters and the receive callback -/

/-- The constant `kPktGapSeconds`. -/
def kPktGapSeconds : ℚ := 0.02

/-- The constant `kGapBetweenPhases`. -/
def kGapBetweenPhases : ℚ := 1.0

/-- The constant `kPayloadBytes`. -/
def kPayloadBytes : Nat := 32

/-- The global counters and the phase flag of `wban-jamming.cc`. -/
structure Globals where
  g_noJamSent : Nat
  g_noJamRx : Nat
  g_jamSentTx : Nat
  g_jamRxTx : Nat
  g_jamSentJam : Nat
  g_jamRxJam : Nat
  g_jammingActive : Bool
  deriving DecidableEq, Repr

/-- Function `ResetCounters`. -/
def ResetCounters (_g : Globals) : Globals :=
  { g_noJamSent := 0, g_noJamRx := 0, g_jamSentTx := 0, g_jamRxTx := 0,
    g_jamSentJam := 0, g_jamRxJam := 0, g_jammingActive := false }

/-- The enumerator `SrcTag::TX`. -/
def SrcTag.TX : Nat := 1

/-- The enumerator `SrcTag::JAM`. -/
def SrcTag.JAM : Nat := 2

/-- A packet, as far as this program looks at it: the byte of the `SrcTag`
attached to it, if one is attached.  `SrcTag::Deserialize` casts the byte to
`SrcType` without checking it, so any byte can come out. -/
structure Packet where
  srcTag : Option Nat
  deriving DecidableEq, Repr

/-- The call `Packet::PeekPacketTag(tag)` for a `SrcTag`: whether a tag is found, and the
value `tag.Get()` then holds. -/
def Packet.PeekPacketTag (p : Packet) : Option Nat := p.srcTag

/-- The post-increment `x++` of a `uint32_t`. -/
def incr32 (x : Nat) : Nat := (x + 1) % 4294967296

/-- Function `RxIndication`: the receive callback registered with the receiver PHY. -/
def RxIndication (g : Globals) (_psduLength : Nat) (p : Packet) (_packetSize : Nat) : Globals :=
  match p.PeekPacketTag with
  | some tag =>
    if g.g_jammingActive then
      if tag = SrcTag.TX then { g with g_jamRxTx := incr32 g.g_jamRxTx }
      else { g with g_jamRxJam := incr32 g.g_jamRxJam }
    else { g with g_noJamRx := incr32 g.g_noJamRx }
  | none => g

/-! ## wban-jamming.cc: the events of one run -/

/-- The closures `RunScenario` hands to the scheduler, and the stop event. -/
inductive Event where
  /-- The closure scheduled at 0.2 s: arms transmitter and receiver. -/
  | phase1Arm
  /-- The closure of iteration `i` of the first loop. -/
  | phase1Send (i : Nat)
  /-- The closure scheduled at `phase2Start`: arms the jammer. -/
  | phase2Arm
  /-- The closure of iteration `i` of the second loop (jammer packet). -/
  | jamSend (i : Nat)
  /-- The closure of iteration `i` of the third loop (transmitter packet). -/
  | phase2Send (i : Nat)
  /-- The event `Simulator::Stop` puts in the queue. -/
  | stop
  deriving DecidableEq, Repr

/-- The source tag of the packet a closure hands to a PHY, if it sends one. -/
def Event.sentTag : Event → Option Nat
  | .phase1Send _ => some SrcTag.TX
  | .jamSend _ => some SrcTag.JAM
  | .phase2Send _ => some SrcTag.TX
  | _ => none

/-- What running a closure does to the globals (the PHY requests it makes are
calls into the external transceiver). -/
def Event.fire (e : Event) (g : Globals) : Globals :=
  match e with
  | .phase1Arm => { g with g_jammingActive := false }
  | .phase1Send _ => { g with g_noJamSent := incr32 g.g_noJamSent }
  | .phase2Arm => { g with g_jammingActive := true }
  | .jamSend _ => { g with g_jamSentJam := incr32 g.g_jamSentJam }
  | .phase2Send _ => { g with g_jamSentTx := incr32 g.g_jamSentTx }
  | .stop => g

/-- Modelled from the spec: the external event scheduler ("schedule at time T",
"run until stop time", same-timestamp events in a fixed order).  The queue holds
the pending events with their delay from the moment `RunScenario` is entered, in
the order of the `Schedule` calls. -/
abbrev EventQueue := List (ℚ × Event)

/-- Modelled from the spec: `Simulator::Schedule(delay, closure)`. -/
def Schedule (q : EventQueue) (delay : ℚ) (e : Event) : EventQueue := q ++ [(delay, e)]

/-- Modelled from the spec: the order in which the scheduler fires a queue, by
timestamp, events of equal timestamp in the order they were scheduled (the
insertion sort is stable). -/
def firingOrder (q : EventQueue) : EventQueue :=
  q.insertionSort (fun x y => x.1 ≤ y.1)

/-- Modelled from the spec: the events `Simulator::Run` fires, that is, those
ahead of the stop event. -/
def firedEvents (q : EventQueue) : List Event :=
  ((firingOrder q).takeWhile (fun x => decide (x.2 ≠ Event.stop))).map Prod.snd

/-- The local `phase2Start` of `RunScenario`, for `kNoJamPackets = noJamPackets`. -/
def phase2Start (noJamPackets : Nat) : ℚ :=
  0.5 + noJamPackets * kPktGapSeconds + kGapBetweenPhases

/-- The local `simStop` of `RunScenario`. -/
def simStop (noJamPackets withJamPackets : Nat) : ℚ :=
  phase2Start noJamPackets + withJamPackets * kPktGapSeconds + 1.0

/-- A `for (uint32_t i = 0; i < n; ++i)` loop whose body schedules one event. -/
def scheduleLoop (n : Nat) (delay : Nat → ℚ) (ev : Nat → Event) (q : EventQueue) : EventQueue :=
  (List.range n).foldl (fun q i => Schedule q (delay i) (ev i)) q

/-- The `Simulator::Schedule` and `Simulator::Stop` calls of `RunScenario`, in
program order, for `kNoJamPackets = noJamPackets` and
`kWithJamPackets = withJamPackets`. -/
def scheduledEvents (noJamPackets withJamPackets : Nat) : EventQueue :=
  let q : EventQueue := []
  let q := Schedule q 0.2 .phase1Arm
  let q := scheduleLoop noJamPackets (fun i => 0.5 + i * kPktGapSeconds) .phase1Send q
  let q := Schedule q (phase2Start noJamPackets) .phase2Arm
  let q := scheduleLoop withJamPackets
    (fun i => phase2Start noJamPackets + i * kPktGapSeconds) .jamSend q
  let q := scheduleLoop withJamPackets
    (fun i => phase2Start noJamPackets + i * kPktGapSeconds) .phase2Send q
  Schedule q (simStop noJamPackets withJamPackets) .stop

/-- One call of the receive callback by the receiver PHY. -/
structure RxCall where
  psduLength : Nat
  p : Packet
  packetSize : Nat

/-- The receive callbacks the PHY makes between two scheduled events. -/
def deliver (calls : List RxCall) (g : Globals) : Globals :=
  calls.foldl (fun g c => RxIndication g c.psduLength c.p c.packetSize) g

/-- The call `Simulator::Run`: the fired events in order; `phy j` lists the receive
callbacks the external PHY makes just before the `j`-th fired event (and, for
`j` the number of fired events, after the last one). -/
def runEvents (phy : Nat → List RxCall) : List Event → Nat → Globals → Globals
  | [], j, g => deliver (phy j) g
  | e :: es, j, g => runEvents phy es (j + 1) (e.fire (deliver (phy j) g))

/-- The counters of `struct SimulationResult`. -/
structure SimulationResult where
  noJamSent : Nat
  noJamRx : Nat
  jamSentTx : Nat
  jamRxTx : Nat
  jamSentJam : Nat
  jamRxJam : Nat
  deriving DecidableEq, Repr

/-- Function `RunScenario`, the packet experiment: reset, schedule, run, collect.  The
behaviour of the external PHY is the parameter `phy`. -/
def RunScenario (noJamPackets withJamPackets : Nat) (phy : Nat → List RxCall) (g : Globals) :
    SimulationResult × Globals :=
  let g := ResetCounters g
  let q := scheduledEvents noJamPackets withJamPackets
  let g := runEvents phy (firedEvents q) 0 g
  ({ noJamSent := g.g_noJamSent, noJamRx := g.g_noJamRx, jamSentTx := g.g_jamSentTx,
     jamRxTx := g.g_jamRxTx, jamSentJam := g.g_jamSentJam, jamRxJam := g.g_jamRxJam }, g)

/-! ## IEEE 754 binary64 rounding -/

/-- The number of halvings that bring `n` below 2, at most `fuel` of them: for
`1 ≤ n ≤ fuel` this is the integer part of the binary logarithm of `n`. -/
def floorLog2 : Nat → Nat → Nat
  | 0, _ => 0
  | fuel + 1, n => if n < 2 then 0 else floorLog2 fuel (n / 2) + 1

/-- The binary exponent of a non-zero `x`: the integer `e` with
`2 ^ e ≤ |x| < 2 ^ (e + 1)`. -/
def binaryExponent (x : ℚ) : ℤ :=
  let k : ℤ := (floorLog2 x.num.natAbs x.num.natAbs : ℤ) - (floorLog2 x.den x.den : ℤ)
  if (2 : ℚ) ^ k ≤ |x| then k else k - 1

/-- The integer nearest to `t`, the even one of the two when `t` lies half way
between two integers. -/
def roundHalfEven (t : ℚ) : ℤ :=
  if t - ⌊t⌋ < 1 / 2 then ⌊t⌋
  else if 1 / 2 < t - ⌊t⌋ then ⌊t⌋ + 1
  else if ⌊t⌋ % 2 = 0 then ⌊t⌋ else ⌊t⌋ + 1

/-- The spacing of the binary64 values around a non-zero `x`: a significand of
53 bits, hence `2 ^ (e - 52)` for the binary exponent `e` of `x`, and never less
than `2 ^ (-1074)`, the spacing of the subnormal values. -/
def ulpBinary64 (x : ℚ) : ℚ := 2 ^ (max (binaryExponent x) (-1022) - 52)

/-- The binary64 value a `double` operation with the exact result `x` returns in
the default rounding mode: the multiple of `ulpBinary64 x` nearest to `x`, ties
to the even significand, with gradual underflow.  The exponent is not bounded
above: a result beyond `maxBinary64`, where the machine returns an infinity, is
outside the model. -/
def roundBinary64 (x : ℚ) : ℚ :=
  if x = 0 then 0 else roundHalfEven (x / ulpBinary64 x) * ulpBinary64 x

/-- The rational `x` is a binary64 value: rounding leaves it as it is. -/
def IsBinary64 (x : ℚ) : Prop := roundBinary64 x = x

/-- Whether a rational is a binary64 value is decided by rounding it. -/
instance IsBinary64.decidable (x : ℚ) : Decidable (IsBinary64 x) :=
  inferInstanceAs (Decidable (roundBinary64 x = x))

/-- The largest finite binary64 value, `DBL_MAX`. -/
def maxBinary64 : ℚ := (2 ^ 53 - 1) * 2 ^ 971

/-! ## wban-jamming.cc: the sweep loop of `main` -/

/-- The loop `for (scanPos = ...; scanPos <= scanStop + epsilon; scanPos += scanStep)`
from a given value of `scanPos` on, in exact arithmetic: the values of `scanPos`
at which the body runs when no sum is rounded.  The loop as the machine runs
it, every sum rounded to binary64, is `sweepLoopBinary64`. -/
def sweepLoop (scanStop epsilon scanStep : ℚ) (hstep : 0 < scanStep) (scanPos : ℚ) : List ℚ :=
  if scanPos ≤ scanStop + epsilon then
    scanPos :: sweepLoop scanStop epsilon scanStep hstep (scanPos + scanStep)
  else []
termination_by Int.toNat (⌊(scanStop + epsilon - scanPos) / scanStep⌋ + 1)
decreasing_by
  rename_i hle
  have h0 : 0 ≤ (scanStop + epsilon - scanPos) / scanStep :=
    div_nonneg (by linarith) hstep.le
  have h1 : (scanStop + epsilon - (scanPos + scanStep)) / scanStep
      = (scanStop + epsilon - scanPos) / scanStep - 1 := by
    field_simp
    ring
  have h2 : 0 ≤ ⌊(scanStop + epsilon - scanPos) / scanStep⌋ := Int.floor_nonneg.mpr h0
  rw [h1, Int.floor_sub_one]
  omega

/-- The sweep of `main`: `none` when `main` returns 1 on `scanStep <= 0`;
otherwise the coordinates at which `RunScenario` is called for a CSV row
(`scanCsvGiven` is `!scanCsv.empty()`). -/
def sweepCoordinates (scanCsvGiven : Bool) (scanStart scanStop scanStep : ℚ) : Option (List ℚ) :=
  if h : scanStep ≤ 0 then none
  else if scanCsvGiven && decide (scanStop ≥ scanStart) then
    let epsilon := scanStep * 0.5
    some (sweepLoop scanStop epsilon scanStep (not_le.mp h) scanStart)
  else some []

/-- The loop `for (double scanPos = ...; scanPos <= scanStop + epsilon; scanPos += scanStep)`
from a given value of `scanPos` on, in binary64 arithmetic: the sum
`scanStop + epsilon` of the condition and the sum of `scanPos += scanStep` are
rounded.  The result is the list of the values of `scanPos` at which the body
runs, when the loop ends within `fuel` tests of its condition, and `none` when
it is still running after them. -/
def sweepLoopBinary64 : Nat → ℚ → ℚ → ℚ → ℚ → Option (List ℚ)
  | 0, _, _, _, _ => none
  | fuel + 1, scanStop, epsilon, scanStep, scanPos =>
    if scanPos ≤ roundBinary64 (scanStop + epsilon) then
      (sweepLoopBinary64 fuel scanStop epsilon scanStep (roundBinary64 (scanPos + scanStep))).map
        (fun rest => scanPos :: rest)
    else some []

/-- The sweep of `main` in binary64 arithmetic, for a positive `scanStep`, a CSV
file requested and `scanStop >= scanStart`: `epsilon` is the rounded product
`scanStep * 0.5` and the loop starts at `scanStart`. -/
def sweepCoordinatesBinary64 (fuel : Nat) (scanStart scanStop scanStep : ℚ) :
    Option (List ℚ) :=
  let epsilon := roundBinary64 (scanStep * 0.5)
  sweepLoopBinary64 fuel scanStop epsilon scanStep scanStart

/-! ## wban-jamming.cc: organ names -/

/-- The call `std::tolower(c)` on one character of a `std::string`; the program
never leaves the "C" locale, in which only the letters `A` to `Z` change. -/
def tolower (c : Char) : Char :=
  if 'A' ≤ c ∧ c ≤ 'Z' then Char.ofNat (c.toNat + 32) else c

/-- Function `ToLower`: `std::transform` of the string with `std::tolower`.  A
`std::string` is a string of characters here; the bytes of a character outside
ASCII are left alone by `std::tolower`, as the character is here. -/
def ToLower (value : String) : String :=
  String.mk (value.data.map tolower)

/-- The static map `kOrganMap` of `ParseBodyOrganOption` (its keys are distinct,
so a lookup in the list of pairs is the lookup in the hash map). -/
def kOrganMap : List (String × BodyOrganOption) :=
  [ ("heart", .HEART_402_MHZ),
    ("heart-402", .HEART_402_MHZ),
    ("heart-2400", .HEART_2400_MHZ),
    ("small-intestine-402", .SMALL_INTESTINE_402_MHZ),
    ("small-intestine-2400", .SMALL_INTESTINE_2400_MHZ),
    ("small-intestine-916.5", .SMALL_INTESTINE_916_5_MHZ),
    ("large-intestine-2400", .LARGE_INTESTINE_2400_MHZ),
    ("fat-402", .FAT_402_MHZ),
    ("fat-2400", .FAT_2400_MHZ),
    ("skin-402", .SKIN_402_MHZ),
    ("skin-863", .SKIN_863_MHZ),
    ("skin-2400", .SKIN_2400_MHZ),
    ("kidney-402", .KIDNEY_402_MHZ),
    ("kidney-2400", .KIDNEY_2400_MHZ) ]

/-- Function `ParseBodyOrganOption`: the key, and whether the "unknown organ"
warning is written to `std::cout`. -/
def ParseBodyOrganOption (organ : String) : BodyOrganOption × Bool :=
  let key := ToLower organ
  match kOrganMap.lookup key with
  | some it => (it, false)
  | none => (.HEART_402_MHZ, true)

/-! ## wban-jamming.cc: the simulation context and the static figures -/

/-- The constant `kTxPowerDbm`. -/
def kTxPowerDbm : ℚ := -16.0

/-- The constant `kJamBoostDb`. -/
def kJamBoostDb : ℚ := 0.0

/-- A position `Vector(x, y, z)`. -/
structure Vector3D where
  x : ℚ
  y : ℚ
  z : ℚ
  deriving DecidableEq

/-- The record `struct SimulationConfig`. -/
structure SimulationConfig where
  txX : ℚ
  txY : ℚ
  rxX : ℚ
  rxY : ℚ
  jamX : ℚ
  jamY : ℚ
  organOption : BodyOrganOption

/-- The part of `struct SimulationContext` the experiment's figures depend on:
the body loss model, the addresses of the three mobility models and the
position each of them holds.  Nodes, devices and the channel belong to the
external transceiver. -/
structure SimulationContext where
  bodyLoss : BodyPropagationLossModel
  mTx : Ptr
  mRx : Ptr
  mJam : Ptr
  posTx : Vector3D
  posRx : Vector3D
  posJam : Vector3D

/-- Function `CreateSimulationContext`; `mTx`, `mRx`, `mJam` are the addresses
`CreateObject<ConstantPositionMobilityModel>()` returns, and a fresh mobility
model sits at the origin. -/
def CreateSimulationContext (organ : BodyOrganOption) (mTx mRx mJam : Ptr) :
    SimulationContext :=
  let bodyLoss := BodyPropagationLossModel.construct
  let bodyLoss := bodyLoss.SetBodyOptions organ
  let bodyLoss := bodyLoss.ClearBodyMobility
  let bodyLoss := bodyLoss.AddBodyMobility mTx
  { bodyLoss := bodyLoss, mTx := mTx, mRx := mRx, mJam := mJam,
    posTx := ⟨0, 0, 0⟩, posRx := ⟨0, 0, 0⟩, posJam := ⟨0, 0, 0⟩ }

/-- The collaborators outside the repository that one run talks to. -/
structure Collaborators where
  /-- The C math library behind `DoCalcRxPower`. -/
  L : Libm
  /-- Modelled from the spec: the external path-loss collaborator, "independent
  of tissue attenuation": the received power for a transmit power and the
  positions of the two endpoints. -/
  pathLoss : ℚ → Vector3D → Vector3D → ℚ
  /-- The function `std::hypot`. -/
  hypot : ℚ → ℚ → ℚ
  /-- The receive callbacks the PHY makes in run number `r` just before the
  `j`-th fired event. -/
  phy : Nat → Nat → List RxCall

/-- Modelled from the spec: the public entry point `CalcRxPower` of the external
base class, through which the body model is asked for the "baseline path
received power"; it hands the call to `DoCalcRxPower`. -/
def BodyPropagationLossModel.CalcRxPower (L : Libm) (self : BodyPropagationLossModel)
    (txPowerDbm : ℚ) (a b : Ptr) : ℚ :=
  self.DoCalcRxPower L txPowerDbm a b

/-- The static figures and the positions of `struct SimulationResult`. -/
structure SimulationFigures where
  bodyRxPowerDbm : ℚ
  bodyLossDb : ℚ
  jamRxPowerDbm : ℚ
  jamLossDb : ℚ
  params : BodyDielectricParameters
  txX : ℚ
  txY : ℚ
  rxX : ℚ
  rxY : ℚ
  jamX : ℚ
  jamY : ℚ

/-- Function `RunScenario`, the static figures: the statements between
`ResetCounters()` and the first `Simulator::Schedule`, and the fields of the
result they fill.  (The packet experiment of the same function is `RunScenario`
above.) -/
def RunScenarioFigures (env : Collaborators) (ctx : SimulationContext)
    (config : SimulationConfig) : SimulationFigures × SimulationContext :=
  let ctx := { ctx with bodyLoss := ctx.bodyLoss.SetBodyOptions config.organOption }
  let ctx := { ctx with posTx := ⟨config.txX, config.txY, 0⟩ }
  let ctx := { ctx with posRx := ⟨config.rxX, config.rxY, 0⟩ }
  let ctx := { ctx with posJam := ⟨config.jamX, config.jamY, 0⟩ }
  let bodyRxPowerDbm := ctx.bodyLoss.CalcRxPower env.L kTxPowerDbm ctx.mTx ctx.mRx
  let bodyLossDb := kTxPowerDbm - bodyRxPowerDbm
  let jamRxPowerDbm := env.pathLoss (kTxPowerDbm + kJamBoostDb) ctx.posJam ctx.posRx
  let jamLossDb := (kTxPowerDbm + kJamBoostDb) - jamRxPowerDbm
  let params := ctx.bodyLoss.m_parameters
  ({ bodyRxPowerDbm := bodyRxPowerDbm, bodyLossDb := bodyLossDb,
     jamRxPowerDbm := jamRxPowerDbm, jamLossDb := jamLossDb, params := params,
     txX := config.txX, txY := config.txY, rxX := config.rxX, rxY := config.rxY,
     jamX := config.jamX, jamY := config.jamY }, ctx)

/-! ## wban-jamming.cc: the rows of the sweep and the safe distance -/

/-- One data row of the CSV file, in the order of the header. -/
structure CsvRow where
  rxX : ℚ
  rxY : ℚ
  txRxDistance : ℚ
  rxJamDistance : ℚ
  scanCoordinate : ℚ
  bodyLossDb : ℚ
  bodyRxPowerDbm : ℚ
  jamRxPowerDbm : ℚ
  jamLossDb : ℚ
  noJamSuccessRate : ℚ
  jamSuccessRate : ℚ
  isJammed : Nat
  noJamPacketsRx : Nat
  jamPacketsRx : Nat
  jamPacketsFromJammerRx : Nat

/-- The clamp `std::max(0.0, std::min(1.0, jamThreshold))` of `main`. -/
def clampThreshold (jamThreshold : ℚ) : ℚ :=
  max 0.0 (min 1.0 jamThreshold)

/-- The local `noJamRate` of the loop body.  Both `uint32_t` counters convert
to `double` without rounding, and the quotient
`static_cast<double>(res.noJamRx) / res.noJamSent` is the binary64 division:
the exact quotient rounded to binary64. -/
def noJamRate (res : SimulationResult) : ℚ :=
  if res.noJamSent ≠ 0 then roundBinary64 ((res.noJamRx : ℚ) / (res.noJamSent : ℚ)) else 0.0

/-- The local `jamRate` of the loop body: the binary64 quotient of the two
counters, as for `noJamRate`. -/
def jamRate (res : SimulationResult) : ℚ :=
  if res.jamSentTx ≠ 0 then roundBinary64 ((res.jamRxTx : ℚ) / (res.jamSentTx : ℚ)) else 0.0

/-- The local `jammed` of the loop body: the comparison of the two doubles
`jamRate` and `jamThreshold`, which is exact. -/
def jammed (res : SimulationResult) (jamThreshold : ℚ) : Bool :=
  decide (jamRate res ≤ jamThreshold)

/-- The loop body of the sweep after the call of `RunScenario`: the CSV row
written for the point and the new value of `firstSafeDistance`.  The `double`
`firstSafeDistance` starts as NaN and is tested with `std::isnan`: `none` is
NaN. -/
def sweepPoint (hypot : ℚ → ℚ → ℚ) (scanJam : Bool) (jamThreshold : ℚ)
    (firstSafeDistance : Option ℚ) (scanPos : ℚ) (res : SimulationResult)
    (fig : SimulationFigures) : CsvRow × Option ℚ :=
  let scanCoordinate := scanPos
  let txRxDistance := hypot (fig.rxX - fig.txX) (fig.rxY - fig.txY)
  let jamRxDistance := hypot (fig.rxX - fig.jamX) (fig.rxY - fig.jamY)
  let csvRow : CsvRow :=
    { rxX := fig.rxX, rxY := fig.rxY, txRxDistance := txRxDistance,
      rxJamDistance := jamRxDistance, scanCoordinate := scanCoordinate,
      bodyLossDb := fig.bodyLossDb, bodyRxPowerDbm := fig.bodyRxPowerDbm,
      jamRxPowerDbm := fig.jamRxPowerDbm, jamLossDb := fig.jamLossDb,
      noJamSuccessRate := noJamRate res, jamSuccessRate := jamRate res,
      isJammed := if jammed res jamThreshold then 1 else 0,
      noJamPacketsRx := res.noJamRx, jamPacketsRx := res.jamRxTx,
      jamPacketsFromJammerRx := res.jamRxJam }
  let firstSafeDistance :=
    if !jammed res jamThreshold && firstSafeDistance.isNone then
      some (if scanJam then jamRxDistance else txRxDistance)
    else firstSafeDistance
  (csvRow, firstSafeDistance)

/-- The loop body iterated over the per-point results of a sweep, in sweep
order: the rows written and the final `firstSafeDistance`. -/
def sweepPoints (hypot : ℚ → ℚ → ℚ) (scanJam : Bool) (jamThreshold : ℚ) :
    Option ℚ → List (ℚ × SimulationResult × SimulationFigures) → List CsvRow × Option ℚ
  | firstSafeDistance, [] => ([], firstSafeDistance)
  | firstSafeDistance, (scanPos, res, fig) :: rest =>
    let out := sweepPoint hypot scanJam jamThreshold firstSafeDistance scanPos res fig
    let tail := sweepPoints hypot scanJam jamThreshold out.2 rest
    (out.1 :: tail.1, tail.2)

/-- What `main` prints after the sweep. -/
inductive Report where
  /-- The "[Threshold]" line with a distance. -/
  | safeDistance (d : ℚ)
  /-- The "[Threshold]" line saying the node stays in the jamming zone. -/
  | stillJammed
  deriving DecidableEq

/-- The test `!std::isnan(firstSafeDistance)` that selects the report. -/
def reportOf (firstSafeDistance : Option ℚ) : Report :=
  match firstSafeDistance with
  | some d => .safeDistance d
  | none => .stillJammed

/-- The variables the sweep loop carries from one iteration to the next. -/
structure SweepState where
  ctx : SimulationContext
  g : Globals
  scanConfig : SimulationConfig
  firstSafeDistance : Option ℚ
  csv : List CsvRow
  run : Nat

/-- One iteration of the sweep loop of `main` at `scanPos`; `run` numbers the
calls of `RunScenario`. -/
def sweepBody (env : Collaborators) (noJamPackets withJamPackets : Nat) (scanJam : Bool)
    (jamThreshold : ℚ) (baseConfig : SimulationConfig) (st : SweepState) (scanPos : ℚ) :
    SweepState :=
  let scanConfig : SimulationConfig :=
    if scanJam then
      { st.scanConfig with
        jamX := scanPos, rxX := baseConfig.rxX, jamY := baseConfig.jamY, rxY := baseConfig.rxY }
    else
      { st.scanConfig with
        rxX := scanPos, rxY := baseConfig.rxY, jamX := baseConfig.jamX, jamY := baseConfig.jamY }
  let figs := RunScenarioFigures env st.ctx scanConfig
  let counts := RunScenario noJamPackets withJamPackets (env.phy st.run) st.g
  let out := sweepPoint env.hypot scanJam jamThreshold st.firstSafeDistance scanPos
    counts.1 figs.1
  { ctx := figs.2, g := counts.2, scanConfig := scanConfig, firstSafeDistance := out.2,
    csv := st.csv ++ [out.1], run := st.run + 1 }

/-- The command-line values of `main` after `cmd.Parse`. -/
structure CommandLine where
  txX : ℚ
  txY : ℚ
  rxX : ℚ
  rxY : ℚ
  jamX : ℚ
  jamY : ℚ
  noJamPackets : Nat
  jamPackets : Nat
  bodyOrgan : String
  scanCsvGiven : Bool
  scanStart : ℚ
  scanStop : ℚ
  scanStep : ℚ
  jamThreshold : ℚ
  scanTarget : String

/-- What a call of `main` leaves behind: the exit code, the data rows of the
CSV file and the report (none when no sweep is run). -/
structure MainResult where
  exitCode : Nat
  csv : List CsvRow
  report : Option Report

/-- Function `main` from `cmd.Parse` on.  `csvOpens` says whether the output
directory can be created and the file opened.  The sweep runs over the
coordinates of `sweepLoop`, the loop in exact arithmetic. -/
def mainProgram (env : Collaborators) (csvOpens : Bool) (mTx mRx mJam : Ptr)
    (cmd : CommandLine) (g : Globals) : MainResult :=
  if h : cmd.scanStep ≤ 0 then { exitCode := 1, csv := [], report := none }
  else
    let jamThreshold := clampThreshold cmd.jamThreshold
    let scanTargetKey := ToLower cmd.scanTarget
    let scanJam := scanTargetKey == "jam" || scanTargetKey == "jammer" || scanTargetKey == "j"
    let organOption := (ParseBodyOrganOption cmd.bodyOrgan).1
    let ctx := CreateSimulationContext organOption mTx mRx mJam
    let baseConfig : SimulationConfig :=
      ⟨cmd.txX, cmd.txY, cmd.rxX, cmd.rxY, cmd.jamX, cmd.jamY, organOption⟩
    let figs := RunScenarioFigures env ctx baseConfig
    let counts := RunScenario cmd.noJamPackets cmd.jamPackets (env.phy 0) g
    if cmd.scanCsvGiven && decide (cmd.scanStop ≥ cmd.scanStart) then
      if csvOpens then
        let epsilon := cmd.scanStep * 0.5
        let st := (sweepLoop cmd.scanStop epsilon cmd.scanStep (not_le.mp h) cmd.scanStart).foldl
          (sweepBody env cmd.noJamPackets cmd.jamPackets scanJam jamThreshold baseConfig)
          { ctx := figs.2, g := counts.2, scanConfig := baseConfig, firstSafeDistance := none,
            csv := [], run := 1 }
        { exitCode := 0, csv := st.csv, report := some (reportOf st.firstSafeDistance) }
      else { exitCode := 1, csv := [], report := none }
    else { exitCode := 0, csv := [], report := none }

/-! ## wban-jamming.cc: the flag seen by the scheduled events -/

/-- The run of `runEvents`, recording for every fired event the value
`g_jammingActive` has at the moment the event fires. -/
def firingFlags (phy : Nat → List RxCall) : List Event → Nat → Globals → List (Event × Bool)
  | [], _, _ => []
  | e :: es, j, g =>
    (e, (deliver (phy j) g).g_jammingActive) ::
      firingFlags phy es (j + 1) (e.fire (deliver (phy j) g))

/-- A concrete set of collaborators: the reference math library, a path-loss
model without loss, a rational approximation of `std::hypot`, and a PHY that
never indicates a packet. -/
def refCollaborators : Collaborators where
  L := refLibm
  pathLoss := fun txPowerDbm _ _ => txPowerDbm
  hypot := fun x y => heron (x * x + y * y) 6
  phy := fun _ _ => []

/-- The null pointer is never registered, and the selective flag is set exactly
when some endpoint is registered. -/
def GateInv (s : BodyPropagationLossModel) : Prop :=
  (0 : Ptr) ∉ s.m_bodyMobility ∧
    (s.m_useSelectiveAttenuation = true ↔ s.m_bodyMobility ≠ ∅)

/-- The signs of the entries of a catalog row. -/
structure RowSigns (e : BodyDielectricParameters) : Prop where
  organConductivity : 0 < e.organConductivity
  organPermittivity : 0 < e.organPermittivity
  organThickness : 0 ≤ e.organThickness
  muscleConductivity : 0 < e.muscleConductivity
  musclePermittivity : 0 < e.musclePermittivity
  muscleThickness : 0 ≤ e.muscleThickness
  muscleLayer : 0 ≤ e.muscleLayer
  fatConductivity : 0 < e.fatConductivity
  fatPermittivity : 0 < e.fatPermittivity
  fatThickness : 0 ≤ e.fatThickness
  fatLayer : 0 ≤ e.fatLayer
  skinConductivity : 0 < e.skinConductivity
  skinPermittivity : 0 < e.skinPermittivity
  skinThickness : 0 < e.skinThickness

/-- The layer counts held in `m_parameters` are never negative. -/
def LayerInv (s : BodyPropagationLossModel) : Prop :=
  0 ≤ s.m_parameters.fatLayer ∧ 0 ≤ s.m_parameters.muscleLayer

/-- The two fat-only profiles. -/
def BodyOrganOption.isFat : BodyOrganOption → Bool
  | .FAT_2400_MHZ | .FAT_402_MHZ => true
  | _ => false

/-- The three skin-only profiles. -/
def BodyOrganOption.isSkin : BodyOrganOption → Bool
  | .SKIN_2400_MHZ | .SKIN_863_MHZ | .SKIN_402_MHZ => true
  | _ => false

/-- Whether an event is a phase-1 transmitter send. -/
def Event.isPhase1Send : Event → Bool
  | .phase1Send _ => true
  | _ => false

/-- Whether an event is a jammer send. -/
def Event.isJamSend : Event → Bool
  | .jamSend _ => true
  | _ => false

/-- Whether an event is a phase-2 transmitter send. -/
def Event.isPhase2Send : Event → Bool
  | .phase2Send _ => true
  | _ => false

/-- The stage of a run an event belongs to: 0 for the phase-1 arming and sends,
2 for the phase-2 arming, 3 for the phase-2 sends, 4 for the stop. -/
def Event.stage : Event → Nat
  | .phase1Arm => 0
  | .phase1Send _ => 0
  | .phase2Arm => 2
  | .jamSend _ => 3
  | .phase2Send _ => 3
  | .stop => 4

/-- The received power `RunScenario` computes for the transmitter-receiver link
with a body model in state `bodyLoss`, after selecting `organ`. -/
def bodyRxOf (L : Libm) (bodyLoss : BodyPropagationLossModel) (organ : BodyOrganOption)
    (mTx mRx : Ptr) : ℚ :=
  (bodyLoss.SetBodyOptions organ).CalcRxPower L kTxPowerDbm mTx mRx

/-- The experiment's gate: selective attenuation with the transmitter's mobility
model as the only registered endpoint, and the three addresses of the context. -/
def ExperimentInv (mTx mRx mJam : Ptr) (ctx : SimulationContext) : Prop :=
  ctx.bodyLoss.m_useSelectiveAttenuation = true ∧ ctx.bodyLoss.m_bodyMobility = {mTx} ∧
    ctx.mTx = mTx ∧ ctx.mRx = mRx ∧ ctx.mJam = mJam

/-- The value of `scanPos` after `k` executions of `scanPos += scanStep` in
binary64 arithmetic, from the value `scanPos` on. -/
def accumulatedSum (scanStep : ℚ) : Nat → ℚ → ℚ
  | 0, scanPos => scanPos
  | k + 1, scanPos => accumulatedSum scanStep k (roundBinary64 (scanPos + scanStep))

/-- Comparing events by timestamp is total. -/
instance timeLE_total : IsTotal (ℚ × Event) (fun x y => x.1 ≤ y.1) :=
  ⟨fun a b => le_total a.1 b.1⟩

/-- Comparing events by timestamp is transitive. -/
instance timeLE_trans : IsTrans (ℚ × Event) (fun x y => x.1 ≤ y.1) :=
  ⟨fun _ _ _ h1 h2 => le_trans h1 h2⟩

/-! # Properties -/

/-! ## The applicability gate -/

theorem gateInv_construct : GateInv BodyPropagationLossModel.construct := by
  simp [GateInv, BodyPropagationLossModel.construct, BodyPropagationLossModel.SetBodyOptions]

theorem gateInv_apply (s : BodyPropagationLossModel) (c : Call) (h : GateInv s) :
    GateInv (Call.apply s c) := by
  obtain ⟨h0, hflag⟩ := h
  cases c with
  | AddBodyMobility mobility =>
    by_cases hm : mobility = 0
    · simpa [Call.apply, BodyPropagationLossModel.AddBodyMobility, hm, GateInv] using ⟨h0, hflag⟩
    · have hne : (0 : Ptr) ≠ mobility := fun h => hm h.symm
      simp [Call.apply, BodyPropagationLossModel.AddBodyMobility, hm, GateInv, h0, hne,
        Finset.insert_ne_empty]
  | ClearBodyMobility =>
    simp [Call.apply, BodyPropagationLossModel.ClearBodyMobility, GateInv]
  | SetBodyOptions bodyOption =>
    simpa [Call.apply, BodyPropagationLossModel.SetBodyOptions, GateInv] using ⟨h0, hflag⟩
  | SetFatLayer fatLayer =>
    simpa [Call.apply, BodyPropagationLossModel.SetFatLayer, GateInv] using ⟨h0, hflag⟩
  | SetMuscleLayer muscleLayer =>
    simpa [Call.apply, BodyPropagationLossModel.SetMuscleLayer, GateInv] using ⟨h0, hflag⟩

theorem gateInv_foldl (calls : List Call) (s : BodyPropagationLossModel) (h : GateInv s) :
    GateInv (calls.foldl Call.apply s) := by
  induction calls generalizing s with
  | nil => simpa using h
  | cons c cs ih => exact ih _ (gateInv_apply s c h)

theorem gateInv_afterCalls (calls : List Call) : GateInv (afterCalls calls) :=
  gateInv_foldl calls _ gateInv_construct

theorem shouldApply_eq (s : BodyPropagationLossModel) (a b : Ptr) :
    s.ShouldApplyBodyLoss a b =
      (!s.m_useSelectiveAttenuation || decide (a ∈ s.m_bodyMobility) ||
        decide (b ∈ s.m_bodyMobility)) := by
  have ha : (if a ≠ 0 then a else 0) = a := by
    by_cases h : a = 0 <;> simp [h]
  have hb : (if b ≠ 0 then b else 0) = b := by
    by_cases h : b = 0 <;> simp [h]
  unfold BodyPropagationLossModel.ShouldApplyBodyLoss
  simp only [ha, hb]
  cases s.m_useSelectiveAttenuation <;> simp

theorem doCalcRxPower_of_gate (L : Libm) (self : BodyPropagationLossModel) (txPowerDbm : ℚ)
    (a b : Ptr) (hgate : self.ShouldApplyBodyLoss a b = true) :
    self.DoCalcRxPower L txPowerDbm a b =
      txPowerDbm - totalDb L (tableAt self.m_bodyOption.toUInt32) self.m_parameters := by
  simp [BodyPropagationLossModel.DoCalcRxPower, hgate]

/-- C1: in every model state reachable from construction by member-function
calls, the body loss is applied to every link when no in-body endpoint is
registered, otherwise exactly to the links with a registered endpoint; a link
it is not applied to gets its transmit power back unchanged, a link it is
applied to gets the transmit power minus the total loss. -/
theorem gate_applies_iff_empty_or_member (L : Libm) (calls : List Call) (a b : Ptr)
    (txPowerDbm : ℚ) :
    ((afterCalls calls).m_bodyMobility = ∅ →
        (afterCalls calls).ShouldApplyBodyLoss a b = true) ∧
      ((afterCalls calls).m_bodyMobility ≠ ∅ →
        ((afterCalls calls).ShouldApplyBodyLoss a b = true ↔
          a ∈ (afterCalls calls).m_bodyMobility ∨ b ∈ (afterCalls calls).m_bodyMobility)) ∧
      ((afterCalls calls).ShouldApplyBodyLoss a b = false →
        (afterCalls calls).DoCalcRxPower L txPowerDbm a b = txPowerDbm) ∧
      ((afterCalls calls).ShouldApplyBodyLoss a b = true →
        (afterCalls calls).DoCalcRxPower L txPowerDbm a b =
          txPowerDbm -
            totalDb L (tableAt (afterCalls calls).m_bodyOption.toUInt32)
              (afterCalls calls).m_parameters) := by
  obtain ⟨_, hflag⟩ := gateInv_afterCalls calls
  refine ⟨?_, ?_, ?_, doCalcRxPower_of_gate L _ txPowerDbm a b⟩
  · intro hempty
    have hoff : (afterCalls calls).m_useSelectiveAttenuation = false := by
      cases hsel : (afterCalls calls).m_useSelectiveAttenuation with
      | false => rfl
      | true => exact absurd hempty (hflag.mp hsel)
    simp [shouldApply_eq, hoff]
  · intro hne
    have hon : (afterCalls calls).m_useSelectiveAttenuation = true := hflag.mpr hne
    simp [shouldApply_eq, hon]
  · intro hno
    simp [BodyPropagationLossModel.DoCalcRxPower, hno]

/-! ## The loss formula -/

theorem organDb_eq_spec (L : Libm) (p : BodyDielectricParameters) :
    organDb L p = specLayerLoss L p.organConductivity p.organPermittivity p.organThickness 1 := by
  simp [organDb, specLayerLoss]

theorem skinDb_eq_spec (L : Libm) (p : BodyDielectricParameters) :
    skinDb L p = specLayerLoss L p.skinConductivity p.skinPermittivity p.skinThickness 1 := by
  simp [skinDb, specLayerLoss]

theorem fatDb_eq_spec (L : Libm) (p m : BodyDielectricParameters) :
    fatDb L p m =
      specLayerLoss L p.fatConductivity p.fatPermittivity p.fatThickness
        (p.fatLayer * m.fatLayer) := by
  simp only [fatDb, specLayerLoss]
  ring

theorem muscleDb_eq_spec (L : Libm) (p m : BodyDielectricParameters) :
    muscleDb L p m =
      specLayerLoss L p.muscleConductivity p.musclePermittivity p.muscleThickness
        (p.muscleLayer * m.muscleLayer) := by
  simp only [muscleDb, specLayerLoss]
  ring

theorem doCalcRxPower_eq_spec (L : Libm) (self : BodyPropagationLossModel) (txPowerDbm : ℚ)
    (a b : Ptr) (hgate : self.ShouldApplyBodyLoss a b = true) :
    self.DoCalcRxPower L txPowerDbm a b =
      txPowerDbm -
        (specLayerLoss L (tableAt self.m_bodyOption.toUInt32).organConductivity
            (tableAt self.m_bodyOption.toUInt32).organPermittivity
            (tableAt self.m_bodyOption.toUInt32).organThickness 1 +
          specLayerLoss L (tableAt self.m_bodyOption.toUInt32).skinConductivity
            (tableAt self.m_bodyOption.toUInt32).skinPermittivity
            (tableAt self.m_bodyOption.toUInt32).skinThickness 1 +
          specLayerLoss L (tableAt self.m_bodyOption.toUInt32).fatConductivity
            (tableAt self.m_bodyOption.toUInt32).fatPermittivity
            (tableAt self.m_bodyOption.toUInt32).fatThickness
            ((tableAt self.m_bodyOption.toUInt32).fatLayer * self.m_parameters.fatLayer) +
          specLayerLoss L (tableAt self.m_bodyOption.toUInt32).muscleConductivity
            (tableAt self.m_bodyOption.toUInt32).musclePermittivity
            (tableAt self.m_bodyOption.toUInt32).muscleThickness
            ((tableAt self.m_bodyOption.toUInt32).muscleLayer *
              self.m_parameters.muscleLayer)) := by
  rw [doCalcRxPower_of_gate L self txPowerDbm a b hgate, totalDb, organDb_eq_spec,
    skinDb_eq_spec, fatDb_eq_spec, muscleDb_eq_spec]

/-- C2: when the gate applies, `DoCalcRxPower` returns the transmit power minus
the sum of the organ, skin, fat and muscle losses, each given by the formula of
the specification with multiplier 1 for organ and skin and (built-in layer count
of the selected catalog entry) * (current override) for fat and muscle.  This
holds in any state of the model, in particular after `SetFatLayer f` and
`SetMuscleLayer m`; and replacing the muscle override `m` by `2 * m` doubles
the muscle term and leaves the other three terms as they were. -/
theorem doCalcRxPower_layer_formula (L : Libm) (self : BodyPropagationLossModel)
    (txPowerDbm : ℚ) (a b : Ptr) (f m : Nat)
    (hgate : self.ShouldApplyBodyLoss a b = true)
    (hf : f < 4294967296) (hm : m < 4294967296) :
    self.DoCalcRxPower L txPowerDbm a b =
        txPowerDbm -
          (specLayerLoss L (tableAt self.m_bodyOption.toUInt32).organConductivity
              (tableAt self.m_bodyOption.toUInt32).organPermittivity
              (tableAt self.m_bodyOption.toUInt32).organThickness 1 +
            specLayerLoss L (tableAt self.m_bodyOption.toUInt32).skinConductivity
              (tableAt self.m_bodyOption.toUInt32).skinPermittivity
              (tableAt self.m_bodyOption.toUInt32).skinThickness 1 +
            specLayerLoss L (tableAt self.m_bodyOption.toUInt32).fatConductivity
              (tableAt self.m_bodyOption.toUInt32).fatPermittivity
              (tableAt self.m_bodyOption.toUInt32).fatThickness
              ((tableAt self.m_bodyOption.toUInt32).fatLayer * self.m_parameters.fatLayer) +
            specLayerLoss L (tableAt self.m_bodyOption.toUInt32).muscleConductivity
              (tableAt self.m_bodyOption.toUInt32).musclePermittivity
              (tableAt self.m_bodyOption.toUInt32).muscleThickness
              ((tableAt self.m_bodyOption.toUInt32).muscleLayer *
                self.m_parameters.muscleLayer)) ∧
      ((self.SetFatLayer f).SetMuscleLayer m).DoCalcRxPower L txPowerDbm a b =
        txPowerDbm -
          (specLayerLoss L (tableAt self.m_bodyOption.toUInt32).organConductivity
              (tableAt self.m_bodyOption.toUInt32).organPermittivity
              (tableAt self.m_bodyOption.toUInt32).organThickness 1 +
            specLayerLoss L (tableAt self.m_bodyOption.toUInt32).skinConductivity
              (tableAt self.m_bodyOption.toUInt32).skinPermittivity
              (tableAt self.m_bodyOption.toUInt32).skinThickness 1 +
            specLayerLoss L (tableAt self.m_bodyOption.toUInt32).fatConductivity
              (tableAt self.m_bodyOption.toUInt32).fatPermittivity
              (tableAt self.m_bodyOption.toUInt32).fatThickness
              ((tableAt self.m_bodyOption.toUInt32).fatLayer * (f : ℚ)) +
            specLayerLoss L (tableAt self.m_bodyOption.toUInt32).muscleConductivity
              (tableAt self.m_bodyOption.toUInt32).musclePermittivity
              (tableAt self.m_bodyOption.toUInt32).muscleThickness
              ((tableAt self.m_bodyOption.toUInt32).muscleLayer * (m : ℚ))) ∧
      (2 * m < 4294967296 →
        ((self.SetFatLayer f).SetMuscleLayer (2 * m)).DoCalcRxPower L txPowerDbm a b =
          txPowerDbm -
            (specLayerLoss L (tableAt self.m_bodyOption.toUInt32).organConductivity
                (tableAt self.m_bodyOption.toUInt32).organPermittivity
                (tableAt self.m_bodyOption.toUInt32).organThickness 1 +
              specLayerLoss L (tableAt self.m_bodyOption.toUInt32).skinConductivity
                (tableAt self.m_bodyOption.toUInt32).skinPermittivity
                (tableAt self.m_bodyOption.toUInt32).skinThickness 1 +
              specLayerLoss L (tableAt self.m_bodyOption.toUInt32).fatConductivity
                (tableAt self.m_bodyOption.toUInt32).fatPermittivity
                (tableAt self.m_bodyOption.toUInt32).fatThickness
                ((tableAt self.m_bodyOption.toUInt32).fatLayer * (f : ℚ)) +
              2 * specLayerLoss L (tableAt self.m_bodyOption.toUInt32).muscleConductivity
                (tableAt self.m_bodyOption.toUInt32).musclePermittivity
                (tableAt self.m_bodyOption.toUInt32).muscleThickness
                ((tableAt self.m_bodyOption.toUInt32).muscleLayer * (m : ℚ)))) := by
  have hgate2 : ∀ n : Nat,
      ((self.SetFatLayer f).SetMuscleLayer n).ShouldApplyBodyLoss a b = true := by
    intro n
    have h := hgate
    rw [shouldApply_eq] at h
    rw [shouldApply_eq]
    simpa [BodyPropagationLossModel.SetFatLayer, BodyPropagationLossModel.SetMuscleLayer]
      using h
  refine ⟨doCalcRxPower_eq_spec L self txPowerDbm a b hgate, ?_, ?_⟩
  · rw [doCalcRxPower_eq_spec L _ txPowerDbm a b (hgate2 m)]
    simp [BodyPropagationLossModel.SetFatLayer, BodyPropagationLossModel.SetMuscleLayer,
      Nat.mod_eq_of_lt hf, Nat.mod_eq_of_lt hm]
  · intro h2m
    rw [doCalcRxPower_eq_spec L _ txPowerDbm a b (hgate2 (2 * m))]
    simp only [BodyPropagationLossModel.SetFatLayer, BodyPropagationLossModel.SetMuscleLayer,
      Nat.mod_eq_of_lt hf, Nat.mod_eq_of_lt h2m, specLayerLoss]
    push_cast
    ring

theorem heron_pos (x : ℚ) (hx : 0 < x) (n : Nat) : 0 < heron x n := by
  induction n with
  | zero =>
    simp only [heron]
    linarith
  | succ n ih =>
    simp only [heron]
    have : 0 < x / heron x n := div_pos hx ih
    linarith

theorem refLibm_sane : refLibm.Sane := by
  refine ⟨?_, ?_⟩
  · norm_num [refLibm]
  · intro x hx
    exact heron_pos x hx 6

/-- The witness of C2: the legacy gate of a fresh model applies to the link
between endpoints 1 and 2, and the formula holds there for the overrides 3 and 5. -/
theorem doCalcRxPower_layer_formula_witness :
    BodyPropagationLossModel.construct.ShouldApplyBodyLoss 1 2 = true ∧
      ((BodyPropagationLossModel.construct.SetFatLayer 3).SetMuscleLayer 5).DoCalcRxPower
          refLibm (-16) 1 2 =
        (-16) -
          (specLayerLoss refLibm 1.9035 66.086 0.01 1 +
            specLayerLoss refLibm 0.68892 46.741 0.0013 1 +
            specLayerLoss refLibm 0.041151 5.5789 0.046 (1 * 3) +
            specLayerLoss refLibm 0.79682 57.112 0.012 (1 * 5)) := by
  have hgate : BodyPropagationLossModel.construct.ShouldApplyBodyLoss 1 2 = true := by
    simp [shouldApply_eq, BodyPropagationLossModel.construct,
      BodyPropagationLossModel.SetBodyOptions]
  refine ⟨hgate, ?_⟩
  have h := (doCalcRxPower_layer_formula refLibm BodyPropagationLossModel.construct (-16) 1 2
    3 5 hgate (by norm_num) (by norm_num)).2.1
  simpa [BodyPropagationLossModel.construct, BodyPropagationLossModel.SetBodyOptions, tableAt,
    DielectricParameters, row, BodyOrganOption.toUInt32] using h

/-! ## Layer counts after `SetBodyOptions` -/

theorem tableAt_fatLayer (k : BodyOrganOption) :
    (tableAt k.toUInt32).fatLayer =
        (match k with
          | .FAT_2400_MHZ | .FAT_402_MHZ => 2
          | .SKIN_2400_MHZ | .SKIN_863_MHZ | .SKIN_402_MHZ => 0
          | _ => 1) := by
  cases k <;> rfl

theorem tableAt_muscleLayer (k : BodyOrganOption) :
    (tableAt k.toUInt32).muscleLayer =
        (match k with
          | .FAT_2400_MHZ | .FAT_402_MHZ => 0
          | .SKIN_2400_MHZ | .SKIN_863_MHZ | .SKIN_402_MHZ => 0
          | _ => 1) := by
  cases k <;> rfl

theorem getters_after_setBodyOptions (self : BodyPropagationLossModel) (k : BodyOrganOption) :
    (self.SetBodyOptions k).GetFatLayer =
        (match k with
          | .FAT_2400_MHZ | .FAT_402_MHZ => 2
          | .SKIN_2400_MHZ | .SKIN_863_MHZ | .SKIN_402_MHZ => 0
          | _ => 1) ∧
      (self.SetBodyOptions k).GetMuscleLayer =
        (match k with
          | .FAT_2400_MHZ | .FAT_402_MHZ => 0
          | .SKIN_2400_MHZ | .SKIN_863_MHZ | .SKIN_402_MHZ => 0
          | _ => 1) := by
  simp only [BodyPropagationLossModel.SetBodyOptions, BodyPropagationLossModel.GetFatLayer,
    BodyPropagationLossModel.GetMuscleLayer, tableAt_fatLayer, tableAt_muscleLayer, toUInt32]
  cases k <;> simp

/-- C3, evaluated on the code: after `SetBodyOptions(FAT_2400_MHZ)` on a fresh
model, with no call to `SetFatLayer` or `SetMuscleLayer`, `GetFatLayer()` is 2
and `GetMuscleLayer()` is 0, and after `SetBodyOptions(SKIN_2400_MHZ)` both are
0: the overrides are the built-in layer counts of the row, not 1. -/
theorem getFatLayer_after_setBodyOptions_fat_2400 :
    (BodyPropagationLossModel.construct.SetBodyOptions .FAT_2400_MHZ).GetFatLayer = 2 ∧
      (BodyPropagationLossModel.construct.SetBodyOptions .FAT_2400_MHZ).GetMuscleLayer = 0 ∧
      (BodyPropagationLossModel.construct.SetBodyOptions .SKIN_2400_MHZ).GetFatLayer = 0 ∧
      (BodyPropagationLossModel.construct.SetBodyOptions .SKIN_2400_MHZ).GetMuscleLayer = 0 :=
  ⟨(getters_after_setBodyOptions _ .FAT_2400_MHZ).1,
    (getters_after_setBodyOptions _ .FAT_2400_MHZ).2,
    (getters_after_setBodyOptions _ .SKIN_2400_MHZ).1,
    (getters_after_setBodyOptions _ .SKIN_2400_MHZ).2⟩

/-! ## Sign of the loss -/

theorem rowSigns_tableAt (k : BodyOrganOption) : RowSigns (tableAt k.toUInt32) := by
  cases k <;> constructor <;>
    (simp only [tableAt, DielectricParameters, BodyOrganOption.toUInt32, List.getD_cons_succ,
      List.getD_cons_zero, row]
     norm_num)

theorem coeff_pos (L : Libm) (hL : L.Sane) {c p : ℚ} (hc : 0 < c) (hp : 0 < p) :
    0 < 520.8 * L.M_PI * c / L.pow p 0.5 :=
  div_pos (mul_pos (mul_pos (by norm_num) hL.1) hc) (hL.2 p hp)

theorem totalDb_nonneg (L : Libm) (hL : L.Sane) (p m : BodyDielectricParameters)
    (hp : RowSigns p) (hfat : 0 ≤ m.fatLayer) (hmuscle : 0 ≤ m.muscleLayer) :
    0 ≤ totalDb L p m := by
  have ho := (coeff_pos L hL hp.organConductivity hp.organPermittivity).le
  have hm := (coeff_pos L hL hp.muscleConductivity hp.musclePermittivity).le
  have hf := (coeff_pos L hL hp.fatConductivity hp.fatPermittivity).le
  have hs := (coeff_pos L hL hp.skinConductivity hp.skinPermittivity).le
  have h1 : 0 ≤ organDb L p := mul_nonneg ho hp.organThickness
  have h2 : 0 ≤ skinDb L p := mul_nonneg hs hp.skinThickness.le
  have h3 : 0 ≤ fatDb L p m :=
    mul_nonneg (mul_nonneg (mul_nonneg hf hp.fatThickness) hp.fatLayer) hfat
  have h4 : 0 ≤ muscleDb L p m :=
    mul_nonneg (mul_nonneg (mul_nonneg hm hp.muscleThickness) hp.muscleLayer) hmuscle
  unfold totalDb
  linarith

theorem layerInv_setBodyOptions (s : BodyPropagationLossModel) (k : BodyOrganOption) :
    LayerInv (s.SetBodyOptions k) :=
  ⟨(rowSigns_tableAt k).fatLayer, (rowSigns_tableAt k).muscleLayer⟩

theorem layerInv_apply (s : BodyPropagationLossModel) (c : Call) (h : LayerInv s) :
    LayerInv (Call.apply s c) := by
  cases c with
  | AddBodyMobility mobility =>
    by_cases hm : mobility = 0 <;>
      simpa [Call.apply, BodyPropagationLossModel.AddBodyMobility, hm, LayerInv] using h
  | ClearBodyMobility => exact h
  | SetBodyOptions bodyOption => exact layerInv_setBodyOptions s bodyOption
  | SetFatLayer fatLayer =>
    exact ⟨by simp [Call.apply, BodyPropagationLossModel.SetFatLayer], h.2⟩
  | SetMuscleLayer muscleLayer =>
    exact ⟨h.1, by simp [Call.apply, BodyPropagationLossModel.SetMuscleLayer]⟩

theorem layerInv_foldl (calls : List Call) (s : BodyPropagationLossModel) (h : LayerInv s) :
    LayerInv (calls.foldl Call.apply s) := by
  induction calls generalizing s with
  | nil => simpa using h
  | cons c cs ih => exact ih _ (layerInv_apply s c h)

theorem layerInv_afterCalls (calls : List Call) : LayerInv (afterCalls calls) :=
  layerInv_foldl calls _ (layerInv_setBodyOptions _ _)

theorem doCalcRxPower_le (L : Libm) (s : BodyPropagationLossModel) (txPowerDbm : ℚ)
    (a b : Ptr) (h : 0 ≤ totalDb L (tableAt s.m_bodyOption.toUInt32) s.m_parameters) :
    s.DoCalcRxPower L txPowerDbm a b ≤ txPowerDbm := by
  unfold BodyPropagationLossModel.DoCalcRxPower
  split
  · exact le_refl _
  · simp only
    linarith

/-- C4: for every catalog key `k` and all overrides `f`, `m` given to
`SetFatLayer` and `SetMuscleLayer` (whatever calls came before), the total
additional loss is non-negative and the received power `DoCalcRxPower` returns
is at most the transmit power; the same holds in every state reachable from
construction. -/
theorem totalDb_nonneg_every_key (L : Libm) (hL : L.Sane) (calls : List Call)
    (k : BodyOrganOption) (f m : Nat) (txPowerDbm : ℚ) (a b : Ptr) :
    0 ≤ totalDb L (tableAt k.toUInt32)
          ((((afterCalls calls).SetBodyOptions k).SetFatLayer f).SetMuscleLayer m).m_parameters ∧
      ((((afterCalls calls).SetBodyOptions k).SetFatLayer f).SetMuscleLayer m).DoCalcRxPower
          L txPowerDbm a b ≤ txPowerDbm ∧
      0 ≤ totalDb L (tableAt (afterCalls calls).m_bodyOption.toUInt32)
          (afterCalls calls).m_parameters ∧
      (afterCalls calls).DoCalcRxPower L txPowerDbm a b ≤ txPowerDbm := by
  have h1 : 0 ≤ totalDb L (tableAt k.toUInt32)
      ((((afterCalls calls).SetBodyOptions k).SetFatLayer f).SetMuscleLayer m).m_parameters :=
    totalDb_nonneg L hL _ _ (rowSigns_tableAt k)
      (by simp [BodyPropagationLossModel.SetFatLayer, BodyPropagationLossModel.SetMuscleLayer])
      (by simp [BodyPropagationLossModel.SetMuscleLayer])
  have h2 : 0 ≤ totalDb L (tableAt (afterCalls calls).m_bodyOption.toUInt32)
      (afterCalls calls).m_parameters :=
    totalDb_nonneg L hL _ _ (rowSigns_tableAt _) (layerInv_afterCalls calls).1
      (layerInv_afterCalls calls).2
  exact ⟨h1, doCalcRxPower_le L _ txPowerDbm a b h1, h2, doCalcRxPower_le L _ txPowerDbm a b h2⟩

/-- The witness of C4: the reference math library is sane, and the bound holds
for `FAT_2400_MHZ` with overrides 4294967295 and 7 on a fresh model. -/
theorem totalDb_nonneg_every_key_witness :
    refLibm.Sane ∧
      (((BodyPropagationLossModel.construct.SetBodyOptions .FAT_2400_MHZ).SetFatLayer
          4294967295).SetMuscleLayer 7).DoCalcRxPower refLibm (-16) 1 2 ≤ -16 :=
  ⟨refLibm_sane,
    (totalDb_nonneg_every_key refLibm refLibm_sane [] .FAT_2400_MHZ 4294967295 7 (-16) 1 2).2.1⟩

/-! ## Monotonicity of the loss in the parameters of a row -/

theorem strictMono_of_affine {g : ℚ → ℚ} {c₀ c : ℚ} (hg : ∀ t, g t = c₀ + c * t)
    (hc : 0 < c) : StrictMono g := by
  intro x y hxy
  rw [hg x, hg y]
  have := mul_lt_mul_of_pos_left hxy hc
  linarith

theorem const_of_affine {g : ℚ → ℚ} {c₀ c : ℚ} (hg : ∀ t, g t = c₀ + c * t)
    (hc : c = 0) (x y : ℚ) : g x = g y := by
  rw [hg x, hg y, hc]
  ring

theorem totalDb_organThickness (L : Libm) (p m : BodyDielectricParameters) (t : ℚ) :
    totalDb L { p with organThickness := t } m =
      totalDb L { p with organThickness := 0 } m +
        (520.8 * L.M_PI * p.organConductivity / L.pow p.organPermittivity 0.5) * t := by
  simp only [totalDb, organDb, skinDb, fatDb, muscleDb]
  ring

theorem totalDb_skinThickness (L : Libm) (p m : BodyDielectricParameters) (t : ℚ) :
    totalDb L { p with skinThickness := t } m =
      totalDb L { p with skinThickness := 0 } m +
        (520.8 * L.M_PI * p.skinConductivity / L.pow p.skinPermittivity 0.5) * t := by
  simp only [totalDb, organDb, skinDb, fatDb, muscleDb]
  ring

theorem totalDb_muscleThickness (L : Libm) (p m : BodyDielectricParameters) (t : ℚ) :
    totalDb L { p with muscleThickness := t } m =
      totalDb L { p with muscleThickness := 0 } m +
        (520.8 * L.M_PI * p.muscleConductivity / L.pow p.musclePermittivity 0.5 *
          (p.muscleLayer * m.muscleLayer)) * t := by
  simp only [totalDb, organDb, skinDb, fatDb, muscleDb]
  ring

theorem totalDb_fatThickness (L : Libm) (p m : BodyDielectricParameters) (t : ℚ) :
    totalDb L { p with fatThickness := t } m =
      totalDb L { p with fatThickness := 0 } m +
        (520.8 * L.M_PI * p.fatConductivity / L.pow p.fatPermittivity 0.5 *
          (p.fatLayer * m.fatLayer)) * t := by
  simp only [totalDb, organDb, skinDb, fatDb, muscleDb]
  ring

theorem totalDb_organConductivity (L : Libm) (p m : BodyDielectricParameters) (c : ℚ) :
    totalDb L { p with organConductivity := c } m =
      totalDb L { p with organConductivity := 0 } m +
        (520.8 * L.M_PI * 1 / L.pow p.organPermittivity 0.5 * p.organThickness) * c := by
  simp only [totalDb, organDb, skinDb, fatDb, muscleDb]
  ring

theorem totalDb_skinConductivity (L : Libm) (p m : BodyDielectricParameters) (c : ℚ) :
    totalDb L { p with skinConductivity := c } m =
      totalDb L { p with skinConductivity := 0 } m +
        (520.8 * L.M_PI * 1 / L.pow p.skinPermittivity 0.5 * p.skinThickness) * c := by
  simp only [totalDb, organDb, skinDb, fatDb, muscleDb]
  ring

theorem totalDb_muscleConductivity (L : Libm) (p m : BodyDielectricParameters) (c : ℚ) :
    totalDb L { p with muscleConductivity := c } m =
      totalDb L { p with muscleConductivity := 0 } m +
        (520.8 * L.M_PI * 1 / L.pow p.musclePermittivity 0.5 *
          (p.muscleThickness * (p.muscleLayer * m.muscleLayer))) * c := by
  simp only [totalDb, organDb, skinDb, fatDb, muscleDb]
  ring

theorem totalDb_fatConductivity (L : Libm) (p m : BodyDielectricParameters) (c : ℚ) :
    totalDb L { p with fatConductivity := c } m =
      totalDb L { p with fatConductivity := 0 } m +
        (520.8 * L.M_PI * 1 / L.pow p.fatPermittivity 0.5 *
          (p.fatThickness * (p.fatLayer * m.fatLayer))) * c := by
  simp only [totalDb, organDb, skinDb, fatDb, muscleDb]
  ring

theorem row_zero_pattern (k : BodyOrganOption) :
    ((k.isFat || k.isSkin) = true →
        (tableAt k.toUInt32).organThickness = 0 ∧ (tableAt k.toUInt32).muscleThickness = 0 ∧
          (tableAt k.toUInt32).muscleLayer = 0) ∧
      ((k.isFat || k.isSkin) = false →
        0 < (tableAt k.toUInt32).organThickness ∧ 0 < (tableAt k.toUInt32).muscleThickness ∧
          0 < (tableAt k.toUInt32).muscleLayer) ∧
      (k.isSkin = true →
        (tableAt k.toUInt32).fatThickness = 0 ∧ (tableAt k.toUInt32).fatLayer = 0) ∧
      (k.isSkin = false →
        0 < (tableAt k.toUInt32).fatThickness ∧ 0 < (tableAt k.toUInt32).fatLayer) := by
  cases k <;>
    (simp only [tableAt, DielectricParameters, BodyOrganOption.toUInt32, List.getD_cons_succ,
      List.getD_cons_zero, row, BodyOrganOption.isFat, BodyOrganOption.isSkin]
     norm_num)

theorem default_overrides (k : BodyOrganOption) :
    (BodyPropagationLossModel.construct.SetBodyOptions k).m_parameters = tableAt k.toUInt32 :=
  rfl

/-- C5 as amended: with the other entries of row `k` fixed and the overrides
either those `SetBodyOptions(k)` leaves or both 1, the total additional loss is
strictly increasing in the organ and skin thickness and in the skin
conductivity for every key; in the muscle thickness and in the organ and muscle
conductivity it is strictly increasing for the eight organ keys and constant
for the FAT and SKIN keys; in the fat thickness and fat conductivity it is
strictly increasing for every key but the SKIN keys, where it is constant. -/
theorem totalDb_monotone_in_row_entries (L : Libm) (hL : L.Sane) (k : BodyOrganOption)
    (m : BodyDielectricParameters)
    (hm : m = (BodyPropagationLossModel.construct.SetBodyOptions k).m_parameters ∨
      (m.fatLayer = 1 ∧ m.muscleLayer = 1)) :
    StrictMono (fun t => totalDb L { tableAt k.toUInt32 with organThickness := t } m) ∧
      StrictMono (fun t => totalDb L { tableAt k.toUInt32 with skinThickness := t } m) ∧
      StrictMono (fun c => totalDb L { tableAt k.toUInt32 with skinConductivity := c } m) ∧
      (if (k.isFat || k.isSkin) = true then
          ∀ t t' : ℚ, totalDb L { tableAt k.toUInt32 with muscleThickness := t } m =
            totalDb L { tableAt k.toUInt32 with muscleThickness := t' } m
        else StrictMono (fun t => totalDb L { tableAt k.toUInt32 with muscleThickness := t } m)) ∧
      (if (k.isFat || k.isSkin) = true then
          ∀ c c' : ℚ, totalDb L { tableAt k.toUInt32 with organConductivity := c } m =
            totalDb L { tableAt k.toUInt32 with organConductivity := c' } m
        else
          StrictMono (fun c => totalDb L { tableAt k.toUInt32 with organConductivity := c } m)) ∧
      (if (k.isFat || k.isSkin) = true then
          ∀ c c' : ℚ, totalDb L { tableAt k.toUInt32 with muscleConductivity := c } m =
            totalDb L { tableAt k.toUInt32 with muscleConductivity := c' } m
        else
          StrictMono
            (fun c => totalDb L { tableAt k.toUInt32 with muscleConductivity := c } m)) ∧
      (if k.isSkin = true then
          ∀ t t' : ℚ, totalDb L { tableAt k.toUInt32 with fatThickness := t } m =
            totalDb L { tableAt k.toUInt32 with fatThickness := t' } m
        else StrictMono (fun t => totalDb L { tableAt k.toUInt32 with fatThickness := t } m)) ∧
      (if k.isSkin = true then
          ∀ c c' : ℚ, totalDb L { tableAt k.toUInt32 with fatConductivity := c } m =
            totalDb L { tableAt k.toUInt32 with fatConductivity := c' } m
        else
          StrictMono (fun c => totalDb L { tableAt k.toUInt32 with fatConductivity := c } m)) := by
  have hs := rowSigns_tableAt k
  obtain ⟨hz1, hp1, hz2, hp2⟩ := row_zero_pattern k
  have hpiO : 0 < 520.8 * L.M_PI * 1 / L.pow (tableAt k.toUInt32).organPermittivity 0.5 :=
    coeff_pos L hL one_pos hs.organPermittivity
  have hpiM : 0 < 520.8 * L.M_PI * 1 / L.pow (tableAt k.toUInt32).musclePermittivity 0.5 :=
    coeff_pos L hL one_pos hs.musclePermittivity
  have hpiF : 0 < 520.8 * L.M_PI * 1 / L.pow (tableAt k.toUInt32).fatPermittivity 0.5 :=
    coeff_pos L hL one_pos hs.fatPermittivity
  have hpiS : 0 < 520.8 * L.M_PI * 1 / L.pow (tableAt k.toUInt32).skinPermittivity 0.5 :=
    coeff_pos L hL one_pos hs.skinPermittivity
  have hmusc : 0 < (tableAt k.toUInt32).muscleLayer → 0 < m.muscleLayer := by
    intro h
    rcases hm with hm | hm
    · rw [hm, default_overrides]
      exact h
    · rw [hm.2]
      exact one_pos
  have hfat : 0 < (tableAt k.toUInt32).fatLayer → 0 < m.fatLayer := by
    intro h
    rcases hm with hm | hm
    · rw [hm, default_overrides]
      exact h
    · rw [hm.1]
      exact one_pos
  refine ⟨?_, ?_, ?_, ?_, ?_, ?_, ?_, ?_⟩
  · exact strictMono_of_affine (totalDb_organThickness L _ m)
      (coeff_pos L hL hs.organConductivity hs.organPermittivity)
  · exact strictMono_of_affine (totalDb_skinThickness L _ m)
      (coeff_pos L hL hs.skinConductivity hs.skinPermittivity)
  · exact strictMono_of_affine (totalDb_skinConductivity L _ m) (mul_pos hpiS hs.skinThickness)
  · split
    next h =>
      exact const_of_affine (totalDb_muscleThickness L _ m) (by rw [(hz1 h).2.2]; ring)
    next h =>
      have h' := hp1 (by simpa using h)
      exact strictMono_of_affine (totalDb_muscleThickness L _ m)
        (mul_pos (coeff_pos L hL hs.muscleConductivity hs.musclePermittivity)
          (mul_pos h'.2.2 (hmusc h'.2.2)))
  · split
    next h =>
      exact const_of_affine (totalDb_organConductivity L _ m) (by rw [(hz1 h).1]; ring)
    next h =>
      have h' := hp1 (by simpa using h)
      exact strictMono_of_affine (totalDb_organConductivity L _ m) (mul_pos hpiO h'.1)
  · split
    next h =>
      exact const_of_affine (totalDb_muscleConductivity L _ m) (by rw [(hz1 h).2.1]; ring)
    next h =>
      have h' := hp1 (by simpa using h)
      exact strictMono_of_affine (totalDb_muscleConductivity L _ m)
        (mul_pos hpiM (mul_pos h'.2.1 (mul_pos h'.2.2 (hmusc h'.2.2))))
  · split
    next h =>
      exact const_of_affine (totalDb_fatThickness L _ m) (by rw [(hz2 h).2]; ring)
    next h =>
      have h' := hp2 (by simpa using h)
      exact strictMono_of_affine (totalDb_fatThickness L _ m)
        (mul_pos (coeff_pos L hL hs.fatConductivity hs.fatPermittivity)
          (mul_pos h'.2 (hfat h'.2)))
  · split
    next h =>
      exact const_of_affine (totalDb_fatConductivity L _ m) (by rw [(hz2 h).1]; ring)
    next h =>
      have h' := hp2 (by simpa using h)
      exact strictMono_of_affine (totalDb_fatConductivity L _ m)
        (mul_pos hpiF (mul_pos h'.1 (mul_pos h'.2 (hfat h'.2))))

/-- The witness of C5: for `FAT_2400_MHZ` and the reference math library the
loss is strictly increasing in the fat thickness. -/
theorem totalDb_monotone_in_row_entries_witness :
    refLibm.Sane ∧
      StrictMono (fun t =>
        totalDb refLibm { tableAt BodyOrganOption.FAT_2400_MHZ.toUInt32 with fatThickness := t }
          (BodyPropagationLossModel.construct.SetBodyOptions .FAT_2400_MHZ).m_parameters) := by
  have h := (totalDb_monotone_in_row_entries refLibm refLibm_sane .FAT_2400_MHZ
    (BodyPropagationLossModel.construct.SetBodyOptions .FAT_2400_MHZ).m_parameters
    (Or.inl rfl)).2.2.2.2.2.2.1
  exact ⟨refLibm_sane, by simpa [BodyOrganOption.isSkin] using h⟩

theorem not_strictMono_fatThickness (L : Libm) (p m : BodyDielectricParameters)
    (h : p.fatLayer = 0) :
    ¬ StrictMono (fun t => totalDb L { p with fatThickness := t } m) := by
  intro hmono
  have hlt := hmono (show (0 : ℚ) < 1 from one_pos)
  have heq := const_of_affine (totalDb_fatThickness L p m) (by rw [h]; ring) 0 1
  simp only at hlt
  rw [heq] at hlt
  exact lt_irrefl _ hlt

/-- C5 as stated fails: for `SKIN_2400_MHZ` (built-in fat layer count 0) the
total additional loss does not depend on the fat thickness, with the overrides
`SetBodyOptions` leaves and with both overrides set to 1, so it is not strictly
increasing in it. -/
theorem totalDb_not_strictMono_fatThickness_skin_2400 :
    ¬ StrictMono (fun t =>
        totalDb refLibm { tableAt BodyOrganOption.SKIN_2400_MHZ.toUInt32 with fatThickness := t }
          (BodyPropagationLossModel.construct.SetBodyOptions .SKIN_2400_MHZ).m_parameters) ∧
      ¬ StrictMono (fun t =>
        totalDb refLibm { tableAt BodyOrganOption.SKIN_2400_MHZ.toUInt32 with fatThickness := t }
          (((BodyPropagationLossModel.construct.SetBodyOptions .SKIN_2400_MHZ).SetFatLayer
            1).SetMuscleLayer 1).m_parameters) :=
  ⟨not_strictMono_fatThickness refLibm _ _ rfl, not_strictMono_fatThickness refLibm _ _ rfl⟩

/-! ## The receive callback -/

/-- C6: for a received packet tagged TX or JAM, `RxIndication` adds one (modulo
2^32) to exactly one received counter - `g_noJamRx` when jamming is inactive,
`g_jamRxTx` when it is active and the tag is TX, `g_jamRxJam` when it is active
and the tag is JAM - and leaves the other two received counters, the three sent
counters and the flag as they were. -/
theorem rxIndication_counts_one (g : Globals) (psduLength packetSize tag : Nat)
    (htag : tag = SrcTag.TX ∨ tag = SrcTag.JAM) :
    (RxIndication g psduLength ⟨some tag⟩ packetSize).g_noJamSent = g.g_noJamSent ∧
      (RxIndication g psduLength ⟨some tag⟩ packetSize).g_jamSentTx = g.g_jamSentTx ∧
      (RxIndication g psduLength ⟨some tag⟩ packetSize).g_jamSentJam = g.g_jamSentJam ∧
      (RxIndication g psduLength ⟨some tag⟩ packetSize).g_jammingActive = g.g_jammingActive ∧
      (g.g_jammingActive = false →
        (RxIndication g psduLength ⟨some tag⟩ packetSize).g_noJamRx =
            (g.g_noJamRx + 1) % 4294967296 ∧
          (RxIndication g psduLength ⟨some tag⟩ packetSize).g_jamRxTx = g.g_jamRxTx ∧
          (RxIndication g psduLength ⟨some tag⟩ packetSize).g_jamRxJam = g.g_jamRxJam) ∧
      (g.g_jammingActive = true → tag = SrcTag.TX →
        (RxIndication g psduLength ⟨some tag⟩ packetSize).g_noJamRx = g.g_noJamRx ∧
          (RxIndication g psduLength ⟨some tag⟩ packetSize).g_jamRxTx =
            (g.g_jamRxTx + 1) % 4294967296 ∧
          (RxIndication g psduLength ⟨some tag⟩ packetSize).g_jamRxJam = g.g_jamRxJam) ∧
      (g.g_jammingActive = true → tag = SrcTag.JAM →
        (RxIndication g psduLength ⟨some tag⟩ packetSize).g_noJamRx = g.g_noJamRx ∧
          (RxIndication g psduLength ⟨some tag⟩ packetSize).g_jamRxTx = g.g_jamRxTx ∧
          (RxIndication g psduLength ⟨some tag⟩ packetSize).g_jamRxJam =
            (g.g_jamRxJam + 1) % 4294967296) := by
  rcases htag with rfl | rfl <;> cases hact : g.g_jammingActive <;>
    simp [RxIndication, Packet.PeekPacketTag, incr32, hact, SrcTag.TX, SrcTag.JAM]

/-- The witness of C6: a JAM packet received while jamming is active, with the
`g_jamRxJam` counter at its largest value, wraps that counter to 0. -/
theorem rxIndication_counts_one_witness :
    (SrcTag.JAM = SrcTag.TX ∨ SrcTag.JAM = SrcTag.JAM) ∧
      (RxIndication ⟨5, 4, 3, 2, 1, 4294967295, true⟩ 32 ⟨some SrcTag.JAM⟩ 32).g_jamRxJam =
        (4294967295 + 1) % 4294967296 :=
  ⟨Or.inr rfl,
    ((rxIndication_counts_one ⟨5, 4, 3, 2, 1, 4294967295, true⟩ 32 32 SrcTag.JAM
      (Or.inr rfl)).2.2.2.2.2.2 rfl rfl).2.2⟩

/-- C7 as stated fails: a packet whose source tag holds the byte 3 (neither TX
nor JAM) received while jamming is active increments `g_jamRxJam`, and received
while jamming is inactive increments `g_noJamRx`. -/
theorem rxIndication_counts_unknown_tag :
    RxIndication ⟨0, 0, 0, 0, 0, 0, true⟩ 32 ⟨some 3⟩ 32 = ⟨0, 0, 0, 0, 0, 1, true⟩ ∧
      RxIndication ⟨0, 0, 0, 0, 0, 0, false⟩ 32 ⟨some 3⟩ 32 = ⟨0, 1, 0, 0, 0, 0, false⟩ := by
  decide

/-- C7 as amended: a received packet that carries no source tag leaves all six
counters and the phase flag unchanged, whatever the counter state and the flag. -/
theorem rxIndication_untagged_ignored (g : Globals) (psduLength packetSize : Nat) :
    (RxIndication g psduLength ⟨none⟩ packetSize).g_noJamSent = g.g_noJamSent ∧
      (RxIndication g psduLength ⟨none⟩ packetSize).g_noJamRx = g.g_noJamRx ∧
      (RxIndication g psduLength ⟨none⟩ packetSize).g_jamSentTx = g.g_jamSentTx ∧
      (RxIndication g psduLength ⟨none⟩ packetSize).g_jamRxTx = g.g_jamRxTx ∧
      (RxIndication g psduLength ⟨none⟩ packetSize).g_jamSentJam = g.g_jamSentJam ∧
      (RxIndication g psduLength ⟨none⟩ packetSize).g_jamRxJam = g.g_jamRxJam ∧
      (RxIndication g psduLength ⟨none⟩ packetSize).g_jammingActive = g.g_jammingActive :=
  ⟨rfl, rfl, rfl, rfl, rfl, rfl, rfl⟩

/-! ## The schedule of one run -/

theorem scheduleLoop_eq (n : Nat) (delay : Nat → ℚ) (ev : Nat → Event) (q : EventQueue) :
    scheduleLoop n delay ev q = q ++ (List.range n).map (fun i => (delay i, ev i)) := by
  induction n with
  | zero => simp [scheduleLoop]
  | succ n ih =>
    unfold scheduleLoop at ih ⊢
    rw [List.range_succ, List.foldl_append, ih]
    simp [Schedule]

theorem scheduledEvents_eq (N M : Nat) :
    scheduledEvents N M =
      (0.2, Event.phase1Arm) ::
        ((List.range N).map (fun i : Nat => ((0.5 + i * kPktGapSeconds : ℚ), Event.phase1Send i)) ++
          (phase2Start N, Event.phase2Arm) ::
            ((List.range M).map
                (fun i : Nat => ((phase2Start N + i * kPktGapSeconds : ℚ), Event.jamSend i)) ++
              ((List.range M).map
                  (fun i : Nat => ((phase2Start N + i * kPktGapSeconds : ℚ), Event.phase2Send i)) ++
                [(simStop N M, Event.stop)]))) := by
  simp [scheduledEvents, scheduleLoop_eq, Schedule]

theorem scheduled_before_stop (N M : Nat) (x : ℚ × Event) (hx : x ∈ scheduledEvents N M) :
    (x.2 ≠ Event.stop → x.1 < simStop N M) ∧ (x.2 = Event.stop → x.1 = simStop N M) := by
  have hN : (0 : ℚ) ≤ N := Nat.cast_nonneg N
  have hM : (0 : ℚ) ≤ M := Nat.cast_nonneg M
  rw [scheduledEvents_eq] at hx
  simp only [List.mem_cons, List.mem_append, List.mem_map, List.mem_range, List.mem_singleton,
    List.not_mem_nil, or_false] at hx
  rcases hx with rfl | ⟨i, hi, rfl⟩ | rfl | ⟨i, hi, rfl⟩ | ⟨i, hi, rfl⟩ | rfl
  · refine ⟨fun _ => ?_, fun h => by simp at h⟩
    simp only [simStop, phase2Start, kPktGapSeconds, kGapBetweenPhases]
    norm_num
    nlinarith
  · have hi' : (i : ℚ) < N := by exact_mod_cast hi
    refine ⟨fun _ => ?_, fun h => by simp at h⟩
    simp only [simStop, phase2Start, kPktGapSeconds, kGapBetweenPhases]
    norm_num
    nlinarith
  · refine ⟨fun _ => ?_, fun h => by simp at h⟩
    simp only [simStop, phase2Start, kPktGapSeconds, kGapBetweenPhases]
    norm_num
    nlinarith
  · have hi' : (i : ℚ) < M := by exact_mod_cast hi
    refine ⟨fun _ => ?_, fun h => by simp at h⟩
    simp only [simStop, phase2Start, kPktGapSeconds, kGapBetweenPhases]
    norm_num
    nlinarith
  · have hi' : (i : ℚ) < M := by exact_mod_cast hi
    refine ⟨fun _ => ?_, fun h => by simp at h⟩
    simp only [simStop, phase2Start, kPktGapSeconds, kGapBetweenPhases]
    norm_num
    nlinarith
  · exact ⟨fun h => absurd rfl h, fun _ => rfl⟩

theorem firingOrder_sorted (q : EventQueue) :
    List.Sorted (fun x y : ℚ × Event => x.1 ≤ y.1) (firingOrder q) :=
  List.sorted_insertionSort _ q

theorem firingOrder_perm (q : EventQueue) : (firingOrder q).Perm q :=
  List.perm_insertionSort _ q

/-- In a time-sorted list whose stop events all carry the time `T` and whose
other events are earlier than `T`, the events ahead of the first stop event
are all the events other than stop. -/
theorem takeWhile_eq_filter_of_sorted (T : ℚ) (l : EventQueue)
    (hs : List.Sorted (fun x y : ℚ × Event => x.1 ≤ y.1) l)
    (hT : ∀ x ∈ l, (x.2 ≠ Event.stop → x.1 < T) ∧ (x.2 = Event.stop → x.1 = T)) :
    l.takeWhile (fun x => decide (x.2 ≠ Event.stop)) =
      l.filter (fun x => decide (x.2 ≠ Event.stop)) := by
  induction l with
  | nil => rfl
  | cons x t ih =>
    have hs' := List.sorted_cons.mp hs
    have ht : ∀ y ∈ t, (y.2 ≠ Event.stop → y.1 < T) ∧ (y.2 = Event.stop → y.1 = T) :=
      fun y hy => hT y (List.mem_cons_of_mem _ hy)
    by_cases hx : x.2 = Event.stop
    · have hxT : x.1 = T := (hT x (List.mem_cons_self _ _)).2 hx
      have hnone : ∀ y ∈ t, ¬ (decide (y.2 ≠ Event.stop) = true) := by
        intro y hy hny
        have h1 : x.1 ≤ y.1 := hs'.1 y hy
        have h2 : y.1 < T := (ht y hy).1 (by simpa using hny)
        linarith
      have hfil : t.filter (fun x => decide (x.2 ≠ Event.stop)) = [] :=
        List.filter_eq_nil_iff.mpr hnone
      have hpx : ¬ (decide (x.2 ≠ Event.stop) = true) := by simp [hx]
      rw [@List.takeWhile_cons_of_neg _ (fun x : ℚ × Event => decide (x.2 ≠ Event.stop)) x t hpx,
        @List.filter_cons_of_neg _ (fun x : ℚ × Event => decide (x.2 ≠ Event.stop)) x t hpx,
        hfil]
    · have hpx : decide (x.2 ≠ Event.stop) = true := by simp [hx]
      rw [@List.takeWhile_cons_of_pos _ (fun x : ℚ × Event => decide (x.2 ≠ Event.stop)) x t hpx,
        @List.filter_cons_of_pos _ (fun x : ℚ × Event => decide (x.2 ≠ Event.stop)) x t hpx,
        ih hs'.2 ht]

theorem firedEvents_eq_filter (N M : Nat) :
    firedEvents (scheduledEvents N M) =
      ((firingOrder (scheduledEvents N M)).filter
        (fun x => decide (x.2 ≠ Event.stop))).map Prod.snd := by
  unfold firedEvents
  rw [takeWhile_eq_filter_of_sorted (simStop N M) _ (firingOrder_sorted _)]
  intro x hx
  exact scheduled_before_stop N M x ((firingOrder_perm _).mem_iff.mp hx)

theorem mem_firedEvents (N M : Nat) (x : ℚ × Event) (hx : x ∈ scheduledEvents N M)
    (hns : x.2 ≠ Event.stop) : x.2 ∈ firedEvents (scheduledEvents N M) := by
  rw [firedEvents_eq_filter]
  refine List.mem_map.mpr ⟨x, List.mem_filter.mpr ⟨?_, by simpa using hns⟩, rfl⟩
  exact (firingOrder_perm _).mem_iff.mpr hx

theorem countP_firedEvents (N M : Nat) (p : Event → Bool) (hp : p Event.stop = false) :
    (firedEvents (scheduledEvents N M)).countP p =
      (scheduledEvents N M).countP (fun x => p x.2) := by
  rw [firedEvents_eq_filter, List.countP_map, List.countP_filter,
    ← (firingOrder_perm (scheduledEvents N M)).countP_eq]
  apply List.countP_congr
  intro x _
  by_cases hx : x.2 = Event.stop
  · simp [hx, hp]
  · simp [hx]

theorem countP_scheduled (N M : Nat) :
    (scheduledEvents N M).countP (fun x => x.2.isPhase1Send) = N ∧
      (scheduledEvents N M).countP (fun x => x.2.isJamSend) = M ∧
      (scheduledEvents N M).countP (fun x => x.2.isPhase2Send) = M := by
  rw [scheduledEvents_eq]
  simp [List.countP_cons, List.countP_append, List.countP_map, Event.isPhase1Send,
    Event.isJamSend, Event.isPhase2Send, Function.comp_def]

theorem rxIndication_sent (g : Globals) (n : Nat) (p : Packet) (k : Nat) :
    (RxIndication g n p k).g_noJamSent = g.g_noJamSent ∧
      (RxIndication g n p k).g_jamSentTx = g.g_jamSentTx ∧
      (RxIndication g n p k).g_jamSentJam = g.g_jamSentJam := by
  unfold RxIndication
  split
  · split
    · split <;> exact ⟨rfl, rfl, rfl⟩
    · exact ⟨rfl, rfl, rfl⟩
  · exact ⟨rfl, rfl, rfl⟩

theorem deliver_sent (calls : List RxCall) (g : Globals) :
    (deliver calls g).g_noJamSent = g.g_noJamSent ∧
      (deliver calls g).g_jamSentTx = g.g_jamSentTx ∧
      (deliver calls g).g_jamSentJam = g.g_jamSentJam := by
  induction calls generalizing g with
  | nil => exact ⟨rfl, rfl, rfl⟩
  | cons c cs ih =>
    have h1 := rxIndication_sent g c.psduLength c.p c.packetSize
    have h2 := ih (RxIndication g c.psduLength c.p c.packetSize)
    simp only [deliver, List.foldl_cons] at h2 ⊢
    exact ⟨h2.1.trans h1.1, h2.2.1.trans h1.2.1, h2.2.2.trans h1.2.2⟩

theorem fire_sent (e : Event) (g : Globals)
    (h1 : g.g_noJamSent < 4294967296) (h2 : g.g_jamSentTx < 4294967296)
    (h3 : g.g_jamSentJam < 4294967296) :
    (e.fire g).g_noJamSent =
        (g.g_noJamSent + if e.isPhase1Send = true then 1 else 0) % 4294967296 ∧
      (e.fire g).g_jamSentTx =
        (g.g_jamSentTx + if e.isPhase2Send = true then 1 else 0) % 4294967296 ∧
      (e.fire g).g_jamSentJam =
        (g.g_jamSentJam + if e.isJamSend = true then 1 else 0) % 4294967296 := by
  cases e <;>
    simp [Event.fire, incr32, Event.isPhase1Send, Event.isPhase2Send, Event.isJamSend,
      Nat.mod_eq_of_lt h1, Nat.mod_eq_of_lt h2, Nat.mod_eq_of_lt h3]

theorem runEvents_sent (phy : Nat → List RxCall) (es : List Event) (j : Nat) (g : Globals)
    (h1 : g.g_noJamSent < 4294967296) (h2 : g.g_jamSentTx < 4294967296)
    (h3 : g.g_jamSentJam < 4294967296) :
    (runEvents phy es j g).g_noJamSent =
        (g.g_noJamSent + es.countP Event.isPhase1Send) % 4294967296 ∧
      (runEvents phy es j g).g_jamSentTx =
        (g.g_jamSentTx + es.countP Event.isPhase2Send) % 4294967296 ∧
      (runEvents phy es j g).g_jamSentJam =
        (g.g_jamSentJam + es.countP Event.isJamSend) % 4294967296 := by
  induction es generalizing j g with
  | nil =>
    obtain ⟨d1, d2, d3⟩ := deliver_sent (phy j) g
    simp only [runEvents, List.countP_nil, Nat.add_zero, d1, d2, d3]
    omega
  | cons e es ih =>
    obtain ⟨d1, d2, d3⟩ := deliver_sent (phy j) g
    obtain ⟨f1, f2, f3⟩ := fire_sent e (deliver (phy j) g) (d1 ▸ h1) (d2 ▸ h2) (d3 ▸ h3)
    have hpos : 0 < 4294967296 := by norm_num
    obtain ⟨r1, r2, r3⟩ := ih (j + 1) (e.fire (deliver (phy j) g))
      (f1 ▸ Nat.mod_lt _ hpos) (f2 ▸ Nat.mod_lt _ hpos) (f3 ▸ Nat.mod_lt _ hpos)
    simp only [runEvents, List.countP_cons]
    rw [r1, r2, r3, f1, f2, f3, d1, d2, d3]
    refine ⟨?_, ?_, ?_⟩ <;> omega

theorem runScenario_sent (N M : Nat) (hN : N < 4294967296) (hM : M < 4294967296)
    (phy : Nat → List RxCall) (g : Globals) :
    (RunScenario N M phy g).1.noJamSent = N ∧ (RunScenario N M phy g).1.jamSentTx = M ∧
      (RunScenario N M phy g).1.jamSentJam = M := by
  obtain ⟨c1, c2, c3⟩ := countP_scheduled N M
  obtain ⟨r1, r2, r3⟩ := runEvents_sent phy (firedEvents (scheduledEvents N M)) 0
    (ResetCounters g) (by simp [ResetCounters]) (by simp [ResetCounters])
    (by simp [ResetCounters])
  rw [countP_firedEvents N M _ rfl, c1] at r1
  rw [countP_firedEvents N M _ rfl, c3] at r2
  rw [countP_firedEvents N M _ rfl, c2] at r3
  simp only [RunScenario]
  rw [r1, r2, r3]
  simp [ResetCounters, Nat.mod_eq_of_lt hN, Nat.mod_eq_of_lt hM]

/-- C8: for packet counts `N` and `M` (32-bit values) one run schedules, in
program order, the phase-1 arming at 0.2 s, `N` phase-1 sends at
`0.5 + i * gap` (`i < N`), the phase-2 arming at `phase2Start`, `M` jammer sends
and `M` transmitter sends at `phase2Start + i * gap` (`i < M`), and the stop at
`phase2Start + M * gap + 1.0`; the phase-1 and phase-2 transmitter sends carry
the tag TX and the jammer sends the tag JAM; every event but the stop is
strictly before the stop time and is fired; and whatever receive callbacks the
PHY makes, the result has `noJamSent = N`, `jamSentTx = M`, `jamSentJam = M`
(so a count of zero gives no send and a zero counter). -/
theorem runScenario_schedules_and_counts (N M : Nat) (hN : N < 4294967296)
    (hM : M < 4294967296) (phy : Nat → List RxCall) (g : Globals) :
    scheduledEvents N M =
        (0.2, Event.phase1Arm) ::
          ((List.range N).map
              (fun i : Nat => ((0.5 + i * kPktGapSeconds : ℚ), Event.phase1Send i)) ++
            (phase2Start N, Event.phase2Arm) ::
              ((List.range M).map
                  (fun i : Nat => ((phase2Start N + i * kPktGapSeconds : ℚ), Event.jamSend i)) ++
                ((List.range M).map
                    (fun i : Nat =>
                      ((phase2Start N + i * kPktGapSeconds : ℚ), Event.phase2Send i)) ++
                  [(phase2Start N + M * kPktGapSeconds + 1.0, Event.stop)]))) ∧
      (∀ i : Nat, (Event.phase1Send i).sentTag = some SrcTag.TX ∧
        (Event.jamSend i).sentTag = some SrcTag.JAM ∧
        (Event.phase2Send i).sentTag = some SrcTag.TX) ∧
      (∀ x ∈ scheduledEvents N M, x.2 ≠ Event.stop →
        x.1 < phase2Start N + M * kPktGapSeconds + 1.0 ∧
          x.2 ∈ firedEvents (scheduledEvents N M)) ∧
      (firedEvents (scheduledEvents N M)).countP Event.isPhase1Send = N ∧
      (firedEvents (scheduledEvents N M)).countP Event.isJamSend = M ∧
      (firedEvents (scheduledEvents N M)).countP Event.isPhase2Send = M ∧
      (RunScenario N M phy g).1.noJamSent = N ∧
      (RunScenario N M phy g).1.jamSentTx = M ∧
      (RunScenario N M phy g).1.jamSentJam = M := by
  obtain ⟨c1, c2, c3⟩ := countP_scheduled N M
  refine ⟨scheduledEvents_eq N M, fun i => ⟨rfl, rfl, rfl⟩, ?_, ?_, ?_, ?_,
    runScenario_sent N M hN hM phy g⟩
  · intro x hx hns
    exact ⟨(scheduled_before_stop N M x hx).1 hns, mem_firedEvents N M x hx hns⟩
  · rw [countP_firedEvents N M _ rfl, c1]
  · rw [countP_firedEvents N M _ rfl, c2]
  · rw [countP_firedEvents N M _ rfl, c3]

/-- The witness of C8: two phase-1 packets and one phase-2 packet, a PHY that
indicates one TX packet before every event, counters that start from stale
values. -/
theorem runScenario_schedules_and_counts_witness :
    2 < 4294967296 ∧ 1 < 4294967296 ∧
      (RunScenario 2 1 (fun _ => [⟨32, ⟨some SrcTag.TX⟩, 32⟩]) ⟨7, 7, 7, 7, 7, 7, true⟩).1.noJamSent
        = 2 :=
  ⟨by decide, by decide,
    (runScenario_schedules_and_counts 2 1 (by decide) (by decide)
      (fun _ => [⟨32, ⟨some SrcTag.TX⟩, 32⟩]) ⟨7, 7, 7, 7, 7, 7, true⟩).2.2.2.2.2.2.1⟩

/-! ## The start of phase 2 -/

/-- C9 as stated fails: with one phase-1 packet the only (hence last) phase-1
send is scheduled at 0.5 s and the phase-2 arming at 1.52 s, which is 1.02 s
later, not `kGapBetweenPhases` = 1.0 s. -/
theorem phase2Start_not_one_gap_after_last_send :
    (0.5, Event.phase1Send 0) ∈ scheduledEvents 1 0 ∧
      (1.52, Event.phase2Arm) ∈ scheduledEvents 1 0 ∧
      phase2Start 1 = 1.52 ∧
      (1.52 : ℚ) - 0.5 ≠ kGapBetweenPhases := by
  have hp : phase2Start 1 = 1.52 := by
    norm_num [phase2Start, kPktGapSeconds, kGapBetweenPhases]
  refine ⟨?_, ?_, hp, ?_⟩
  · rw [scheduledEvents_eq]
    simp
  · rw [scheduledEvents_eq, hp]
    simp
  · norm_num [kGapBetweenPhases]

/-- C9 as amended: for `N >= 1` phase-1 packets the last phase-1 send is
scheduled at `0.5 + (N - 1) * kPktGapSeconds`, phase 2 is armed (and
`g_jammingActive` set) exactly at `phase2Start`, and the difference is
`kPktGapSeconds + kGapBetweenPhases` = 1.02 s: one packet slot plus the
inter-phase gap. -/
theorem phase2Start_after_last_send (N M : Nat) (hN : 1 ≤ N) :
    (0.5 + ((N - 1 : Nat) : ℚ) * kPktGapSeconds, Event.phase1Send (N - 1)) ∈
        scheduledEvents N M ∧
      (∀ (t : ℚ) (i : Nat), (t, Event.phase1Send i) ∈ scheduledEvents N M →
        t ≤ 0.5 + ((N - 1 : Nat) : ℚ) * kPktGapSeconds) ∧
      (∀ t : ℚ, (t, Event.phase2Arm) ∈ scheduledEvents N M ↔ t = phase2Start N) ∧
      (∀ g : Globals, (Event.phase2Arm.fire g).g_jammingActive = true) ∧
      phase2Start N - (0.5 + ((N - 1 : Nat) : ℚ) * kPktGapSeconds) =
        kPktGapSeconds + kGapBetweenPhases ∧
      kPktGapSeconds + kGapBetweenPhases = 1.02 := by
  have hcast : ((N - 1 : Nat) : ℚ) = (N : ℚ) - 1 := by
    rw [Nat.cast_sub hN]
    simp
  refine ⟨?_, ?_, ?_, fun _ => rfl, ?_, ?_⟩
  · rw [scheduledEvents_eq]
    simp only [List.mem_cons, List.mem_append, List.mem_map, List.mem_range]
    exact Or.inr (Or.inl ⟨N - 1, by omega, rfl⟩)
  · intro t i hmem
    rw [scheduledEvents_eq] at hmem
    simp only [List.mem_cons, List.mem_append, List.mem_map, List.mem_range, Prod.mk.injEq,
      List.mem_singleton, List.not_mem_nil, or_false] at hmem
    rcases hmem with ⟨_, h⟩ | ⟨j, hj, rfl, hji⟩ | ⟨_, h⟩ | ⟨j, _, _, h⟩ | ⟨j, _, _, h⟩ | ⟨_, h⟩
    · exact absurd h (by simp)
    · have hj' : (j : ℚ) ≤ (N : ℚ) - 1 := by
        have : j + 1 ≤ N := hj
        have : ((j + 1 : Nat) : ℚ) ≤ N := by exact_mod_cast this
        push_cast at this
        linarith
      rw [hcast]
      simp only [kPktGapSeconds]
      nlinarith
    · exact absurd h (by simp)
    · exact absurd h (by simp)
    · exact absurd h (by simp)
    · exact absurd h (by simp)
  · intro t
    rw [scheduledEvents_eq]
    simp
  · rw [hcast]
    simp only [phase2Start]
    ring
  · norm_num [kPktGapSeconds, kGapBetweenPhases]

/-- The witness of C9: one phase-1 packet. -/
theorem phase2Start_after_last_send_witness :
    1 ≤ 1 ∧
      phase2Start 1 - (0.5 + ((1 - 1 : Nat) : ℚ) * kPktGapSeconds) =
        kPktGapSeconds + kGapBetweenPhases :=
  ⟨le_refl 1, (phase2Start_after_last_send 1 0 (le_refl 1)).2.2.2.2.1⟩

/-! ## Binary64 rounding -/

/-- With enough fuel `floorLog2` is the binary logarithm of Mathlib. -/
theorem floorLog2_eq_log (fuel n : Nat) (h : n ≤ fuel) : floorLog2 fuel n = Nat.log 2 n := by
  induction fuel generalizing n with
  | zero =>
    have : n = 0 := by omega
    subst this
    simp [floorLog2]
  | succ fuel ih =>
    unfold floorLog2
    by_cases h2 : n < 2
    · rw [if_pos h2, Nat.log_of_lt h2]
    · have hlog := Nat.log_of_one_lt_of_le (by norm_num : 1 < 2) (by omega : 2 ≤ n)
      rw [if_neg h2, ih (n / 2) (by omega), hlog]

/-- The binary exponent brackets a non-zero value between two powers of 2. -/
theorem binaryExponent_spec (x : ℚ) (hx : x ≠ 0) :
    (2 : ℚ) ^ binaryExponent x ≤ |x| ∧ |x| < (2 : ℚ) ^ (binaryExponent x + 1) := by
  have hn : x.num.natAbs ≠ 0 := by
    simpa using hx
  have hd : x.den ≠ 0 := x.den_nz
  have habs : |x| = (x.num.natAbs : ℚ) / (x.den : ℚ) := by
    rw [Rat.abs_def, Rat.divInt_eq_div]
    simp only [Int.cast_natCast]
  have hn1 := Nat.pow_log_le_self 2 hn
  have hn2 := Nat.lt_pow_succ_log_self (by norm_num : 1 < 2) x.num.natAbs
  have hd1 := Nat.pow_log_le_self 2 hd
  have hd2 := Nat.lt_pow_succ_log_self (by norm_num : 1 < 2) x.den
  have hn1q : (2 : ℚ) ^ (Nat.log 2 x.num.natAbs) ≤ (x.num.natAbs : ℚ) := by exact_mod_cast hn1
  have hn2q : (x.num.natAbs : ℚ) < (2 : ℚ) ^ (Nat.log 2 x.num.natAbs + 1) := by exact_mod_cast hn2
  have hd1q : (2 : ℚ) ^ (Nat.log 2 x.den) ≤ (x.den : ℚ) := by exact_mod_cast hd1
  have hd2q : (x.den : ℚ) < (2 : ℚ) ^ (Nat.log 2 x.den + 1) := by exact_mod_cast hd2
  have hdpos : (0 : ℚ) < x.den := by exact_mod_cast Nat.pos_of_ne_zero hd
  have key1 : (2 : ℚ) ^ ((Nat.log 2 x.num.natAbs : ℤ) - (Nat.log 2 x.den : ℤ) - 1) < |x| := by
    rw [habs, lt_div_iff₀ hdpos]
    have h2 : (0 : ℚ) < 2 := by norm_num
    calc (2 : ℚ) ^ ((Nat.log 2 x.num.natAbs : ℤ) - (Nat.log 2 x.den : ℤ) - 1) * (x.den : ℚ)
        < (2 : ℚ) ^ ((Nat.log 2 x.num.natAbs : ℤ) - (Nat.log 2 x.den : ℤ) - 1) *
            (2 : ℚ) ^ (Nat.log 2 x.den + 1) :=
          mul_lt_mul_of_pos_left hd2q (zpow_pos h2 _)
      _ = (2 : ℚ) ^ (Nat.log 2 x.num.natAbs) := by
          rw [← zpow_natCast (2 : ℚ) (Nat.log 2 x.den + 1), ← zpow_add₀ (by norm_num : (2 : ℚ) ≠ 0),
            ← zpow_natCast]
          congr 1
          push_cast
          ring
      _ ≤ _ := hn1q
  have key2 : |x| < (2 : ℚ) ^ ((Nat.log 2 x.num.natAbs : ℤ) - (Nat.log 2 x.den : ℤ) + 1) := by
    rw [habs, div_lt_iff₀ hdpos]
    have h2 : (0 : ℚ) < 2 := by norm_num
    calc (x.num.natAbs : ℚ) < (2 : ℚ) ^ (Nat.log 2 x.num.natAbs + 1) := hn2q
      _ = (2 : ℚ) ^ ((Nat.log 2 x.num.natAbs : ℤ) - (Nat.log 2 x.den : ℤ) + 1) *
            (2 : ℚ) ^ (Nat.log 2 x.den) := by
          rw [← zpow_natCast (2 : ℚ) (Nat.log 2 x.den), ← zpow_add₀ (by norm_num : (2 : ℚ) ≠ 0),
            ← zpow_natCast]
          congr 1
          push_cast
          ring
      _ ≤ _ := mul_le_mul_of_nonneg_left hd1q (zpow_pos h2 _).le
  unfold binaryExponent
  simp only [floorLog2_eq_log _ _ (le_refl _)]
  split
  · rename_i h
    exact ⟨h, key2⟩
  · rename_i h
    refine ⟨key1.le, ?_⟩
    rw [sub_add_cancel]
    exact not_le.mp h

theorem roundHalfEven_intCast (n : ℤ) : roundHalfEven (n : ℚ) = n := by
  simp [roundHalfEven]

theorem floor_le_roundHalfEven (t : ℚ) : ⌊t⌋ ≤ roundHalfEven t := by
  unfold roundHalfEven
  split_ifs <;> omega

theorem roundHalfEven_le_floor_add_one (t : ℚ) : roundHalfEven t ≤ ⌊t⌋ + 1 := by
  unfold roundHalfEven
  split_ifs <;> omega

/-- Rounding to the nearest integer is monotone. -/
theorem roundHalfEven_mono {s t : ℚ} (h : s ≤ t) : roundHalfEven s ≤ roundHalfEven t := by
  rcases lt_or_eq_of_le (Int.floor_mono h) with hlt | heq
  · calc roundHalfEven s ≤ ⌊s⌋ + 1 := roundHalfEven_le_floor_add_one s
      _ ≤ ⌊t⌋ := hlt
      _ ≤ roundHalfEven t := floor_le_roundHalfEven t
  · unfold roundHalfEven
    rw [heq]
    split_ifs <;> first | omega | (exfalso; linarith)

/-- Rounding to the nearest integer, ties to even, is symmetric. -/
theorem roundHalfEven_neg (t : ℚ) : roundHalfEven (-t) = -roundHalfEven t := by
  by_cases hint : (⌊t⌋ : ℚ) = t
  · rw [← hint, ← Int.cast_neg, roundHalfEven_intCast, roundHalfEven_intCast]
  · have h1 : (⌊t⌋ : ℚ) < t := lt_of_le_of_ne (Int.floor_le t) hint
    have h2 : t < ⌊t⌋ + 1 := Int.lt_floor_add_one t
    have hf : ⌊-t⌋ = -⌊t⌋ - 1 := by
      rw [Int.floor_eq_iff]
      push_cast
      constructor <;> linarith
    unfold roundHalfEven
    rw [hf]
    push_cast
    split_ifs <;> first | omega | (exfalso; linarith)

theorem roundHalfEven_nonneg {t : ℚ} (h : 0 ≤ t) : 0 ≤ roundHalfEven t := by
  have h0 : ((0 : ℤ) : ℚ) ≤ t := by simpa using h
  have := roundHalfEven_mono h0
  rwa [roundHalfEven_intCast] at this

theorem ulpBinary64_pos (x : ℚ) : 0 < ulpBinary64 x :=
  zpow_pos (by norm_num) _

theorem binaryExponent_neg (x : ℚ) : binaryExponent (-x) = binaryExponent x := by
  simp [binaryExponent]

theorem ulpBinary64_neg (x : ℚ) : ulpBinary64 (-x) = ulpBinary64 x := by
  simp [ulpBinary64, binaryExponent_neg]

theorem roundBinary64_zero : roundBinary64 0 = 0 := by
  simp [roundBinary64]

/-- Rounding to binary64 is symmetric. -/
theorem roundBinary64_neg (x : ℚ) : roundBinary64 (-x) = -roundBinary64 x := by
  unfold roundBinary64
  by_cases hx : x = 0
  · simp [hx]
  · rw [if_neg hx, if_neg (neg_ne_zero.mpr hx), ulpBinary64_neg, neg_div, roundHalfEven_neg]
    push_cast
    ring

theorem roundBinary64_nonneg {x : ℚ} (hx : 0 ≤ x) : 0 ≤ roundBinary64 x := by
  unfold roundBinary64
  split
  · exact le_refl _
  · exact mul_nonneg
      (by exact_mod_cast roundHalfEven_nonneg (div_nonneg hx (ulpBinary64_pos x).le))
      (ulpBinary64_pos x).le

theorem pow_mul_zpow_sub (E : ℤ) (n : ℕ) : (2 : ℚ) ^ n * 2 ^ (E - n) = 2 ^ E := by
  rw [← zpow_natCast, ← zpow_add₀ (by norm_num : (2 : ℚ) ≠ 0)]
  congr 1
  ring

theorem roundBinary64_mono_pos {x y : ℚ} (hx : 0 < x) (hxy : x ≤ y) :
    roundBinary64 x ≤ roundBinary64 y := by
  have hy : 0 < y := lt_of_lt_of_le hx hxy
  obtain ⟨hx1, hx2⟩ := binaryExponent_spec x hx.ne.symm
  obtain ⟨hy1, hy2⟩ := binaryExponent_spec y hy.ne.symm
  rw [abs_of_pos hx] at hx1 hx2
  rw [abs_of_pos hy] at hy1 hy2
  have h12 : (1 : ℚ) < 2 := by norm_num
  have hexp : binaryExponent x ≤ binaryExponent y := by
    have h : (2 : ℚ) ^ binaryExponent x < 2 ^ (binaryExponent y + 1) := by linarith
    have := (zpow_lt_zpow_iff_right₀ h12).mp h
    omega
  unfold roundBinary64
  rw [if_neg hx.ne.symm, if_neg hy.ne.symm]
  unfold ulpBinary64
  have hE : max (binaryExponent x) (-1022) ≤ max (binaryExponent y) (-1022) :=
    max_le_max hexp (le_refl _)
  rcases eq_or_lt_of_le hE with heq | hlt
  · rw [heq]
    have hp := zpow_pos (by norm_num : (0 : ℚ) < 2) (max (binaryExponent y) (-1022) - 52)
    have hr := roundHalfEven_mono (div_le_div_of_nonneg_right hxy hp.le)
    have hq : (roundHalfEven (x / 2 ^ (max (binaryExponent y) (-1022) - 52)) : ℚ) ≤
        roundHalfEven (y / 2 ^ (max (binaryExponent y) (-1022) - 52)) := by
      exact_mod_cast hr
    exact mul_le_mul_of_nonneg_right hq hp.le
  · have hEy : max (binaryExponent y) (-1022) = binaryExponent y := by
      apply max_eq_left
      by_contra hc
      rw [max_eq_right (le_of_not_le hc)] at hlt
      exact absurd hlt (not_lt.mpr (le_max_right _ _))
    have hpx := zpow_pos (by norm_num : (0 : ℚ) < 2) (max (binaryExponent x) (-1022) - 52)
    have hpy := zpow_pos (by norm_num : (0 : ℚ) < 2) (max (binaryExponent y) (-1022) - 52)
    have hxle : x / 2 ^ (max (binaryExponent x) (-1022) - 52) ≤ ((2 ^ 53 : ℤ) : ℚ) := by
      have hc : ((2 ^ 53 : ℤ) : ℚ) = (2 : ℚ) ^ 53 := by norm_cast
      rw [hc, div_le_iff₀ hpx]
      have := pow_mul_zpow_sub (max (binaryExponent x) (-1022) + 1) 53
      have hh : max (binaryExponent x) (-1022) + 1 - ((53 : ℕ) : ℤ)
          = max (binaryExponent x) (-1022) - 52 := by
        push_cast
        ring
      rw [hh] at this
      rw [this]
      have : (2 : ℚ) ^ (binaryExponent x + 1) ≤ 2 ^ (max (binaryExponent x) (-1022) + 1) :=
        zpow_le_zpow_right₀ h12.le (by have := le_max_left (binaryExponent x) (-1022); omega)
      linarith
    have hyle : ((2 ^ 52 : ℤ) : ℚ) ≤ y / 2 ^ (max (binaryExponent y) (-1022) - 52) := by
      have hc : ((2 ^ 52 : ℤ) : ℚ) = (2 : ℚ) ^ 52 := by norm_cast
      rw [hc, le_div_iff₀ hpy]
      have := pow_mul_zpow_sub (max (binaryExponent y) (-1022)) 52
      have hh : max (binaryExponent y) (-1022) - ((52 : ℕ) : ℤ)
          = max (binaryExponent y) (-1022) - 52 := by
        push_cast
        ring
      rw [hh] at this
      rw [this, hEy]
      exact hy1
    have h1 := roundHalfEven_mono hxle
    have h2 := roundHalfEven_mono hyle
    rw [roundHalfEven_intCast] at h1 h2
    have h1q : (roundHalfEven (x / 2 ^ (max (binaryExponent x) (-1022) - 52)) : ℚ) ≤ 2 ^ 53 := by
      exact_mod_cast h1
    have h2q : (2 : ℚ) ^ 52 ≤ roundHalfEven (y / 2 ^ (max (binaryExponent y) (-1022) - 52)) := by
      exact_mod_cast h2
    have e1 := pow_mul_zpow_sub (max (binaryExponent x) (-1022) + 1) 53
    have hh : max (binaryExponent x) (-1022) + 1 - ((53 : ℕ) : ℤ)
        = max (binaryExponent x) (-1022) - 52 := by
      push_cast
      ring
    rw [hh] at e1
    have e2 := pow_mul_zpow_sub (max (binaryExponent y) (-1022)) 52
    have hh2 : max (binaryExponent y) (-1022) - ((52 : ℕ) : ℤ)
        = max (binaryExponent y) (-1022) - 52 := by
      push_cast
      ring
    rw [hh2] at e2
    have hmid : (2 : ℚ) ^ (max (binaryExponent x) (-1022) + 1)
        ≤ 2 ^ (max (binaryExponent y) (-1022)) :=
      zpow_le_zpow_right₀ h12.le (by omega)
    calc (roundHalfEven (x / 2 ^ (max (binaryExponent x) (-1022) - 52)) : ℚ) *
          2 ^ (max (binaryExponent x) (-1022) - 52)
        ≤ 2 ^ 53 * 2 ^ (max (binaryExponent x) (-1022) - 52) :=
          mul_le_mul_of_nonneg_right h1q hpx.le
      _ = 2 ^ (max (binaryExponent x) (-1022) + 1) := e1
      _ ≤ 2 ^ (max (binaryExponent y) (-1022)) := hmid
      _ = 2 ^ 52 * 2 ^ (max (binaryExponent y) (-1022) - 52) := e2.symm
      _ ≤ _ := mul_le_mul_of_nonneg_right h2q hpy.le

/-- Rounding to binary64 is monotone. -/
theorem roundBinary64_mono {x y : ℚ} (hxy : x ≤ y) : roundBinary64 x ≤ roundBinary64 y := by
  rcases lt_trichotomy x 0 with hx | hx | hx
  · have hnx : roundBinary64 x ≤ 0 := by
      have := roundBinary64_nonneg (neg_nonneg.mpr hx.le)
      rw [roundBinary64_neg] at this
      linarith
    rcases lt_or_le y 0 with hy | hy
    · have := roundBinary64_mono_pos (neg_pos.mpr hy) (neg_le_neg hxy)
      rw [roundBinary64_neg, roundBinary64_neg] at this
      linarith
    · exact le_trans hnx (roundBinary64_nonneg hy)
  · rw [hx, roundBinary64_zero]
    exact roundBinary64_nonneg (hx ▸ hxy)
  · exact roundBinary64_mono_pos hx hxy

theorem intCast_mul_zpow (m E s : ℤ) (k : ℕ) (h : s = E + k) :
    ((m * 2 ^ k : ℤ) : ℚ) * 2 ^ E = (m : ℚ) * 2 ^ s := by
  subst h
  rw [zpow_add₀ (by norm_num : (2 : ℚ) ≠ 0), zpow_natCast]
  push_cast
  ring

/-- A value with a significand below `2 ^ 53` in magnitude and an exponent from
`-1074` on is left as it is by the rounding. -/
theorem roundBinary64_of_repr (m s : ℤ) (hm : |m| < 2 ^ 53) (hs : -1074 ≤ s) :
    roundBinary64 ((m : ℚ) * 2 ^ s) = (m : ℚ) * 2 ^ s := by
  by_cases hm0 : m = 0
  · simp [hm0, roundBinary64_zero]
  have h2 : (0 : ℚ) < 2 := by norm_num
  have h12 : (1 : ℚ) < 2 := by norm_num
  have hx0 : (m : ℚ) * 2 ^ s ≠ 0 :=
    mul_ne_zero (by exact_mod_cast hm0) (zpow_pos h2 s).ne.symm
  obtain ⟨hx1, -⟩ := binaryExponent_spec _ hx0
  have hmq : |(m : ℚ)| < 2 ^ 53 := by exact_mod_cast hm
  have habs : |(m : ℚ) * 2 ^ s| < 2 ^ (s + 53) := by
    rw [abs_mul, abs_of_pos (zpow_pos h2 s), zpow_add₀ h2.ne.symm, mul_comm]
    exact mul_lt_mul_of_pos_left (by exact_mod_cast hmq) (zpow_pos h2 s)
  have hexp : binaryExponent ((m : ℚ) * 2 ^ s) < s + 53 :=
    (zpow_lt_zpow_iff_right₀ h12).mp (lt_of_le_of_lt hx1 habs)
  have hE : max (binaryExponent ((m : ℚ) * 2 ^ s)) (-1022) - 52 ≤ s := by
    rcases max_choice (binaryExponent ((m : ℚ) * 2 ^ s)) (-1022) with h | h <;> rw [h] <;> omega
  obtain ⟨k, hk⟩ := Int.eq_ofNat_of_zero_le (sub_nonneg.mpr hE)
  have hs' : s = (max (binaryExponent ((m : ℚ) * 2 ^ s)) (-1022) - 52) + k := by omega
  have hq : (m : ℚ) * 2 ^ s / 2 ^ (max (binaryExponent ((m : ℚ) * 2 ^ s)) (-1022) - 52)
      = ((m * 2 ^ k : ℤ) : ℚ) := by
    rw [div_eq_iff (zpow_pos h2 _).ne.symm]
    exact (intCast_mul_zpow m _ s k hs').symm
  unfold roundBinary64 ulpBinary64
  rw [if_neg hx0, hq, roundHalfEven_intCast]
  exact intCast_mul_zpow m _ s k hs'

/-- The rounded value has a significand below `2 ^ 53` in magnitude and an
exponent from `-1074` on. -/
theorem roundBinary64_repr (x : ℚ) :
    ∃ m s : ℤ, |m| < 2 ^ 53 ∧ -1074 ≤ s ∧ roundBinary64 x = (m : ℚ) * 2 ^ s := by
  by_cases hx0 : x = 0
  · exact ⟨0, 0, by norm_num, by norm_num, by simp [hx0, roundBinary64_zero]⟩
  have h2 : (0 : ℚ) < 2 := by norm_num
  have h12 : (1 : ℚ) < 2 := by norm_num
  obtain ⟨-, hx2⟩ := binaryExponent_spec x hx0
  have hu := zpow_pos h2 (max (binaryExponent x) (-1022) - 52)
  have e1 := pow_mul_zpow_sub (max (binaryExponent x) (-1022) + 1) 53
  have hh : max (binaryExponent x) (-1022) + 1 - ((53 : ℕ) : ℤ)
      = max (binaryExponent x) (-1022) - 52 := by
    push_cast
    ring
  rw [hh] at e1
  have hlt : |x| < 2 ^ 53 * 2 ^ (max (binaryExponent x) (-1022) - 52) := by
    rw [e1]
    exact lt_of_lt_of_le hx2
      (zpow_le_zpow_right₀ h12.le (by have := le_max_left (binaryExponent x) (-1022); omega))
  have hc : ((2 ^ 53 : ℤ) : ℚ) = (2 : ℚ) ^ 53 := by norm_cast
  have hub : x / 2 ^ (max (binaryExponent x) (-1022) - 52) ≤ ((2 ^ 53 : ℤ) : ℚ) := by
    rw [hc, div_le_iff₀ hu]
    exact le_trans (le_abs_self x) hlt.le
  have hlb : ((-(2 ^ 53) : ℤ) : ℚ) ≤ x / 2 ^ (max (binaryExponent x) (-1022) - 52) := by
    rw [Int.cast_neg, hc, le_div_iff₀ hu]
    have := neg_abs_le x
    linarith
  have h1 := roundHalfEven_mono hub
  have h2' := roundHalfEven_mono hlb
  rw [roundHalfEven_intCast] at h1 h2'
  have hval : roundBinary64 x =
      (roundHalfEven (x / 2 ^ (max (binaryExponent x) (-1022) - 52)) : ℚ) *
        2 ^ (max (binaryExponent x) (-1022) - 52) := by
    unfold roundBinary64 ulpBinary64
    rw [if_neg hx0]
  have hEs : -1074 ≤ max (binaryExponent x) (-1022) - 52 := by
    have := le_max_right (binaryExponent x) (-1022)
    omega
  have hstep : (2 : ℚ) ^ (max (binaryExponent x) (-1022) - 52 + 1)
      = 2 * 2 ^ (max (binaryExponent x) (-1022) - 52) := by
    rw [zpow_add₀ h2.ne.symm, zpow_one, mul_comm]
  rcases lt_or_eq_of_le h1 with hlt1 | heq1
  · rcases lt_or_eq_of_le h2' with hlt2 | heq2
    · exact ⟨_, _, abs_lt.mpr ⟨hlt2, hlt1⟩, hEs, hval⟩
    · refine ⟨-(2 ^ 52), max (binaryExponent x) (-1022) - 52 + 1, by norm_num, by omega, ?_⟩
      rw [hval, ← heq2, hstep]
      push_cast
      ring
  · refine ⟨2 ^ 52, max (binaryExponent x) (-1022) - 52 + 1, by norm_num, by omega, ?_⟩
    rw [hval, heq1, hstep]
    push_cast
    ring

/-- Rounding is idempotent. -/
theorem roundBinary64_idem (x : ℚ) : roundBinary64 (roundBinary64 x) = roundBinary64 x := by
  obtain ⟨m, s, hm, hs, h⟩ := roundBinary64_repr x
  rw [h]
  exact roundBinary64_of_repr m s hm hs

/-- No integer is nearer to `t` than `roundHalfEven t`. -/
theorem roundHalfEven_nearest (t : ℚ) (n : ℤ) :
    |(roundHalfEven t : ℚ) - t| ≤ |(n : ℚ) - t| := by
  have hf := Int.floor_le t
  have hl := Int.lt_floor_add_one t
  rcases le_or_lt n ⌊t⌋ with h | h
  · have hq : (n : ℚ) ≤ ⌊t⌋ := by exact_mod_cast h
    rw [abs_of_nonpos (by linarith : (n : ℚ) - t ≤ 0)]
    unfold roundHalfEven
    split_ifs <;> push_cast <;> rw [abs_le] <;> constructor <;> linarith
  · have hq : (⌊t⌋ : ℚ) + 1 ≤ n := by exact_mod_cast h
    rw [abs_of_nonneg (by linarith : 0 ≤ (n : ℚ) - t)]
    unfold roundHalfEven
    split_ifs <;> push_cast <;> rw [abs_le] <;> constructor <;> linarith

/-- Rounding to nearest: no value with a significand below `2 ^ 53` in magnitude
and an exponent from `-1074` on is nearer to `x` than `roundBinary64 x`. -/
theorem roundBinary64_nearest (x : ℚ) (m s : ℤ) (hm : |m| < 2 ^ 53) (hs : -1074 ≤ s) :
    |roundBinary64 x - x| ≤ |(m : ℚ) * 2 ^ s - x| := by
  by_cases hx0 : x = 0
  · simp [hx0, roundBinary64_zero]
  have h2 : (0 : ℚ) < 2 := by norm_num
  have h12 : (1 : ℚ) < 2 := by norm_num
  have hu := zpow_pos h2 (max (binaryExponent x) (-1022) - 52)
  have hval : roundBinary64 x =
      (roundHalfEven (x / 2 ^ (max (binaryExponent x) (-1022) - 52)) : ℚ) *
        2 ^ (max (binaryExponent x) (-1022) - 52) := by
    unfold roundBinary64 ulpBinary64
    rw [if_neg hx0]
  have hgrid : ∀ n : ℤ, |roundBinary64 x - x| ≤
      |(n : ℚ) * 2 ^ (max (binaryExponent x) (-1022) - 52) - x| := by
    intro n
    have h := roundHalfEven_nearest (x / 2 ^ (max (binaryExponent x) (-1022) - 52)) n
    have e1 : roundBinary64 x - x =
        ((roundHalfEven (x / 2 ^ (max (binaryExponent x) (-1022) - 52)) : ℚ) -
          x / 2 ^ (max (binaryExponent x) (-1022) - 52)) *
            2 ^ (max (binaryExponent x) (-1022) - 52) := by
      rw [hval]
      field_simp
    have e2 : (n : ℚ) * 2 ^ (max (binaryExponent x) (-1022) - 52) - x =
        ((n : ℚ) - x / 2 ^ (max (binaryExponent x) (-1022) - 52)) *
            2 ^ (max (binaryExponent x) (-1022) - 52) := by
      field_simp
    rw [e1, e2, abs_mul, abs_mul, abs_of_pos hu]
    exact mul_le_mul_of_nonneg_right h hu.le
  rcases le_or_lt (max (binaryExponent x) (-1022) - 52) s with hle | hlt
  · obtain ⟨k, hk⟩ := Int.eq_ofNat_of_zero_le (sub_nonneg.mpr hle)
    have hs' : s = (max (binaryExponent x) (-1022) - 52) + k := by omega
    have := hgrid (m * 2 ^ k)
    have e : ((m * 2 ^ k : ℤ) : ℚ) * 2 ^ (max (binaryExponent x) (-1022) - 52)
        = (m : ℚ) * 2 ^ s := intCast_mul_zpow m _ s k hs'
    rwa [e] at this
  · have hE : max (binaryExponent x) (-1022) = binaryExponent x := by
      apply max_eq_left
      by_contra hc
      rw [max_eq_right (le_of_not_le hc)] at hlt
      omega
    rw [hE] at hlt hgrid
    obtain ⟨hx1, -⟩ := binaryExponent_spec x hx0
    have hmq : |(m : ℚ)| < 2 ^ 53 := by exact_mod_cast hm
    have hz : |(m : ℚ) * 2 ^ s| < 2 ^ binaryExponent x := by
      rw [abs_mul, abs_of_pos (zpow_pos h2 s)]
      calc |(m : ℚ)| * 2 ^ s < 2 ^ 53 * 2 ^ s :=
            mul_lt_mul_of_pos_right hmq (zpow_pos h2 s)
        _ = 2 ^ (s + 53) := by
            rw [zpow_add₀ h2.ne.symm, mul_comm]
            norm_cast
        _ ≤ 2 ^ binaryExponent x := zpow_le_zpow_right₀ h12.le (by omega)
    have e52 := pow_mul_zpow_sub (binaryExponent x) 52
    have hh : binaryExponent x - ((52 : ℕ) : ℤ) = binaryExponent x - 52 := by
      push_cast
      ring
    rw [hh] at e52
    have hc : ((2 ^ 52 : ℤ) : ℚ) = (2 : ℚ) ^ 52 := by norm_cast
    rcases lt_or_gt_of_ne hx0 with hneg | hpos
    · have hg := hgrid (-(2 ^ 52))
      rw [Int.cast_neg, hc, neg_mul, e52] at hg
      rw [abs_of_neg hneg] at hx1
      have hzl := (abs_lt.mp hz).1
      refine le_trans hg ?_
      rw [abs_of_nonneg (by linarith), abs_of_nonneg (by linarith)]
      linarith
    · have hg := hgrid (2 ^ 52)
      rw [hc, e52] at hg
      rw [abs_of_pos hpos] at hx1
      have hzu := (abs_lt.mp hz).2
      refine le_trans hg ?_
      rw [abs_of_nonpos (by linarith), abs_of_nonpos (by linarith)]
      linarith

/-- The nearest integer is at most one half away. -/
theorem roundHalfEven_abs_sub_le (t : ℚ) : |(roundHalfEven t : ℚ) - t| ≤ 1 / 2 := by
  have hf := Int.floor_le t
  have hl := Int.lt_floor_add_one t
  unfold roundHalfEven
  split_ifs <;> push_cast <;> rw [abs_le] <;> constructor <;> linarith

/-- From the smallest normal value on the rounding changes a value by at most
the fraction `2 ^ (-53)` of it. -/
theorem roundBinary64_rel_error (x : ℚ) (hx : (2 : ℚ) ^ (-1022 : ℤ) ≤ |x|) :
    |roundBinary64 x - x| ≤ |x| / 2 ^ 53 := by
  have h2 : (0 : ℚ) < 2 := by norm_num
  have h12 : (1 : ℚ) < 2 := by norm_num
  have hx0 : x ≠ 0 := by
    intro h
    rw [h, abs_zero] at hx
    exact absurd hx (not_le.mpr (zpow_pos h2 _))
  obtain ⟨hx1, hx2⟩ := binaryExponent_spec x hx0
  have hexp : -1022 ≤ binaryExponent x := by
    have := (zpow_lt_zpow_iff_right₀ h12).mp (lt_of_le_of_lt hx hx2)
    omega
  have hE : max (binaryExponent x) (-1022) = binaryExponent x := max_eq_left hexp
  have hu := zpow_pos h2 (binaryExponent x - 52)
  have hval : roundBinary64 x =
      (roundHalfEven (x / 2 ^ (binaryExponent x - 52)) : ℚ) * 2 ^ (binaryExponent x - 52) := by
    unfold roundBinary64 ulpBinary64
    rw [if_neg hx0, hE]
  have e1 : roundBinary64 x - x =
      ((roundHalfEven (x / 2 ^ (binaryExponent x - 52)) : ℚ) -
        x / 2 ^ (binaryExponent x - 52)) * 2 ^ (binaryExponent x - 52) := by
    rw [hval]
    field_simp
  have e53 := pow_mul_zpow_sub (binaryExponent x) 53
  have e52 := pow_mul_zpow_sub (binaryExponent x) 52
  have hh : binaryExponent x - ((52 : ℕ) : ℤ) = binaryExponent x - 52 := by
    push_cast
    ring
  rw [hh] at e52
  rw [e1, abs_mul, abs_of_pos hu, le_div_iff₀ (by positivity)]
  have hr := roundHalfEven_abs_sub_le (x / 2 ^ (binaryExponent x - 52))
  have hnn := abs_nonneg ((roundHalfEven (x / 2 ^ (binaryExponent x - 52)) : ℚ) -
    x / 2 ^ (binaryExponent x - 52))
  calc |(roundHalfEven (x / 2 ^ (binaryExponent x - 52)) : ℚ) -
          x / 2 ^ (binaryExponent x - 52)| * 2 ^ (binaryExponent x - 52) * 2 ^ 53
      ≤ 1 / 2 * 2 ^ (binaryExponent x - 52) * 2 ^ 53 := by
        apply mul_le_mul_of_nonneg_right _ (by positivity)
        exact mul_le_mul_of_nonneg_right hr hu.le
    _ = 2 ^ 52 * 2 ^ (binaryExponent x - 52) := by ring
    _ = 2 ^ binaryExponent x := e52
    _ ≤ |x| := hx1

/-- The binary64 quotient of two `uint32_t` counters differs from the exact
quotient by at most the fraction `2 ^ (-53)` of it. -/
theorem roundBinary64_div_rel_error (rx sent : Nat) (hsent : 0 < sent) (hlt : sent < 4294967296) :
    |roundBinary64 ((rx : ℚ) / (sent : ℚ)) - (rx : ℚ) / (sent : ℚ)| ≤
      (rx : ℚ) / (sent : ℚ) / 2 ^ 53 := by
  have hs : (0 : ℚ) < sent := by exact_mod_cast hsent
  rcases Nat.eq_zero_or_pos rx with h0 | hpos
  · simp [h0, roundBinary64_zero]
  · have hq : (0 : ℚ) < (rx : ℚ) / (sent : ℚ) := div_pos (by exact_mod_cast hpos) hs
    have := roundBinary64_rel_error ((rx : ℚ) / (sent : ℚ)) (by
      rw [abs_of_pos hq, le_div_iff₀ hs]
      have h1 : (sent : ℚ) ≤ 4294967296 := by exact_mod_cast hlt.le
      have h2 : (1 : ℚ) ≤ rx := by exact_mod_cast hpos
      have h3 : (2 : ℚ) ^ (-1022 : ℤ) ≤ 1 / 4294967296 := by
        have : (1 : ℚ) / 4294967296 = 2 ^ (-32 : ℤ) := by norm_num
        rw [this]
        exact zpow_le_zpow_right₀ (by norm_num) (by norm_num)
      have h4 : (0 : ℚ) ≤ 2 ^ (-1022 : ℤ) := (zpow_pos (by norm_num) _).le
      calc (2 : ℚ) ^ (-1022 : ℤ) * sent ≤ 1 / 4294967296 * 4294967296 :=
            mul_le_mul h3 h1 hs.le (by norm_num)
        _ = 1 := by norm_num
        _ ≤ rx := h2)
    rwa [abs_of_pos hq] at this

/-- Sample values of the rounding: the doubles of `0.1`, `0.05` and `1 / 3`, a
negative value, two ties above `2 ^ 53`, which go to the even significand, and
two ties among the subnormal values. -/
theorem roundBinary64_samples :
    roundBinary64 0.1 = 3602879701896397 / 36028797018963968 ∧
      roundBinary64 0.05 = 3602879701896397 / 72057594037927936 ∧
      roundBinary64 (1 / 3) = 6004799503160661 / 18014398509481984 ∧
      roundBinary64 (-(1 / 3)) = -(6004799503160661 / 18014398509481984) ∧
      roundBinary64 (2 ^ 53 + 1) = 2 ^ 53 ∧
      roundBinary64 (2 ^ 53 + 3) = 2 ^ 53 + 4 ∧
      roundBinary64 (3 / 2 ^ 1075) = 2 / 2 ^ 1074 ∧
      roundBinary64 (1 / 2 ^ 1075) = 0 := by
  refine ⟨by decide!, by decide!, by decide!, by decide!, by decide!, by decide!, by decide!,
    by decide!⟩

/-- The binary64 values of the model: the rationals `m * 2 ^ s` with `|m| < 2 ^ 53`
and `s ≥ -1074`. -/
theorem isBinary64_iff (x : ℚ) :
    IsBinary64 x ↔ ∃ m s : ℤ, |m| < 2 ^ 53 ∧ -1074 ≤ s ∧ x = (m : ℚ) * 2 ^ s := by
  constructor
  · intro h
    obtain ⟨m, s, hm, hs, e⟩ := roundBinary64_repr x
    exact ⟨m, s, hm, hs, h ▸ e⟩
  · rintro ⟨m, s, hm, hs, rfl⟩
    exact roundBinary64_of_repr m s hm hs

theorem isBinary64_roundBinary64 (x : ℚ) : IsBinary64 (roundBinary64 x) :=
  roundBinary64_idem x

theorem roundBinary64_two_zpow (n : ℤ) (hn : -1074 ≤ n) :
    roundBinary64 ((2 : ℚ) ^ n) = 2 ^ n := by
  have := roundBinary64_of_repr 1 n (by norm_num) hn
  simpa using this

theorem roundBinary64_le_two_zpow {x : ℚ} (n : ℤ) (hn : -1074 ≤ n) (h : x ≤ 2 ^ n) :
    roundBinary64 x ≤ 2 ^ n := by
  have := roundBinary64_mono h
  rwa [roundBinary64_two_zpow n hn] at this

theorem roundBinary64_le_two_pow {x : ℚ} (n : ℕ) (h : x ≤ 2 ^ n) :
    roundBinary64 x ≤ 2 ^ n := by
  have hz : x ≤ (2 : ℚ) ^ (n : ℤ) := by rwa [zpow_natCast]
  have := roundBinary64_le_two_zpow (n : ℤ) (by omega) hz
  rwa [zpow_natCast] at this

/-! ## The sweep loop -/

theorem sweepLoop_eq_map (scanStop epsilon scanStep : ℚ) (hstep : 0 < scanStep) (n : Nat)
    (scanPos : ℚ) (h1 : scanPos + n * scanStep ≤ scanStop + epsilon)
    (h2 : scanStop + epsilon < scanPos + (n + 1) * scanStep) :
    sweepLoop scanStop epsilon scanStep hstep scanPos =
      (List.range (n + 1)).map (fun k : Nat => scanPos + k * scanStep) := by
  induction n generalizing scanPos with
  | zero =>
    have hle : scanPos ≤ scanStop + epsilon := by simpa using h1
    have hgt : ¬ (scanPos + scanStep ≤ scanStop + epsilon) := by
      have : scanStop + epsilon < scanPos + scanStep := by simpa using h2
      exact not_le.mpr this
    rw [sweepLoop, if_pos hle, sweepLoop, if_neg hgt]
    simp [List.range_succ]
  | succ n ih =>
    have hn : (0 : ℚ) ≤ n := Nat.cast_nonneg n
    have hle : scanPos ≤ scanStop + epsilon := by
      push_cast at h1
      nlinarith
    have h1' : scanPos + scanStep + n * scanStep ≤ scanStop + epsilon := by
      push_cast at h1
      linarith
    have h2' : scanStop + epsilon < scanPos + scanStep + (n + 1) * scanStep := by
      push_cast at h2
      linarith
    rw [sweepLoop, if_pos hle, ih (scanPos + scanStep) h1' h2',
      List.range_succ_eq_map (n + 1), List.map_cons, List.map_map]
    congr 1
    · simp
    · apply List.map_congr_left
      intro k _
      simp only [Function.comp_apply, Nat.succ_eq_add_one]
      push_cast
      ring

/-- One more execution of `scanPos += scanStep` adds `scanStep` and rounds. -/
theorem accumulatedSum_succ (scanStep : ℚ) (k : Nat) (scanPos : ℚ) :
    accumulatedSum scanStep (k + 1) scanPos =
      roundBinary64 (accumulatedSum scanStep k scanPos + scanStep) := by
  induction k generalizing scanPos with
  | zero => rfl
  | succ k ih =>
    rw [accumulatedSum, ih]
    rfl

/-- When the loop ends it has run its body at the accumulated sums, all of them
at most the bound of the condition, and the next sum exceeds the bound. -/
theorem sweepLoopBinary64_spec (scanStop epsilon scanStep : ℚ) (fuel : Nat) (scanPos : ℚ)
    (coords : List ℚ)
    (h : sweepLoopBinary64 fuel scanStop epsilon scanStep scanPos = some coords) :
    coords = (List.range coords.length).map (fun k => accumulatedSum scanStep k scanPos) ∧
      (∀ k, k < coords.length →
        accumulatedSum scanStep k scanPos ≤ roundBinary64 (scanStop + epsilon)) ∧
      roundBinary64 (scanStop + epsilon) < accumulatedSum scanStep coords.length scanPos := by
  induction fuel generalizing scanPos coords with
  | zero => simp [sweepLoopBinary64] at h
  | succ fuel ih =>
    unfold sweepLoopBinary64 at h
    split at h
    · rename_i hle
      cases hrest : sweepLoopBinary64 fuel scanStop epsilon scanStep
          (roundBinary64 (scanPos + scanStep)) with
      | none => simp [hrest] at h
      | some rest =>
        rw [hrest] at h
        simp only [Option.map_some', Option.some.injEq] at h
        subst h
        obtain ⟨h1, h2, h3⟩ := ih _ rest hrest
        refine ⟨?_, ?_, ?_⟩
        · rw [List.length_cons, List.range_succ_eq_map, List.map_cons, List.map_map]
          congr 1
        · intro k hk
          cases k with
          | zero => exact hle
          | succ k => exact h2 k (by simpa using hk)
        · exact h3
    · rename_i hgt
      simp only [Option.some.injEq] at h
      subst h
      exact ⟨rfl, by simp, not_le.mp hgt⟩

theorem sweepLoopBinary64_succ (scanStop epsilon scanStep : ℚ) (fuel : Nat) (scanPos : ℚ)
    (coords : List ℚ)
    (h : sweepLoopBinary64 fuel scanStop epsilon scanStep scanPos = some coords) :
    sweepLoopBinary64 (fuel + 1) scanStop epsilon scanStep scanPos = some coords := by
  induction fuel generalizing scanPos coords with
  | zero => simp [sweepLoopBinary64] at h
  | succ fuel ih =>
    unfold sweepLoopBinary64 at h ⊢
    split at h
    · rename_i hle
      rw [if_pos hle]
      cases hrest : sweepLoopBinary64 fuel scanStop epsilon scanStep
          (roundBinary64 (scanPos + scanStep)) with
      | none => simp [hrest] at h
      | some rest =>
        rw [hrest] at h
        rw [ih _ rest hrest]
        exact h
    · rename_i hgt
      rw [if_neg hgt]
      exact h

/-- More fuel does not change the result of a loop that has ended. -/
theorem sweepLoopBinary64_mono (scanStop epsilon scanStep : ℚ) (fuel fuel' : Nat) (scanPos : ℚ)
    (coords : List ℚ) (hle : fuel ≤ fuel')
    (h : sweepLoopBinary64 fuel scanStop epsilon scanStep scanPos = some coords) :
    sweepLoopBinary64 fuel' scanStop epsilon scanStep scanPos = some coords := by
  induction hle with
  | refl => exact h
  | step _ ih => exact sweepLoopBinary64_succ _ _ _ _ _ _ ih

/-- The loop ends as soon as an accumulated sum exceeds the bound. -/
theorem sweepLoopBinary64_ends (scanStop epsilon scanStep : ℚ) (n : Nat) (scanPos : ℚ)
    (h : roundBinary64 (scanStop + epsilon) < accumulatedSum scanStep n scanPos) :
    ∃ coords, sweepLoopBinary64 (n + 1) scanStop epsilon scanStep scanPos = some coords ∧
      coords.length ≤ n := by
  induction n generalizing scanPos with
  | zero =>
    have h0 : roundBinary64 (scanStop + epsilon) < scanPos := h
    refine ⟨[], ?_, le_refl _⟩
    unfold sweepLoopBinary64
    rw [if_neg (not_le.mpr h0)]
  | succ n ih =>
    by_cases hle : scanPos ≤ roundBinary64 (scanStop + epsilon)
    · obtain ⟨rest, hrest, hlen⟩ := ih (roundBinary64 (scanPos + scanStep)) h
      refine ⟨scanPos :: rest, ?_, by simpa using hlen⟩
      rw [sweepLoopBinary64, if_pos hle, hrest]
      rfl
    · refine ⟨[], ?_, Nat.zero_le _⟩
      rw [sweepLoopBinary64, if_neg hle]

/-- The loop never ends once adding `scanStep` no longer changes `scanPos`. -/
theorem sweepLoopBinary64_stuck (scanStop epsilon scanStep scanPos : ℚ)
    (hle : scanPos ≤ roundBinary64 (scanStop + epsilon))
    (hfix : roundBinary64 (scanPos + scanStep) = scanPos) (fuel : Nat) :
    sweepLoopBinary64 fuel scanStop epsilon scanStep scanPos = none := by
  induction fuel with
  | zero => rfl
  | succ fuel ih => rw [sweepLoopBinary64, if_pos hle, hfix, ih]; rfl

/-- For a positive step the values visited by a loop that ends are strictly
increasing from `scanPos` on. -/
theorem sweepLoopBinary64_sorted (scanStop epsilon scanStep : ℚ) (hstep : 0 < scanStep)
    (fuel : Nat) (scanPos : ℚ) (hpos : IsBinary64 scanPos) (coords : List ℚ)
    (h : sweepLoopBinary64 fuel scanStop epsilon scanStep scanPos = some coords) :
    List.Sorted (fun x y : ℚ => x < y) coords ∧ ∀ x ∈ coords, scanPos ≤ x := by
  induction fuel generalizing scanPos coords with
  | zero => simp [sweepLoopBinary64] at h
  | succ fuel ih =>
    have h' := h
    unfold sweepLoopBinary64 at h
    split at h
    · rename_i hle
      cases hrest : sweepLoopBinary64 fuel scanStop epsilon scanStep
          (roundBinary64 (scanPos + scanStep)) with
      | none => simp [hrest] at h
      | some rest =>
        rw [hrest] at h
        simp only [Option.map_some', Option.some.injEq] at h
        subst h
        obtain ⟨hs, hb⟩ := ih _ (isBinary64_roundBinary64 _) rest hrest
        have hge : scanPos ≤ roundBinary64 (scanPos + scanStep) := by
          have := roundBinary64_mono (by linarith : scanPos ≤ scanPos + scanStep)
          rwa [hpos] at this
        have hne : roundBinary64 (scanPos + scanStep) ≠ scanPos := by
          intro hfix
          have := sweepLoopBinary64_stuck scanStop epsilon scanStep scanPos hle hfix (fuel + 1)
          rw [this] at h'
          exact absurd h' (by simp)
        have hlt : scanPos < roundBinary64 (scanPos + scanStep) :=
          lt_of_le_of_ne hge (Ne.symm hne)
        refine ⟨List.sorted_cons.mpr ⟨fun b hbm => lt_of_lt_of_le hlt (hb b hbm), hs⟩, ?_⟩
        intro x hx
        rcases List.mem_cons.mp hx with rfl | hm
        · exact le_refl _
        · exact le_trans hge (hb x hm)
    · simp only [Option.some.injEq] at h
      subst h
      exact ⟨List.sorted_nil, by simp⟩


/-- When no sum is rounded, the loop runs its body at the nominal points
`scanPos + k * scanStep` up to the last one within the bound. -/
theorem sweepLoopBinary64_eq_map (scanStop epsilon scanStep : ℚ) (hstep : 0 < scanStep)
    (n : Nat) (scanPos : ℚ) (hbound : IsBinary64 (scanStop + epsilon))
    (hsums : ∀ k : Nat, k ≤ n → IsBinary64 (scanPos + ((k : ℚ) + 1) * scanStep))
    (h1 : scanPos + n * scanStep ≤ scanStop + epsilon)
    (h2 : scanStop + epsilon < scanPos + (n + 1) * scanStep) :
    sweepLoopBinary64 (n + 2) scanStop epsilon scanStep scanPos =
      some ((List.range (n + 1)).map (fun k : Nat => scanPos + k * scanStep)) := by
  have hb : roundBinary64 (scanStop + epsilon) = scanStop + epsilon := hbound
  induction n generalizing scanPos with
  | zero =>
    have hle : scanPos ≤ scanStop + epsilon := by simpa using h1
    have hgt : ¬ (scanPos + scanStep ≤ scanStop + epsilon) := by
      have : scanStop + epsilon < scanPos + scanStep := by simpa using h2
      exact not_le.mpr this
    have hnext : roundBinary64 (scanPos + scanStep) = scanPos + scanStep := by
      have := hsums 0 (le_refl 0)
      simpa [IsBinary64] using this
    rw [sweepLoopBinary64, hb, if_pos hle, hnext, sweepLoopBinary64, hb, if_neg hgt]
    simp [List.range_succ]
  | succ n ih =>
    have hn : (0 : ℚ) ≤ n := Nat.cast_nonneg n
    have hle : scanPos ≤ scanStop + epsilon := by
      push_cast at h1
      nlinarith
    have hnext : roundBinary64 (scanPos + scanStep) = scanPos + scanStep := by
      have := hsums 0 (Nat.zero_le _)
      simpa [IsBinary64] using this
    have hsums' : ∀ k : Nat, k ≤ n →
        IsBinary64 (scanPos + scanStep + ((k : ℚ) + 1) * scanStep) := by
      intro k hk
      have := hsums (k + 1) (by omega)
      have e : scanPos + scanStep + ((k : ℚ) + 1) * scanStep
          = scanPos + (((k + 1 : Nat) : ℚ) + 1) * scanStep := by
        push_cast
        ring
      rwa [e]
    have h1' : scanPos + scanStep + n * scanStep ≤ scanStop + epsilon := by
      push_cast at h1
      linarith
    have h2' : scanStop + epsilon < scanPos + scanStep + (n + 1) * scanStep := by
      push_cast at h2
      linarith
    rw [sweepLoopBinary64, hb, if_pos hle, hnext, ih (scanPos + scanStep) hsums' h1' h2',
      Option.map_some', List.range_succ_eq_map (n + 1), List.map_cons, List.map_map]
    congr 2
    · simp
    · apply List.map_congr_left
      intro k _
      simp only [Function.comp_apply, Nat.succ_eq_add_one]
      push_cast
      ring

/-- The accumulated sums from a binary64 value on are binary64 values. -/
theorem isBinary64_accumulatedSum (scanStep : ℚ) (k : Nat) (scanPos : ℚ)
    (hpos : IsBinary64 scanPos) : IsBinary64 (accumulatedSum scanStep k scanPos) := by
  induction k generalizing scanPos with
  | zero => exact hpos
  | succ k ih => exact ih _ (isBinary64_roundBinary64 _)

/-- For operands of magnitude at most `2 ^ 1000` the sweep starts at `scanStart`
and none of its sums exceeds the largest finite double. -/
theorem sweepCoordinatesBinary64_finite (scanStart scanStop scanStep : ℚ)
    (hstep : 0 < scanStep) (hrange : scanStart ≤ scanStop)
    (hstart : IsBinary64 scanStart) (hstop : IsBinary64 scanStop)
    (hfinite : -(2 ^ 1000) ≤ scanStart ∧ scanStop ≤ 2 ^ 1000 ∧ scanStep ≤ 2 ^ 1000)
    (fuel : Nat) (coords : List ℚ)
    (h : sweepCoordinatesBinary64 fuel scanStart scanStop scanStep = some coords) :
    coords.head? = some scanStart ∧
      |roundBinary64 (scanStep * 0.5)| ≤ maxBinary64 ∧
      |roundBinary64 (scanStop + roundBinary64 (scanStep * 0.5))| ≤ maxBinary64 ∧
      ∀ k, k ≤ coords.length → |accumulatedSum scanStep k scanStart| ≤ maxBinary64 := by
  obtain ⟨hlo, hhi, hst⟩ := hfinite
  unfold sweepCoordinatesBinary64 at h
  simp only at h
  obtain ⟨hmap, hle, hgt⟩ := sweepLoopBinary64_spec _ _ _ _ _ _ h
  obtain ⟨-, hge⟩ := sweepLoopBinary64_sorted _ _ _ hstep _ _ hstart _ h
  have heps0 : 0 ≤ roundBinary64 (scanStep * 0.5) :=
    roundBinary64_nonneg (by norm_num; exact hstep.le)
  have heps1 : roundBinary64 (scanStep * 0.5) ≤ 2 ^ 1000 := by
    exact roundBinary64_le_two_pow 1000 (by norm_num; linarith)
  have hb0 : scanStop ≤ roundBinary64 (scanStop + roundBinary64 (scanStep * 0.5)) := by
    have := roundBinary64_mono
      (by linarith : scanStop ≤ scanStop + roundBinary64 (scanStep * 0.5))
    rwa [hstop] at this
  have hb1 : roundBinary64 (scanStop + roundBinary64 (scanStep * 0.5)) ≤ 2 ^ 1001 := by
    exact roundBinary64_le_two_pow 1001 (by norm_num; linarith)
  have hmax : (2 : ℚ) ^ 1002 ≤ maxBinary64 := by
    unfold maxBinary64
    norm_num
  have hp1 : (2 : ℚ) ^ 1000 ≤ 2 ^ 1002 := by norm_num
  have hp2 : (2 : ℚ) ^ 1001 ≤ 2 ^ 1002 := by norm_num
  have hpos : 0 < coords.length := by
    rcases Nat.eq_zero_or_pos coords.length with h0 | h0
    · rw [h0] at hgt
      have : roundBinary64 (scanStop + roundBinary64 (scanStep * 0.5)) < scanStart := hgt
      linarith
    · exact h0
  have hhead : coords.head? = some scanStart := by
    rw [hmap]
    obtain ⟨n, hn⟩ := Nat.exists_eq_succ_of_ne_zero hpos.ne.symm
    rw [hn, List.range_succ_eq_map]
    rfl
  have hlow : ∀ k, k ≤ coords.length → scanStart ≤ accumulatedSum scanStep k scanStart := by
    intro k hk
    rcases Nat.lt_or_eq_of_le hk with hlt | heq
    · apply hge
      rw [hmap]
      exact List.mem_map.mpr ⟨k, List.mem_range.mpr hlt, rfl⟩
    · rw [heq]
      linarith
  have hup : ∀ k, k ≤ coords.length → accumulatedSum scanStep k scanStart ≤ 2 ^ 1002 := by
    intro k hk
    rcases Nat.lt_or_eq_of_le hk with hlt | heq
    · exact le_trans (hle k hlt) (le_trans hb1 hp2)
    · obtain ⟨n, hn⟩ := Nat.exists_eq_succ_of_ne_zero hpos.ne.symm
      rw [heq, hn, accumulatedSum_succ]
      have hprev := hle n (by omega)
      exact roundBinary64_le_two_pow 1002 (by norm_num; linarith)
  refine ⟨hhead, ?_, ?_, ?_⟩
  · rw [abs_of_nonneg heps0]
    linarith
  · rw [abs_le]
    constructor <;> linarith
  · intro k hk
    rw [abs_le]
    have := hlow k hk
    have := hup k hk
    constructor <;> linarith

/-- C10 as stated fails.  In binary64 arithmetic the sweep from 0 to 2.45 in
steps of 0.1 ends after 25 points, the last one 2.400000000000001, although
`start + 25 * step <= stop + step / 2` holds of the three doubles (and of the
decimal values 0, 2.45 and 0.1, and of the rounded product and sums), so that
the claim counts 26 points; the sweep from 0 to 0.25 in steps of 0.1 ends after
3 points although `0 + 3 * 0.1 <= 0.25 + 0.1 / 2` holds of the decimal values;
the third point of the sweep from 0.1 in steps of 0.1 is 0.30000000000000004,
which is neither `start + 2 * step` of the doubles nor of the decimal values;
and the sweep from 1e16 to 1e16 + 2 in steps of 0.1 never ends, because
`1e16 + 0.1` rounds back to `1e16`. -/
theorem sweep_drops_point_within_tolerance :
    sweepCoordinatesBinary64 26 0 (roundBinary64 2.45) (roundBinary64 0.1) =
        some [0, 3602879701896397 / 36028797018963968, 3602879701896397 / 18014398509481984,
          1351079888211149 / 4503599627370496, 3602879701896397 / 9007199254740992, 1 / 2,
          5404319552844595 / 9007199254740992, 3152519739159347 / 4503599627370496,
          7205759403792793 / 9007199254740992, 2026619832316723 / 2251799813685248,
          9007199254740991 / 9007199254740992, 4953959590107545 / 4503599627370496,
          5404319552844595 / 4503599627370496, 5854679515581645 / 4503599627370496,
          6305039478318695 / 4503599627370496, 6755399441055745 / 4503599627370496,
          7205759403792795 / 4503599627370496, 7656119366529845 / 4503599627370496,
          8106479329266895 / 4503599627370496, 8556839292003945 / 4503599627370496,
          4503599627370497 / 2251799813685248, 2364389804369511 / 1125899906842624,
          4953959590107547 / 2251799813685248, 647392446434509 / 281474976710656,
          5404319552844597 / 2251799813685248] ∧
      (0 : ℚ) + ((25 : ℕ) : ℚ) * roundBinary64 0.1 ≤ roundBinary64 2.45 + roundBinary64 0.1 / 2 ∧
      (0 : ℚ) + ((25 : ℕ) : ℚ) * 0.1 ≤ 2.45 + 0.1 / 2 ∧
      roundBinary64 (0 + roundBinary64 (((25 : ℕ) : ℚ) * roundBinary64 0.1)) ≤
        roundBinary64 (roundBinary64 2.45 + roundBinary64 (roundBinary64 0.1 / 2)) ∧
      sweepCoordinatesBinary64 4 0 (roundBinary64 0.25) (roundBinary64 0.1) =
        some [0, 3602879701896397 / 36028797018963968, 3602879701896397 / 18014398509481984] ∧
      (0 : ℚ) + ((3 : ℕ) : ℚ) * 0.1 ≤ 0.25 + 0.1 / 2 ∧
      accumulatedSum (roundBinary64 0.1) 2 (roundBinary64 0.1) =
        1351079888211149 / 4503599627370496 ∧
      accumulatedSum (roundBinary64 0.1) 2 (roundBinary64 0.1) ≠
        roundBinary64 0.1 + ((2 : ℕ) : ℚ) * roundBinary64 0.1 ∧
      accumulatedSum (roundBinary64 0.1) 2 (roundBinary64 0.1) ≠ 0.1 + ((2 : ℕ) : ℚ) * 0.1 ∧
      IsBinary64 1e16 ∧ IsBinary64 (1e16 + 2) ∧
      ∀ fuel, sweepCoordinatesBinary64 fuel 1e16 (1e16 + 2) (roundBinary64 0.1) = none := by
  refine ⟨by decide!, by decide!, by norm_num, by decide!, by decide!, by norm_num, by decide!,
    by decide!, by decide!, by decide!, by decide!, ?_⟩
  intro fuel
  exact sweepLoopBinary64_stuck _ _ _ _ (by decide!) (by decide!) fuel

/-- C10 as amended: for binary64 values `scanStart <= scanStop` and a positive
`scanStep`, of magnitude at most `2 ^ 1000`, a sweep loop that ends has run its
body at exactly the accumulated sums `x 0 = scanStart`,
`x (k + 1) = roundBinary64 (x k + scanStep)` for `k = 0, ..., K`, all of them
binary64 values, in strictly increasing order, where `K + 1`, the number of points, is the first index whose
sum exceeds the rounded bound `scanStop + scanStep * 0.5`; no sum overflows, the
loop ends as soon as a sum exceeds the bound, and more fuel does not change the
result.  When no sum is rounded, the loop ends and these are the points
`scanStart + k * scanStep` up to the largest `k` with
`scanStart + k * scanStep <= scanStop + scanStep / 2`, the coordinates of the
sweep in exact arithmetic.  For 0.1, 2.0, 0.1 the
loop ends after 20 points, each within `1e-15` of the nominal `0.1 + k * 0.1`,
and the last one is the sum accumulated for the nominal point 2.0, which is
`2 + 2 ^ (-51)`, printed 2.0000000000000004. -/
theorem sweep_visits_accumulated_sums (scanStart scanStop scanStep : ℚ)
    (hstep : 0 < scanStep) (hrange : scanStart ≤ scanStop)
    (hstart : IsBinary64 scanStart) (hstop : IsBinary64 scanStop)
    (hfinite : -(2 ^ 1000) ≤ scanStart ∧ scanStop ≤ 2 ^ 1000 ∧ scanStep ≤ 2 ^ 1000) :
    (∀ fuel coords, sweepCoordinatesBinary64 fuel scanStart scanStop scanStep = some coords →
        coords = (List.range coords.length).map
            (fun k => accumulatedSum scanStep k scanStart) ∧
          coords.head? = some scanStart ∧
          List.Sorted (fun x y : ℚ => x < y) coords ∧
          (∀ x ∈ coords, ∃ m s : ℤ, |m| < 2 ^ 53 ∧ -1074 ≤ s ∧ x = (m : ℚ) * 2 ^ s) ∧
          (∀ k, k < coords.length → accumulatedSum scanStep k scanStart ≤
              roundBinary64 (scanStop + roundBinary64 (scanStep * 0.5))) ∧
          roundBinary64 (scanStop + roundBinary64 (scanStep * 0.5)) <
            accumulatedSum scanStep coords.length scanStart ∧
          |roundBinary64 (scanStep * 0.5)| ≤ maxBinary64 ∧
          |roundBinary64 (scanStop + roundBinary64 (scanStep * 0.5))| ≤ maxBinary64 ∧
          (∀ k, k ≤ coords.length → |accumulatedSum scanStep k scanStart| ≤ maxBinary64) ∧
          ∀ fuel', fuel ≤ fuel' →
            sweepCoordinatesBinary64 fuel' scanStart scanStop scanStep = some coords) ∧
      (∀ n, roundBinary64 (scanStop + roundBinary64 (scanStep * 0.5)) <
          accumulatedSum scanStep n scanStart →
        ∃ coords, sweepCoordinatesBinary64 (n + 1) scanStart scanStop scanStep = some coords ∧
          coords.length ≤ n) ∧
      (∀ K : Nat, IsBinary64 (scanStep * 0.5) → IsBinary64 (scanStop + scanStep * 0.5) →
        (∀ k : Nat, k ≤ K → IsBinary64 (scanStart + ((k : ℚ) + 1) * scanStep)) →
        scanStart + K * scanStep ≤ scanStop + scanStep / 2 →
        scanStop + scanStep / 2 < scanStart + (K + 1) * scanStep →
        sweepCoordinatesBinary64 (K + 2) scanStart scanStop scanStep =
            some ((List.range (K + 1)).map (fun k : Nat => scanStart + k * scanStep)) ∧
          sweepCoordinatesBinary64 (K + 2) scanStart scanStop scanStep =
            sweepCoordinates true scanStart scanStop scanStep) ∧
      sweepCoordinatesBinary64 21 (roundBinary64 0.1) (roundBinary64 2.0) (roundBinary64 0.1) =
        some [3602879701896397 / 36028797018963968, 3602879701896397 / 18014398509481984,
          1351079888211149 / 4503599627370496, 3602879701896397 / 9007199254740992, 1 / 2,
          5404319552844595 / 9007199254740992, 3152519739159347 / 4503599627370496,
          7205759403792793 / 9007199254740992, 2026619832316723 / 2251799813685248,
          9007199254740991 / 9007199254740992, 4953959590107545 / 4503599627370496,
          5404319552844595 / 4503599627370496, 5854679515581645 / 4503599627370496,
          6305039478318695 / 4503599627370496, 6755399441055745 / 4503599627370496,
          7205759403792795 / 4503599627370496, 7656119366529845 / 4503599627370496,
          8106479329266895 / 4503599627370496, 8556839292003945 / 4503599627370496,
          4503599627370497 / 2251799813685248] ∧
      (∀ k, k < 20 →
        |accumulatedSum (roundBinary64 0.1) k (roundBinary64 0.1) - (0.1 + (k : ℚ) * 0.1)| ≤
          1 / 10 ^ 15) ∧
      accumulatedSum (roundBinary64 0.1) 19 (roundBinary64 0.1) = 2 + 1 / 2 ^ 51 := by
  refine ⟨?_, ?_, ?_, by decide!, by decide!, by decide!⟩
  · intro fuel coords h
    obtain ⟨hhead, heps, hbound, hsums⟩ := sweepCoordinatesBinary64_finite scanStart scanStop
      scanStep hstep hrange hstart hstop hfinite fuel coords h
    obtain ⟨hmap, hle, hgt⟩ := sweepLoopBinary64_spec _ _ _ _ _ _ h
    obtain ⟨hsorted, -⟩ := sweepLoopBinary64_sorted _ _ _ hstep _ _ hstart _ h
    have hdouble : ∀ x ∈ coords, ∃ m s : ℤ, |m| < 2 ^ 53 ∧ -1074 ≤ s ∧ x = (m : ℚ) * 2 ^ s := by
      intro x hx
      rw [hmap] at hx
      obtain ⟨k, -, rfl⟩ := List.mem_map.mp hx
      exact (isBinary64_iff _).mp (isBinary64_accumulatedSum scanStep k scanStart hstart)
    exact ⟨hmap, hhead, hsorted, hdouble, hle, hgt, heps, hbound, hsums, fun fuel' hf =>
      sweepLoopBinary64_mono _ _ _ _ _ _ _ hf h⟩
  · intro n hn
    exact sweepLoopBinary64_ends _ _ _ n _ hn
  · intro K heps hbound hsums h1 h2
    have he : roundBinary64 (scanStep * 0.5) = scanStep * 0.5 := heps
    have hhalf : scanStep * 0.5 = scanStep / 2 := by
      norm_num
      ring
    have h1' : scanStart + K * scanStep ≤ scanStop + scanStep * 0.5 := by
      rw [hhalf]
      exact h1
    have h2' : scanStop + scanStep * 0.5 < scanStart + (K + 1) * scanStep := by
      rw [hhalf]
      exact h2
    have hrun : sweepCoordinatesBinary64 (K + 2) scanStart scanStop scanStep =
        some ((List.range (K + 1)).map (fun k : Nat => scanStart + k * scanStep)) := by
      unfold sweepCoordinatesBinary64
      simp only [he]
      exact sweepLoopBinary64_eq_map scanStop (scanStep * 0.5) scanStep hstep K scanStart hbound
        hsums h1' h2'
    refine ⟨hrun, ?_⟩
    have hns : ¬ scanStep ≤ 0 := not_le.mpr hstep
    rw [hrun]
    simp only [sweepCoordinates, dif_neg hns, Bool.true_and, ge_iff_le, decide_eq_true hrange,
      if_true]
    rw [sweepLoop_eq_map scanStop (scanStep * 0.5) scanStep _ K scanStart h1' h2']

/-- The witness of C10: the sweep from 0 to 1.5 in steps of 0.25, in which no
sum is rounded, ends after the 7 points 0, 0.25, ..., 1.5. -/
theorem sweep_visits_accumulated_sums_witness :
    (0 : ℚ) < 0.25 ∧ (0 : ℚ) ≤ 1.5 ∧ IsBinary64 0 ∧ IsBinary64 1.5 ∧
      (-(2 ^ 1000) ≤ (0 : ℚ) ∧ (1.5 : ℚ) ≤ 2 ^ 1000 ∧ (0.25 : ℚ) ≤ 2 ^ 1000) ∧
      sweepCoordinatesBinary64 8 0 1.5 0.25 = some [0, 0.25, 0.5, 0.75, 1, 1.25, 1.5] ∧
      List.Sorted (fun x y : ℚ => x < y) [0, 0.25, 0.5, 0.75, 1, 1.25, 1.5] ∧
      ∀ fuel, 8 ≤ fuel →
        sweepCoordinatesBinary64 fuel 0 1.5 0.25 = some [0, 0.25, 0.5, 0.75, 1, 1.25, 1.5] :=
  have hrun : sweepCoordinatesBinary64 8 0 1.5 0.25 = some [0, 0.25, 0.5, 0.75, 1, 1.25, 1.5] := by
    decide!
  have hall := (sweep_visits_accumulated_sums 0 1.5 0.25 (by norm_num) (by norm_num) (by decide!)
    (by decide!) ⟨by norm_num, by norm_num, by norm_num⟩).1 8 _ hrun
  ⟨by norm_num, by norm_num, by decide!, by decide!, ⟨by norm_num, by norm_num, by norm_num⟩,
    hrun, hall.2.2.1, hall.2.2.2.2.2.2.2.2.2⟩

/-! ## Organ names -/

theorem lookup_kOrganMap (name : String) (k : BodyOrganOption) (h : (name, k) ∈ kOrganMap) :
    kOrganMap.lookup name = some k := by
  simp only [kOrganMap, List.mem_cons, Prod.mk.injEq, List.mem_singleton, List.not_mem_nil,
    or_false] at h
  rcases h with h | h | h | h | h | h | h | h | h | h | h | h | h | h <;>
    (obtain ⟨rfl, rfl⟩ := h; decide)

theorem lookup_kOrganMap_none (key : String)
    (h : ∀ name k, (name, k) ∈ kOrganMap → key ≠ name) : kOrganMap.lookup key = none :=
  List.lookup_eq_none_iff.mpr (fun p hp => by simpa using h p.1 p.2 hp)

/-- C14: `ParseBodyOrganOption` looks at its argument only through `ToLower`:
two strings with the same lower-cased form get the same result; a string whose
lower-cased form is one of the 14 names of the table gets the key the table
gives that name (and no warning); every other string gets `HEART_402_MHZ` with
the warning, not an error.  `HEART-2400`, `Heart-2400` and `heart-2400` all
give `HEART_2400_MHZ`. -/
theorem parseBodyOrganOption_lowercase_lookup (s t : String) :
    (ToLower s = ToLower t → ParseBodyOrganOption s = ParseBodyOrganOption t) ∧
      (∀ name k, (name, k) ∈ kOrganMap → ToLower s = name →
        ParseBodyOrganOption s = (k, false)) ∧
      ((∀ name k, (name, k) ∈ kOrganMap → ToLower s ≠ name) →
        ParseBodyOrganOption s = (BodyOrganOption.HEART_402_MHZ, true)) ∧
      kOrganMap.length = 14 ∧
      ParseBodyOrganOption "HEART-2400" = (BodyOrganOption.HEART_2400_MHZ, false) ∧
      ParseBodyOrganOption "Heart-2400" = (BodyOrganOption.HEART_2400_MHZ, false) ∧
      ParseBodyOrganOption "heart-2400" = (BodyOrganOption.HEART_2400_MHZ, false) ∧
      ParseBodyOrganOption "liver" = (BodyOrganOption.HEART_402_MHZ, true) := by
  refine ⟨?_, ?_, ?_, rfl, by decide, by decide, by decide, by decide⟩
  · intro h
    simp only [ParseBodyOrganOption, h]
  · intro name k hmem hname
    simp only [ParseBodyOrganOption, hname, lookup_kOrganMap name k hmem]
  · intro hnone
    simp only [ParseBodyOrganOption, lookup_kOrganMap_none _ hnone]

/-! ## Success rates and the jammed flag -/

theorem clampThreshold_of_mem (t : ℚ) (h0 : 0 ≤ t) (h1 : t ≤ 1) : clampThreshold t = t := by
  unfold clampThreshold
  rw [min_eq_right (by norm_num; exact h1), max_eq_right (by norm_num; exact h0)]

/-- C12: for every result of a run and every threshold in [0, 1] (which the
clamp of `main` leaves as it is), the row of the point carries as baseline
success rate the quotient `noJamRx / noJamSent` of the program, which is the
binary64 division, when `noJamSent > 0` and 0 when `noJamSent = 0`, as jam-phase
success rate the quotient `jamRxTx / jamSentTx` when `jamSentTx > 0` and 0 when
`jamSentTx = 0`, and `isJammed` is 1 exactly when that jam-phase success rate is
at most the threshold, 0 otherwise.  The computed rate is the binary64 value
nearest to the exact quotient and, for `uint32_t` counters, differs from it by
at most the fraction `2 ^ (-53)` of it; with 1 of 3 packets received and the
threshold `0.3333333333333333` the computed rate equals the threshold and the
point is jammed, although the exact quotient is larger than the threshold. -/
theorem sweepPoint_rates_and_flag (hypot : ℚ → ℚ → ℚ) (scanJam : Bool) (threshold : ℚ)
    (firstSafeDistance : Option ℚ) (scanPos : ℚ) (res : SimulationResult)
    (fig : SimulationFigures) (h0 : 0 ≤ threshold) (h1 : threshold ≤ 1) :
    clampThreshold threshold = threshold ∧
      (0 < res.noJamSent →
        (sweepPoint hypot scanJam (clampThreshold threshold) firstSafeDistance scanPos res
          fig).1.noJamSuccessRate =
            roundBinary64 ((res.noJamRx : ℚ) / (res.noJamSent : ℚ))) ∧
      (res.noJamSent = 0 →
        (sweepPoint hypot scanJam (clampThreshold threshold) firstSafeDistance scanPos res
          fig).1.noJamSuccessRate = 0) ∧
      (0 < res.jamSentTx →
        (sweepPoint hypot scanJam (clampThreshold threshold) firstSafeDistance scanPos res
          fig).1.jamSuccessRate =
            roundBinary64 ((res.jamRxTx : ℚ) / (res.jamSentTx : ℚ))) ∧
      (res.jamSentTx = 0 →
        (sweepPoint hypot scanJam (clampThreshold threshold) firstSafeDistance scanPos res
          fig).1.jamSuccessRate = 0) ∧
      ((sweepPoint hypot scanJam (clampThreshold threshold) firstSafeDistance scanPos res
          fig).1.isJammed = 1 ↔
        (sweepPoint hypot scanJam (clampThreshold threshold) firstSafeDistance scanPos res
          fig).1.jamSuccessRate ≤ threshold) ∧
      ((sweepPoint hypot scanJam (clampThreshold threshold) firstSafeDistance scanPos res
          fig).1.isJammed = 0 ↔
        ¬ (sweepPoint hypot scanJam (clampThreshold threshold) firstSafeDistance scanPos res
          fig).1.jamSuccessRate ≤ threshold) ∧
      (jammed res (clampThreshold threshold) = true ↔ jamRate res ≤ threshold) ∧
      (∀ m s : ℤ, |m| < 2 ^ 53 → -1074 ≤ s →
        |roundBinary64 ((res.noJamRx : ℚ) / (res.noJamSent : ℚ)) -
            (res.noJamRx : ℚ) / (res.noJamSent : ℚ)| ≤
          |(m : ℚ) * 2 ^ s - (res.noJamRx : ℚ) / (res.noJamSent : ℚ)| ∧
        |roundBinary64 ((res.jamRxTx : ℚ) / (res.jamSentTx : ℚ)) -
            (res.jamRxTx : ℚ) / (res.jamSentTx : ℚ)| ≤
          |(m : ℚ) * 2 ^ s - (res.jamRxTx : ℚ) / (res.jamSentTx : ℚ)|) ∧
      (0 < res.noJamSent → res.noJamSent < 4294967296 →
        |(sweepPoint hypot scanJam (clampThreshold threshold) firstSafeDistance scanPos res
            fig).1.noJamSuccessRate - (res.noJamRx : ℚ) / (res.noJamSent : ℚ)| ≤
          (res.noJamRx : ℚ) / (res.noJamSent : ℚ) / 2 ^ 53) ∧
      (0 < res.jamSentTx → res.jamSentTx < 4294967296 →
        |(sweepPoint hypot scanJam (clampThreshold threshold) firstSafeDistance scanPos res
            fig).1.jamSuccessRate - (res.jamRxTx : ℚ) / (res.jamSentTx : ℚ)| ≤
          (res.jamRxTx : ℚ) / (res.jamSentTx : ℚ) / 2 ^ 53) ∧
      (jamRate ⟨0, 0, 3, 1, 0, 0⟩ = roundBinary64 0.3333333333333333 ∧
        jammed ⟨0, 0, 3, 1, 0, 0⟩ (clampThreshold (roundBinary64 0.3333333333333333)) = true ∧
        ¬ ((1 : ℚ) / 3 ≤ roundBinary64 0.3333333333333333)) := by
  rw [clampThreshold_of_mem threshold h0 h1]
  refine ⟨rfl, ?_, ?_, ?_, ?_, ?_, ?_, ?_, ?_, ?_, ?_, by decide!, by decide!, by decide!⟩
  · intro h
    simp [sweepPoint, noJamRate, Nat.pos_iff_ne_zero.mp h]
  · intro h
    norm_num [sweepPoint, noJamRate, h]
  · intro h
    simp [sweepPoint, jamRate, Nat.pos_iff_ne_zero.mp h]
  · intro h
    norm_num [sweepPoint, jamRate, h]
  · by_cases h : jamRate res ≤ threshold <;> simp [sweepPoint, jammed, h]
  · by_cases h : jamRate res ≤ threshold <;> simp [sweepPoint, jammed, h]
  · simp [jammed]
  · intro m s hm hs
    exact ⟨roundBinary64_nearest _ m s hm hs, roundBinary64_nearest _ m s hm hs⟩
  · intro h hlt
    have hrate : (sweepPoint hypot scanJam threshold firstSafeDistance scanPos res
        fig).1.noJamSuccessRate = roundBinary64 ((res.noJamRx : ℚ) / (res.noJamSent : ℚ)) := by
      simp [sweepPoint, noJamRate, Nat.pos_iff_ne_zero.mp h]
    rw [hrate]
    exact roundBinary64_div_rel_error res.noJamRx res.noJamSent h hlt
  · intro h hlt
    have hrate : (sweepPoint hypot scanJam threshold firstSafeDistance scanPos res
        fig).1.jamSuccessRate = roundBinary64 ((res.jamRxTx : ℚ) / (res.jamSentTx : ℚ)) := by
      simp [sweepPoint, jamRate, Nat.pos_iff_ne_zero.mp h]
    rw [hrate]
    exact roundBinary64_div_rel_error res.jamRxTx res.jamSentTx h hlt

/-- The witness of C12: 3 of 4 baseline packets and 1 of 3 jam-phase packets
received, with the threshold `0.3333333333333333`. -/
theorem sweepPoint_rates_and_flag_witness :
    (0 : ℚ) ≤ roundBinary64 0.3333333333333333 ∧ roundBinary64 0.3333333333333333 ≤ 1 ∧
      ((sweepPoint refCollaborators.hypot false (clampThreshold (roundBinary64 0.3333333333333333))
          none 0.1 ⟨4, 3, 3, 1, 3, 2⟩ ⟨0, 0, 0, 0, tableAt 0, 0, 0, 0, 0, 0, 0⟩).1.isJammed = 1 ↔
        (sweepPoint refCollaborators.hypot false (clampThreshold (roundBinary64 0.3333333333333333))
          none 0.1 ⟨4, 3, 3, 1, 3, 2⟩
          ⟨0, 0, 0, 0, tableAt 0, 0, 0, 0, 0, 0, 0⟩).1.jamSuccessRate ≤
            roundBinary64 0.3333333333333333) :=
  ⟨by decide!, by decide!,
    (sweepPoint_rates_and_flag refCollaborators.hypot false (roundBinary64 0.3333333333333333) none
      0.1 ⟨4, 3, 3, 1, 3, 2⟩ ⟨0, 0, 0, 0, tableAt 0, 0, 0, 0, 0, 0, 0⟩ (by decide!)
      (by decide!)).2.2.2.2.2.1⟩

/-! ## The sweep of `main` as an iteration over per-point results -/

theorem foldl_sweepBody (env : Collaborators) (N M : Nat) (scanJam : Bool) (jamThreshold : ℚ)
    (baseConfig : SimulationConfig) (coords : List ℚ) (st : SweepState) :
    ∃ points : List (ℚ × SimulationResult × SimulationFigures),
      points.map Prod.fst = coords ∧
        (coords.foldl (sweepBody env N M scanJam jamThreshold baseConfig) st).csv =
          st.csv ++ (sweepPoints env.hypot scanJam jamThreshold st.firstSafeDistance points).1 ∧
        (coords.foldl (sweepBody env N M scanJam jamThreshold baseConfig) st).firstSafeDistance =
          (sweepPoints env.hypot scanJam jamThreshold st.firstSafeDistance points).2 := by
  induction coords generalizing st with
  | nil => exact ⟨[], rfl, by simp [sweepPoints], rfl⟩
  | cons c cs ih =>
    obtain ⟨points, hmap, hcsv, hfirst⟩ :=
      ih (sweepBody env N M scanJam jamThreshold baseConfig st c)
    refine ⟨(c, (RunScenario N M (env.phy st.run) st.g).1,
      (RunScenarioFigures env st.ctx
        (if scanJam then
          { st.scanConfig with
            jamX := c, rxX := baseConfig.rxX, jamY := baseConfig.jamY, rxY := baseConfig.rxY }
        else
          { st.scanConfig with
            rxX := c, rxY := baseConfig.rxY, jamX := baseConfig.jamX,
            jamY := baseConfig.jamY })).1) :: points, ?_, ?_, ?_⟩
    · simp [hmap]
    · rw [List.foldl_cons, hcsv]
      simp [sweepBody, sweepPoints]
    · rw [List.foldl_cons, hfirst]
      simp [sweepBody, sweepPoints]

theorem mainProgram_sweep (env : Collaborators) (mTx mRx mJam : Ptr) (cmd : CommandLine)
    (g : Globals) (hstep : 0 < cmd.scanStep) (hcsv : cmd.scanCsvGiven = true)
    (hrange : cmd.scanStart ≤ cmd.scanStop) :
    ∃ points : List (ℚ × SimulationResult × SimulationFigures),
      points.map Prod.fst =
          sweepLoop cmd.scanStop (cmd.scanStep * 0.5) cmd.scanStep hstep cmd.scanStart ∧
        (mainProgram env true mTx mRx mJam cmd g).csv =
          (sweepPoints env.hypot
            (ToLower cmd.scanTarget == "jam" || ToLower cmd.scanTarget == "jammer" ||
              ToLower cmd.scanTarget == "j")
            (clampThreshold cmd.jamThreshold) none points).1 ∧
        (mainProgram env true mTx mRx mJam cmd g).report =
          some (reportOf (sweepPoints env.hypot
            (ToLower cmd.scanTarget == "jam" || ToLower cmd.scanTarget == "jammer" ||
              ToLower cmd.scanTarget == "j")
            (clampThreshold cmd.jamThreshold) none points).2) := by
  have hns : ¬ cmd.scanStep ≤ 0 := not_le.mpr hstep
  obtain ⟨points, hmap, hcsvEq, hfirst⟩ := foldl_sweepBody env cmd.noJamPackets cmd.jamPackets
    (ToLower cmd.scanTarget == "jam" || ToLower cmd.scanTarget == "jammer" ||
      ToLower cmd.scanTarget == "j")
    (clampThreshold cmd.jamThreshold)
    ⟨cmd.txX, cmd.txY, cmd.rxX, cmd.rxY, cmd.jamX, cmd.jamY,
      (ParseBodyOrganOption cmd.bodyOrgan).1⟩
    (sweepLoop cmd.scanStop (cmd.scanStep * 0.5) cmd.scanStep hstep cmd.scanStart)
    { ctx := (RunScenarioFigures env
        (CreateSimulationContext (ParseBodyOrganOption cmd.bodyOrgan).1 mTx mRx mJam)
        ⟨cmd.txX, cmd.txY, cmd.rxX, cmd.rxY, cmd.jamX, cmd.jamY,
          (ParseBodyOrganOption cmd.bodyOrgan).1⟩).2,
      g := (RunScenario cmd.noJamPackets cmd.jamPackets (env.phy 0) g).2,
      scanConfig := ⟨cmd.txX, cmd.txY, cmd.rxX, cmd.rxY, cmd.jamX, cmd.jamY,
        (ParseBodyOrganOption cmd.bodyOrgan).1⟩,
      firstSafeDistance := none, csv := [], run := 1 }
  refine ⟨points, hmap, ?_, ?_⟩
  · simp only [mainProgram, dif_neg hns, hcsv, Bool.true_and, ge_iff_le, decide_eq_true hrange,
      if_true]
    rw [hcsvEq, List.nil_append]
  · simp only [mainProgram, dif_neg hns, hcsv, Bool.true_and, ge_iff_le, decide_eq_true hrange,
      if_true]
    rw [hfirst]

/-! ## The range of the sweep -/

theorem sweepPoints_some (hypot : ℚ → ℚ → ℚ) (scanJam : Bool) (jamThreshold d : ℚ)
    (points : List (ℚ × SimulationResult × SimulationFigures)) :
    (sweepPoints hypot scanJam jamThreshold (some d) points).2 = some d := by
  induction points with
  | nil => rfl
  | cons p rest ih =>
    obtain ⟨scanPos, res, fig⟩ := p
    simp only [sweepPoints, sweepPoint, Option.isNone_some, Bool.and_false, Bool.false_eq_true,
      if_false]
    exact ih

theorem sweepPoints_jammed_cons (hypot : ℚ → ℚ → ℚ) (scanJam : Bool) (jamThreshold : ℚ)
    (first : Option ℚ) (p : ℚ × SimulationResult × SimulationFigures)
    (rest : List (ℚ × SimulationResult × SimulationFigures))
    (hj : jammed p.2.1 jamThreshold = true) :
    (sweepPoints hypot scanJam jamThreshold first (p :: rest)).2 =
      (sweepPoints hypot scanJam jamThreshold first rest).2 := by
  obtain ⟨scanPos, res, fig⟩ := p
  simp only at hj
  simp [sweepPoints, sweepPoint, hj]

theorem sweepPoints_safe_cons (hypot : ℚ → ℚ → ℚ) (scanJam : Bool) (jamThreshold : ℚ)
    (p : ℚ × SimulationResult × SimulationFigures)
    (rest : List (ℚ × SimulationResult × SimulationFigures))
    (hj : jammed p.2.1 jamThreshold = false) :
    (sweepPoints hypot scanJam jamThreshold none (p :: rest)).2 =
      some (if scanJam = true then hypot (p.2.2.rxX - p.2.2.jamX) (p.2.2.rxY - p.2.2.jamY)
        else hypot (p.2.2.rxX - p.2.2.txX) (p.2.2.rxY - p.2.2.txY)) := by
  obtain ⟨scanPos, res, fig⟩ := p
  simp only at hj
  simp only [sweepPoints, sweepPoint, hj, Bool.not_false, Option.isNone_none, Bool.and_self,
    if_true]
  exact sweepPoints_some hypot scanJam jamThreshold _ rest

theorem sweepPoints_none_iff (hypot : ℚ → ℚ → ℚ) (scanJam : Bool) (jamThreshold : ℚ)
    (points : List (ℚ × SimulationResult × SimulationFigures)) :
    (sweepPoints hypot scanJam jamThreshold none points).2 = none ↔
      ∀ p ∈ points, jammed p.2.1 jamThreshold = true := by
  induction points with
  | nil => simp [sweepPoints]
  | cons p rest ih =>
    cases hj : jammed p.2.1 jamThreshold with
    | true =>
      rw [sweepPoints_jammed_cons hypot scanJam jamThreshold none p rest hj, ih]
      simp [hj]
    | false =>
      rw [sweepPoints_safe_cons hypot scanJam jamThreshold p rest hj]
      simp [hj]

theorem sweepPoints_first_safe (hypot : ℚ → ℚ → ℚ) (scanJam : Bool) (jamThreshold : ℚ)
    (pre : List (ℚ × SimulationResult × SimulationFigures))
    (p : ℚ × SimulationResult × SimulationFigures)
    (post : List (ℚ × SimulationResult × SimulationFigures))
    (hpre : ∀ q ∈ pre, jammed q.2.1 jamThreshold = true)
    (hp : jammed p.2.1 jamThreshold = false) :
    (sweepPoints hypot scanJam jamThreshold none (pre ++ p :: post)).2 =
      some (if scanJam = true then hypot (p.2.2.rxX - p.2.2.jamX) (p.2.2.rxY - p.2.2.jamY)
        else hypot (p.2.2.rxX - p.2.2.txX) (p.2.2.rxY - p.2.2.txY)) := by
  induction pre with
  | nil => exact sweepPoints_safe_cons hypot scanJam jamThreshold p post hp
  | cons q qs ih =>
    rw [List.cons_append, sweepPoints_jammed_cons hypot scanJam jamThreshold none q _
      (hpre q (List.mem_cons_self _ _))]
    exact ih (fun r hr => hpre r (List.mem_cons_of_mem _ hr))

theorem sweepPoints_isJammed (hypot : ℚ → ℚ → ℚ) (scanJam : Bool) (jamThreshold : ℚ)
    (first : Option ℚ) (points : List (ℚ × SimulationResult × SimulationFigures)) :
    (sweepPoints hypot scanJam jamThreshold first points).1.map CsvRow.isJammed =
      points.map (fun p => if jammed p.2.1 jamThreshold = true then 1 else 0) := by
  induction points generalizing first with
  | nil => rfl
  | cons p rest ih =>
    obtain ⟨scanPos, res, fig⟩ := p
    simp only [sweepPoints, List.map_cons, ih]
    rfl

/-- C13: for every sweep, given as the per-point results in sweep order, the
report is "still jammed" exactly when every point is jammed; otherwise it is
the distance at the first point that is not jammed - `hypot` of the
receiver-jammer offsets when the jammer axis is swept, of the
transmitter-receiver offsets otherwise - whatever the later points are; the
`isJammed` column of the rows is the jammed flag of the points; and the rows and
the report of `main` are those of its per-point results. -/
theorem first_safe_distance_reported (hypot : ℚ → ℚ → ℚ) (scanJam : Bool) (jamThreshold : ℚ)
    (points : List (ℚ × SimulationResult × SimulationFigures)) :
    (reportOf (sweepPoints hypot scanJam jamThreshold none points).2 = Report.stillJammed ↔
        ∀ p ∈ points, jammed p.2.1 jamThreshold = true) ∧
      (∀ pre p post, points = pre ++ p :: post →
        (∀ q ∈ pre, jammed q.2.1 jamThreshold = true) → jammed p.2.1 jamThreshold = false →
        reportOf (sweepPoints hypot scanJam jamThreshold none points).2 =
          Report.safeDistance
            (if scanJam = true then hypot (p.2.2.rxX - p.2.2.jamX) (p.2.2.rxY - p.2.2.jamY)
              else hypot (p.2.2.rxX - p.2.2.txX) (p.2.2.rxY - p.2.2.txY))) ∧
      (sweepPoints hypot scanJam jamThreshold none points).1.map CsvRow.isJammed =
        points.map (fun p => if jammed p.2.1 jamThreshold = true then 1 else 0) ∧
      (∀ (env : Collaborators) (mTx mRx mJam : Ptr) (cmd : CommandLine) (g : Globals)
        (hstep : 0 < cmd.scanStep), cmd.scanCsvGiven = true → cmd.scanStart ≤ cmd.scanStop →
        ∃ results : List (ℚ × SimulationResult × SimulationFigures),
          results.map Prod.fst =
              sweepLoop cmd.scanStop (cmd.scanStep * 0.5) cmd.scanStep hstep cmd.scanStart ∧
            (mainProgram env true mTx mRx mJam cmd g).csv =
              (sweepPoints env.hypot
                (ToLower cmd.scanTarget == "jam" || ToLower cmd.scanTarget == "jammer" ||
                  ToLower cmd.scanTarget == "j")
                (clampThreshold cmd.jamThreshold) none results).1 ∧
            (mainProgram env true mTx mRx mJam cmd g).report =
              some (reportOf (sweepPoints env.hypot
                (ToLower cmd.scanTarget == "jam" || ToLower cmd.scanTarget == "jammer" ||
                  ToLower cmd.scanTarget == "j")
                (clampThreshold cmd.jamThreshold) none results).2)) := by
  refine ⟨?_, ?_, sweepPoints_isJammed hypot scanJam jamThreshold none points, ?_⟩
  · rw [← sweepPoints_none_iff hypot scanJam jamThreshold points]
    cases (sweepPoints hypot scanJam jamThreshold none points).2 <;> simp [reportOf]
  · intro pre p post hsplit hpre hp
    rw [hsplit, sweepPoints_first_safe hypot scanJam jamThreshold pre p post hpre hp]
    rfl
  · intro env mTx mRx mJam cmd g hstep hcsv hrange
    exact mainProgram_sweep env mTx mRx mJam cmd g hstep hcsv hrange

/-! ## The static figures of a run -/

theorem setBodyOptions_setBodyOptions (self : BodyPropagationLossModel)
    (k k' : BodyOrganOption) :
    (self.SetBodyOptions k').SetBodyOptions k = self.SetBodyOptions k := rfl

theorem runScenarioFigures_body (env : Collaborators) (ctx : SimulationContext)
    (config : SimulationConfig) :
    (RunScenarioFigures env ctx config).1.bodyRxPowerDbm =
        bodyRxOf env.L ctx.bodyLoss config.organOption ctx.mTx ctx.mRx ∧
      (RunScenarioFigures env ctx config).1.bodyLossDb =
        kTxPowerDbm - bodyRxOf env.L ctx.bodyLoss config.organOption ctx.mTx ctx.mRx ∧
      (RunScenarioFigures env ctx config).2.bodyLoss =
        ctx.bodyLoss.SetBodyOptions config.organOption ∧
      (RunScenarioFigures env ctx config).2.mTx = ctx.mTx ∧
      (RunScenarioFigures env ctx config).2.mRx = ctx.mRx ∧
      (RunScenarioFigures env ctx config).2.mJam = ctx.mJam :=
  ⟨rfl, rfl, rfl, rfl, rfl, rfl⟩

theorem experimentInv_create (organ : BodyOrganOption) (mTx mRx mJam : Ptr) (hTx : mTx ≠ 0) :
    ExperimentInv mTx mRx mJam (CreateSimulationContext organ mTx mRx mJam) := by
  simp [ExperimentInv, CreateSimulationContext, BodyPropagationLossModel.AddBodyMobility, hTx,
    BodyPropagationLossModel.ClearBodyMobility]

theorem experimentInv_run (env : Collaborators) (mTx mRx mJam : Ptr) (ctx : SimulationContext)
    (config : SimulationConfig) (h : ExperimentInv mTx mRx mJam ctx) :
    ExperimentInv mTx mRx mJam (RunScenarioFigures env ctx config).2 := h

theorem experimentInv_foldl (env : Collaborators) (mTx mRx mJam : Ptr)
    (configs : List SimulationConfig) (ctx : SimulationContext)
    (h : ExperimentInv mTx mRx mJam ctx) :
    ExperimentInv mTx mRx mJam
      (configs.foldl (fun c cfg => (RunScenarioFigures env c cfg).2) ctx) := by
  induction configs generalizing ctx with
  | nil => exact h
  | cons cfg rest ih => exact ih _ (experimentInv_run env mTx mRx mJam ctx cfg h)

theorem bodyRxOf_experiment (L : Libm) (mTx mRx mJam : Ptr) (ctx : SimulationContext)
    (organ : BodyOrganOption) (h : ExperimentInv mTx mRx mJam ctx) :
    bodyRxOf L ctx.bodyLoss organ ctx.mTx ctx.mRx =
      kTxPowerDbm - totalDb L (tableAt organ.toUInt32) (tableAt organ.toUInt32) := by
  obtain ⟨hsel, hset, hTx, _, _⟩ := h
  have hgate : (ctx.bodyLoss.SetBodyOptions organ).ShouldApplyBodyLoss ctx.mTx ctx.mRx = true := by
    rw [shouldApply_eq]
    simp [BodyPropagationLossModel.SetBodyOptions, hsel, hset, hTx]
  unfold bodyRxOf BodyPropagationLossModel.CalcRxPower
  rw [doCalcRxPower_of_gate L _ kTxPowerDbm ctx.mTx ctx.mRx hgate]
  rfl

theorem doCalcRxPower_jam_link (L : Libm) (mTx mRx mJam : Ptr) (ctx : SimulationContext)
    (p : ℚ) (h1 : mTx ≠ mRx) (h2 : mTx ≠ mJam) (h : ExperimentInv mTx mRx mJam ctx) :
    ctx.bodyLoss.ShouldApplyBodyLoss ctx.mJam ctx.mRx = false ∧
      ctx.bodyLoss.DoCalcRxPower L p ctx.mJam ctx.mRx = p := by
  obtain ⟨hsel, hset, _, hRx, hJam⟩ := h
  have hgate : ctx.bodyLoss.ShouldApplyBodyLoss ctx.mJam ctx.mRx = false := by
    rw [shouldApply_eq]
    simp [hsel, hset, hRx, hJam, Ne.symm h1, Ne.symm h2]
  exact ⟨hgate, by simp [BodyPropagationLossModel.DoCalcRxPower, hgate]⟩

/-- C15: in the context `CreateSimulationContext` builds (a live transmitter
mobility model, distinct from the receiver's and the jammer's), also after any
number of runs, the in-body set holds the transmitter's endpoint only; the
`bodyLossDb` a run records is the total additional loss of the profile the run
selects and `bodyRxPowerDbm` is the transmit power minus it; and on the
jammer-receiver link the gate does not apply, `DoCalcRxPower` returning its
input power unchanged, before and after the run. -/
theorem experiment_body_loss_on_tx_link_only (env : Collaborators) (organ : BodyOrganOption)
    (mTx mRx mJam : Ptr) (configs : List SimulationConfig) (config : SimulationConfig) (p : ℚ)
    (hTx : mTx ≠ 0) (h1 : mTx ≠ mRx) (h2 : mTx ≠ mJam) :
    (configs.foldl (fun c cfg => (RunScenarioFigures env c cfg).2)
        (CreateSimulationContext organ mTx mRx mJam)).bodyLoss.m_bodyMobility = {mTx} ∧
      (RunScenarioFigures env
        (configs.foldl (fun c cfg => (RunScenarioFigures env c cfg).2)
          (CreateSimulationContext organ mTx mRx mJam)) config).1.bodyLossDb =
        totalDb env.L (tableAt config.organOption.toUInt32)
          (tableAt config.organOption.toUInt32) ∧
      (RunScenarioFigures env
        (configs.foldl (fun c cfg => (RunScenarioFigures env c cfg).2)
          (CreateSimulationContext organ mTx mRx mJam)) config).1.bodyRxPowerDbm =
        kTxPowerDbm -
          totalDb env.L (tableAt config.organOption.toUInt32)
            (tableAt config.organOption.toUInt32) ∧
      (configs.foldl (fun c cfg => (RunScenarioFigures env c cfg).2)
        (CreateSimulationContext organ mTx mRx mJam)).bodyLoss.DoCalcRxPower env.L p mJam mRx
        = p ∧
      (RunScenarioFigures env
        (configs.foldl (fun c cfg => (RunScenarioFigures env c cfg).2)
          (CreateSimulationContext organ mTx mRx mJam)) config).2.bodyLoss.DoCalcRxPower
          env.L p mJam mRx = p := by
  have hinv := experimentInv_foldl env mTx mRx mJam configs _
    (experimentInv_create organ mTx mRx mJam hTx)
  have hinv2 := experimentInv_run env mTx mRx mJam _ config hinv
  obtain ⟨hb1, hb2, _⟩ := runScenarioFigures_body env
    (configs.foldl (fun c cfg => (RunScenarioFigures env c cfg).2)
      (CreateSimulationContext organ mTx mRx mJam)) config
  have hbody := bodyRxOf_experiment env.L mTx mRx mJam _ config.organOption hinv
  have hj1 := (doCalcRxPower_jam_link env.L mTx mRx mJam _ p h1 h2 hinv).2
  have hj2 := (doCalcRxPower_jam_link env.L mTx mRx mJam _ p h1 h2 hinv2).2
  rw [hinv.2.2.2.2, hinv.2.2.2.1] at hj1
  rw [hinv2.2.2.2.2, hinv2.2.2.2.1] at hj2
  refine ⟨hinv.2.1, ?_, ?_, hj1, hj2⟩
  · rw [hb2, hbody]
    ring
  · rw [hb1, hbody]

/-- The witness of C15: addresses 1, 2, 3, the heart profile at 402 MHz. -/
theorem experiment_body_loss_on_tx_link_only_witness :
    (1 : Ptr) ≠ 0 ∧ (1 : Ptr) ≠ 2 ∧ (1 : Ptr) ≠ 3 ∧
      (CreateSimulationContext .HEART_402_MHZ 1 2 3).bodyLoss.DoCalcRxPower
        refCollaborators.L (-16) 3 2 = -16 :=
  ⟨by decide, by decide, by decide,
    (experiment_body_loss_on_tx_link_only refCollaborators .HEART_402_MHZ 1 2 3 []
      ⟨0, 0, 0.3, 0, 43, 0, .HEART_402_MHZ⟩ (-16) (by decide) (by decide) (by decide)).2.2.2.1⟩

/-! ## Overrides set before a run -/

theorem bodyRxOf_setLayers (L : Libm) (bodyLoss : BodyPropagationLossModel)
    (organ : BodyOrganOption) (mTx mRx : Ptr) (f m : Nat) :
    bodyRxOf L ((bodyLoss.SetFatLayer f).SetMuscleLayer m) organ mTx mRx =
      bodyRxOf L bodyLoss organ mTx mRx := rfl

/-- C17: whatever `SetFatLayer(f)` and `SetMuscleLayer(m)` calls came before,
`SetBodyOptions(k)` leaves in `m_parameters` the row of `k`, so both overrides
are the built-in layer counts of `k` and the fat and muscle terms of
`DoCalcRxPower` carry the square of the built-in count as multiplier; and as
`RunScenario` starts with `SetBodyOptions`, overrides set before a run change
neither `bodyLossDb` nor `bodyRxPowerDbm` of the run. -/
theorem setBodyOptions_overwrites_overrides (env : Collaborators)
    (self : BodyPropagationLossModel) (k : BodyOrganOption) (f m : Nat)
    (ctx : SimulationContext) (config : SimulationConfig) :
    (((self.SetFatLayer f).SetMuscleLayer m).SetBodyOptions k).m_parameters =
        tableAt k.toUInt32 ∧
      (((self.SetFatLayer f).SetMuscleLayer m).SetBodyOptions k).GetFatLayer =
        toUInt32 (tableAt k.toUInt32).fatLayer ∧
      (((self.SetFatLayer f).SetMuscleLayer m).SetBodyOptions k).GetMuscleLayer =
        toUInt32 (tableAt k.toUInt32).muscleLayer ∧
      fatDb env.L (tableAt k.toUInt32)
          (((self.SetFatLayer f).SetMuscleLayer m).SetBodyOptions k).m_parameters =
        specLayerLoss env.L (tableAt k.toUInt32).fatConductivity
          (tableAt k.toUInt32).fatPermittivity (tableAt k.toUInt32).fatThickness
          ((tableAt k.toUInt32).fatLayer ^ 2) ∧
      muscleDb env.L (tableAt k.toUInt32)
          (((self.SetFatLayer f).SetMuscleLayer m).SetBodyOptions k).m_parameters =
        specLayerLoss env.L (tableAt k.toUInt32).muscleConductivity
          (tableAt k.toUInt32).musclePermittivity (tableAt k.toUInt32).muscleThickness
          ((tableAt k.toUInt32).muscleLayer ^ 2) ∧
      (RunScenarioFigures env
          { ctx with bodyLoss := (ctx.bodyLoss.SetFatLayer f).SetMuscleLayer m } config).1.bodyLossDb
        = (RunScenarioFigures env ctx config).1.bodyLossDb ∧
      (RunScenarioFigures env
          { ctx with bodyLoss := (ctx.bodyLoss.SetFatLayer f).SetMuscleLayer m }
          config).1.bodyRxPowerDbm
        = (RunScenarioFigures env ctx config).1.bodyRxPowerDbm := by
  refine ⟨rfl, rfl, rfl, ?_, ?_, rfl, rfl⟩
  · rw [fatDb_eq_spec]
    simp only [BodyPropagationLossModel.SetBodyOptions, pow_two]
  · rw [muscleDb_eq_spec]
    simp only [BodyPropagationLossModel.SetBodyOptions, pow_two]

/-! ## Positions do not enter the body figures -/

theorem bodyRxOf_setBodyOptions (L : Libm) (bodyLoss : BodyPropagationLossModel)
    (organ organ' : BodyOrganOption) (mTx mRx : Ptr) :
    bodyRxOf L (bodyLoss.SetBodyOptions organ') organ mTx mRx =
      bodyRxOf L bodyLoss organ mTx mRx := rfl

theorem bodyRxOf_congr (L : Libm) (b b' : BodyPropagationLossModel) (organ : BodyOrganOption)
    (mTx mRx : Ptr) (hsel : b.m_useSelectiveAttenuation = b'.m_useSelectiveAttenuation)
    (hset : b.m_bodyMobility = b'.m_bodyMobility) :
    bodyRxOf L b organ mTx mRx = bodyRxOf L b' organ mTx mRx := by
  have h : b.SetBodyOptions organ = b'.SetBodyOptions organ := by
    cases b
    cases b'
    simp only [BodyPropagationLossModel.SetBodyOptions] at *
    simp [hsel, hset]
  unfold bodyRxOf
  rw [h]

theorem doCalcRxPower_congr (L : Libm) (self self' : BodyPropagationLossModel)
    (txPowerDbm : ℚ) (a b a' b' : Ptr) (hopt : self.m_bodyOption = self'.m_bodyOption)
    (hfat : self.m_parameters.fatLayer = self'.m_parameters.fatLayer)
    (hmuscle : self.m_parameters.muscleLayer = self'.m_parameters.muscleLayer)
    (hgate : self.ShouldApplyBodyLoss a b = self'.ShouldApplyBodyLoss a' b') :
    self.DoCalcRxPower L txPowerDbm a b = self'.DoCalcRxPower L txPowerDbm a' b' := by
  simp only [BodyPropagationLossModel.DoCalcRxPower, hgate, hopt, totalDb, fatDb, muscleDb,
    hfat, hmuscle]

theorem foldl_sweepBody_body (env : Collaborators) (N M : Nat) (scanJam : Bool)
    (jamThreshold : ℚ) (baseConfig : SimulationConfig) (coords : List ℚ) (st : SweepState)
    (horg : st.scanConfig.organOption = baseConfig.organOption) :
    ∀ csvRow ∈ (coords.foldl (sweepBody env N M scanJam jamThreshold baseConfig) st).csv,
      csvRow ∈ st.csv ∨
        (csvRow.bodyRxPowerDbm =
            bodyRxOf env.L st.ctx.bodyLoss baseConfig.organOption st.ctx.mTx st.ctx.mRx ∧
          csvRow.bodyLossDb =
            kTxPowerDbm -
              bodyRxOf env.L st.ctx.bodyLoss baseConfig.organOption st.ctx.mTx st.ctx.mRx) := by
  induction coords generalizing st with
  | nil =>
    intro csvRow h
    exact Or.inl h
  | cons c cs ih =>
    intro csvRow h
    rw [List.foldl_cons] at h
    have horg' : (sweepBody env N M scanJam jamThreshold baseConfig st c).scanConfig.organOption
        = baseConfig.organOption := by
      cases scanJam <;> simpa [sweepBody] using horg
    rcases ih _ horg' csvRow h with hmem | hval
    · have hcsv : (sweepBody env N M scanJam jamThreshold baseConfig st c).csv =
          st.csv ++ [(sweepPoint env.hypot scanJam jamThreshold st.firstSafeDistance c
            (RunScenario N M (env.phy st.run) st.g).1
            (RunScenarioFigures env st.ctx
              (sweepBody env N M scanJam jamThreshold baseConfig st c).scanConfig).1).1] := rfl
      rw [hcsv, List.mem_append, List.mem_singleton] at hmem
      rcases hmem with hold | hnew
      · exact Or.inl hold
      · right
        rw [hnew]
        simp only [sweepPoint]
        rw [(runScenarioFigures_body env st.ctx _).1, (runScenarioFigures_body env st.ctx _).2.1,
          horg']
        exact ⟨rfl, rfl⟩
    · right
      have hctx : (sweepBody env N M scanJam jamThreshold baseConfig st c).ctx =
          (RunScenarioFigures env st.ctx
            (sweepBody env N M scanJam jamThreshold baseConfig st c).scanConfig).2 := rfl
      rw [hctx, (runScenarioFigures_body env st.ctx _).2.2.1,
        (runScenarioFigures_body env st.ctx _).2.2.2.1,
        (runScenarioFigures_body env st.ctx _).2.2.2.2.1, bodyRxOf_setBodyOptions] at hval
      exact hval

theorem mainProgram_rows_body (env : Collaborators) (csvOpens : Bool) (mTx mRx mJam : Ptr)
    (cmd : CommandLine) (g : Globals) :
    ∀ csvRow ∈ (mainProgram env csvOpens mTx mRx mJam cmd g).csv,
      csvRow.bodyRxPowerDbm =
          (RunScenarioFigures env
            (CreateSimulationContext (ParseBodyOrganOption cmd.bodyOrgan).1 mTx mRx mJam)
            ⟨cmd.txX, cmd.txY, cmd.rxX, cmd.rxY, cmd.jamX, cmd.jamY,
              (ParseBodyOrganOption cmd.bodyOrgan).1⟩).1.bodyRxPowerDbm ∧
        csvRow.bodyLossDb =
          (RunScenarioFigures env
            (CreateSimulationContext (ParseBodyOrganOption cmd.bodyOrgan).1 mTx mRx mJam)
            ⟨cmd.txX, cmd.txY, cmd.rxX, cmd.rxY, cmd.jamX, cmd.jamY,
              (ParseBodyOrganOption cmd.bodyOrgan).1⟩).1.bodyLossDb := by
  intro csvRow hrow
  unfold mainProgram at hrow
  split at hrow
  · simp at hrow
  · rename_i hstep
    simp only at hrow
    split at hrow
    · split at hrow
      · have key := foldl_sweepBody_body env cmd.noJamPackets cmd.jamPackets
          (ToLower cmd.scanTarget == "jam" || ToLower cmd.scanTarget == "jammer" ||
            ToLower cmd.scanTarget == "j")
          (clampThreshold cmd.jamThreshold)
          ⟨cmd.txX, cmd.txY, cmd.rxX, cmd.rxY, cmd.jamX, cmd.jamY,
            (ParseBodyOrganOption cmd.bodyOrgan).1⟩
          (sweepLoop cmd.scanStop (cmd.scanStep * 0.5) cmd.scanStep (not_le.mp hstep)
            cmd.scanStart)
          { ctx := (RunScenarioFigures env
              (CreateSimulationContext (ParseBodyOrganOption cmd.bodyOrgan).1 mTx mRx mJam)
              ⟨cmd.txX, cmd.txY, cmd.rxX, cmd.rxY, cmd.jamX, cmd.jamY,
                (ParseBodyOrganOption cmd.bodyOrgan).1⟩).2,
            g := (RunScenario cmd.noJamPackets cmd.jamPackets (env.phy 0) g).2,
            scanConfig := ⟨cmd.txX, cmd.txY, cmd.rxX, cmd.rxY, cmd.jamX, cmd.jamY,
              (ParseBodyOrganOption cmd.bodyOrgan).1⟩,
            firstSafeDistance := none, csv := [], run := 1 } rfl csvRow hrow
        rcases key with hmem | hval
        · exact absurd hmem (List.not_mem_nil _)
        · exact hval
      · simp at hrow
    · simp at hrow

/-- C18: the power `DoCalcRxPower` returns is determined by the selected key,
the two layer overrides and the outcome of the gate.  Hence two runs of
`RunScenario` with the same organ option on a context with the same registered
endpoints and the same transmitter and receiver objects record the same
`bodyLossDb` and `bodyRxPowerDbm`, whatever the coordinates in the two
configurations and whatever positions and overrides the context held before;
and every row of a sweep carries the `bodyLossDb` and `bodyRxPowerDbm` of the
first run of `main`. -/
theorem body_figures_ignore_positions (env : Collaborators) (ctx ctx' : SimulationContext)
    (config config' : SimulationConfig) (hopt : config.organOption = config'.organOption)
    (hsel : ctx.bodyLoss.m_useSelectiveAttenuation = ctx'.bodyLoss.m_useSelectiveAttenuation)
    (hset : ctx.bodyLoss.m_bodyMobility = ctx'.bodyLoss.m_bodyMobility)
    (hTx : ctx.mTx = ctx'.mTx) (hRx : ctx.mRx = ctx'.mRx) :
    (RunScenarioFigures env ctx config).1.bodyLossDb =
        (RunScenarioFigures env ctx' config').1.bodyLossDb ∧
      (RunScenarioFigures env ctx config).1.bodyRxPowerDbm =
        (RunScenarioFigures env ctx' config').1.bodyRxPowerDbm ∧
      (∀ (self self' : BodyPropagationLossModel) (txPowerDbm : ℚ) (a b a' b' : Ptr),
        self.m_bodyOption = self'.m_bodyOption →
        self.m_parameters.fatLayer = self'.m_parameters.fatLayer →
        self.m_parameters.muscleLayer = self'.m_parameters.muscleLayer →
        self.ShouldApplyBodyLoss a b = self'.ShouldApplyBodyLoss a' b' →
        self.DoCalcRxPower env.L txPowerDbm a b = self'.DoCalcRxPower env.L txPowerDbm a' b') ∧
      (∀ (csvOpens : Bool) (mTx mRx mJam : Ptr) (cmd : CommandLine) (g : Globals),
        ∀ csvRow ∈ (mainProgram env csvOpens mTx mRx mJam cmd g).csv,
          csvRow.bodyRxPowerDbm =
              (RunScenarioFigures env
                (CreateSimulationContext (ParseBodyOrganOption cmd.bodyOrgan).1 mTx mRx mJam)
                ⟨cmd.txX, cmd.txY, cmd.rxX, cmd.rxY, cmd.jamX, cmd.jamY,
                  (ParseBodyOrganOption cmd.bodyOrgan).1⟩).1.bodyRxPowerDbm ∧
            csvRow.bodyLossDb =
              (RunScenarioFigures env
                (CreateSimulationContext (ParseBodyOrganOption cmd.bodyOrgan).1 mTx mRx mJam)
                ⟨cmd.txX, cmd.txY, cmd.rxX, cmd.rxY, cmd.jamX, cmd.jamY,
                  (ParseBodyOrganOption cmd.bodyOrgan).1⟩).1.bodyLossDb) := by
  have hrx : bodyRxOf env.L ctx.bodyLoss config.organOption ctx.mTx ctx.mRx =
      bodyRxOf env.L ctx'.bodyLoss config'.organOption ctx'.mTx ctx'.mRx := by
    rw [hopt, hTx, hRx]
    exact bodyRxOf_congr env.L _ _ _ _ _ hsel hset
  refine ⟨?_, ?_, ?_, ?_⟩
  · rw [(runScenarioFigures_body env ctx config).2.1,
      (runScenarioFigures_body env ctx' config').2.1, hrx]
  · rw [(runScenarioFigures_body env ctx config).1,
      (runScenarioFigures_body env ctx' config').1, hrx]
  · intro self self' txPowerDbm a b a' b' h1 h2 h3 h4
    exact doCalcRxPower_congr env.L self self' txPowerDbm a b a' b' h1 h2 h3 h4
  · intro csvOpens mTx mRx mJam cmd g
    exact mainProgram_rows_body env csvOpens mTx mRx mJam cmd g

/-- The witness of C18: two runs on the context of the experiment, the receiver
at 0.3 m and at 2 m, the jammer at 43 m and at 1 m. -/
theorem body_figures_ignore_positions_witness :
    (RunScenarioFigures refCollaborators (CreateSimulationContext .HEART_402_MHZ 1 2 3)
        ⟨0, 0, 0.3, 0, 43, 0, .HEART_402_MHZ⟩).1.bodyLossDb =
      (RunScenarioFigures refCollaborators
        (RunScenarioFigures refCollaborators (CreateSimulationContext .HEART_402_MHZ 1 2 3)
          ⟨0, 0, 0.3, 0, 43, 0, .HEART_402_MHZ⟩).2
        ⟨0, 0, 2, 0, 1, 0, .HEART_402_MHZ⟩).1.bodyLossDb :=
  (body_figures_ignore_positions refCollaborators (CreateSimulationContext .HEART_402_MHZ 1 2 3)
    (RunScenarioFigures refCollaborators (CreateSimulationContext .HEART_402_MHZ 1 2 3)
      ⟨0, 0, 0.3, 0, 43, 0, .HEART_402_MHZ⟩).2
    ⟨0, 0, 0.3, 0, 43, 0, .HEART_402_MHZ⟩ ⟨0, 0, 2, 0, 1, 0, .HEART_402_MHZ⟩ rfl rfl rfl rfl
    rfl).1

/-! ## The phase flag at the scheduled sends -/

theorem orderedInsert_stable (T : ℚ × Event → ℚ × Event → Prop) (x : ℚ × Event)
    (l : EventQueue) (hs : List.Sorted (fun a b : ℚ × Event => a.1 ≤ b.1) l)
    (hG : l.Pairwise (fun a b => a.1 < b.1 ∨ (a.1 = b.1 ∧ T a b)))
    (hT : ∀ y ∈ l, T x y) :
    (l.orderedInsert (fun a b : ℚ × Event => a.1 ≤ b.1) x).Pairwise
      (fun a b => a.1 < b.1 ∨ (a.1 = b.1 ∧ T a b)) := by
  induction l with
  | nil => simp
  | cons b t ih =>
    have hs' := List.sorted_cons.mp hs
    have hG' := List.pairwise_cons.mp hG
    simp only [List.orderedInsert]
    split
    · rename_i hxb
      refine List.pairwise_cons.mpr ⟨?_, hG⟩
      intro y hy
      have hby : b.1 ≤ y.1 := by
        rcases List.mem_cons.mp hy with rfl | hyt
        · exact le_refl _
        · exact hs'.1 y hyt
      have hxy : x.1 ≤ y.1 := le_trans hxb hby
      rcases lt_or_eq_of_le hxy with h | h
      · exact Or.inl h
      · exact Or.inr ⟨h, hT y hy⟩
    · rename_i hxb
      have hbx : b.1 < x.1 := not_le.mp hxb
      refine List.pairwise_cons.mpr ⟨?_, ih hs'.2 hG'.2 (fun y hy => hT y (List.mem_cons_of_mem _ hy))⟩
      intro y hy
      rcases (List.mem_orderedInsert _).mp hy with rfl | hyt
      · exact Or.inl hbx
      · exact hG'.1 y hyt

theorem insertionSort_stable (T : ℚ × Event → ℚ × Event → Prop) (l : EventQueue)
    (hT : l.Pairwise T) :
    (l.insertionSort (fun a b : ℚ × Event => a.1 ≤ b.1)).Pairwise
      (fun a b => a.1 < b.1 ∨ (a.1 = b.1 ∧ T a b)) := by
  induction l with
  | nil => simp
  | cons x t ih =>
    have hT' := List.pairwise_cons.mp hT
    simp only [List.insertionSort]
    refine orderedInsert_stable T x _ (List.sorted_insertionSort _ t) (ih hT'.2) ?_
    intro y hy
    exact hT'.1 y ((List.perm_insertionSort _ t).mem_iff.mp hy)

theorem stage_const_pairwise (l : EventQueue) (c : Nat) (h : ∀ x ∈ l, x.2.stage = c) :
    l.Pairwise (fun a b => a.2.stage ≤ b.2.stage) :=
  List.pairwise_of_forall_mem_list (fun a ha b hb => by rw [h a ha, h b hb])

theorem scheduledEvents_stage_order (N M : Nat) :
    (scheduledEvents N M).Pairwise (fun a b => a.2.stage ≤ b.2.stage) := by
  have h1 : ∀ x ∈ (List.range N).map
      (fun i : Nat => ((0.5 + i * kPktGapSeconds : ℚ), Event.phase1Send i)),
      x.2.stage = 0 := by
    intro x hx
    obtain ⟨i, _, rfl⟩ := List.mem_map.mp hx
    rfl
  have h2 : ∀ x ∈ (List.range M).map
      (fun i : Nat => ((phase2Start N + i * kPktGapSeconds : ℚ), Event.jamSend i)),
      x.2.stage = 3 := by
    intro x hx
    obtain ⟨i, _, rfl⟩ := List.mem_map.mp hx
    rfl
  have h3 : ∀ x ∈ (List.range M).map
      (fun i : Nat => ((phase2Start N + i * kPktGapSeconds : ℚ), Event.phase2Send i)),
      x.2.stage = 3 := by
    intro x hx
    obtain ⟨i, _, rfl⟩ := List.mem_map.mp hx
    rfl
  have h34 : ∀ x ∈ (List.range M).map
      (fun i : Nat => ((phase2Start N + i * kPktGapSeconds : ℚ), Event.phase2Send i)) ++
        [(simStop N M, Event.stop)], 3 ≤ x.2.stage := by
    intro x hx
    rcases List.mem_append.mp hx with hx | hx
    · rw [h3 x hx]
    · rw [List.mem_singleton.mp hx]
      simp [Event.stage]
  rw [scheduledEvents_eq]
  refine List.pairwise_cons.mpr ⟨fun _ _ => Nat.zero_le _, ?_⟩
  refine List.pairwise_append.mpr ⟨stage_const_pairwise _ 0 h1, ?_, ?_⟩
  · refine List.pairwise_cons.mpr ⟨?_, ?_⟩
    · intro x hx
      rcases List.mem_append.mp hx with hx | hx
      · rw [h2 x hx]
        simp [Event.stage]
      · exact le_trans (by simp [Event.stage]) (h34 x hx)
    · refine List.pairwise_append.mpr ⟨stage_const_pairwise _ 3 h2, ?_, ?_⟩
      · refine List.pairwise_append.mpr ⟨stage_const_pairwise _ 3 h3, List.pairwise_singleton _ _,
          ?_⟩
        intro a ha b hb
        rw [h3 a ha, List.mem_singleton.mp hb]
        simp [Event.stage]
      · intro a ha b hb
        rw [h2 a ha]
        exact h34 b hb
  · intro a ha b _
    rw [h1 a ha]
    exact Nat.zero_le _

theorem scheduled_stage_time (N M : Nat) (x : ℚ × Event) (hx : x ∈ scheduledEvents N M) :
    (x.2.stage = 0 ∧ x.1 < phase2Start N) ∨ (x.2.stage = 2 ∧ x.1 = phase2Start N) ∨
      (x.2.stage = 3 ∧ phase2Start N ≤ x.1 ∧ x.1 < simStop N M) ∨
      (x.2.stage = 4 ∧ x.1 = simStop N M) := by
  have hN : (0 : ℚ) ≤ N := Nat.cast_nonneg N
  have hM : (0 : ℚ) ≤ M := Nat.cast_nonneg M
  rw [scheduledEvents_eq] at hx
  simp only [List.mem_cons, List.mem_append, List.mem_map, List.mem_range, List.mem_singleton,
    List.not_mem_nil, or_false] at hx
  rcases hx with rfl | ⟨i, hi, rfl⟩ | rfl | ⟨i, hi, rfl⟩ | ⟨i, hi, rfl⟩ | rfl
  · left
    refine ⟨rfl, ?_⟩
    simp only [phase2Start, kPktGapSeconds, kGapBetweenPhases]
    norm_num
    nlinarith
  · left
    have hi' : (i : ℚ) < N := by exact_mod_cast hi
    refine ⟨rfl, ?_⟩
    simp only [phase2Start, kPktGapSeconds, kGapBetweenPhases]
    norm_num
    nlinarith
  · right; left
    exact ⟨rfl, rfl⟩
  · right; right; left
    have hi' : (i : ℚ) < M := by exact_mod_cast hi
    have hi0 : (0 : ℚ) ≤ i := Nat.cast_nonneg i
    refine ⟨rfl, ?_, ?_⟩
    · simp only [kPktGapSeconds]
      nlinarith
    · simp only [simStop, kPktGapSeconds]
      nlinarith
  · right; right; left
    have hi' : (i : ℚ) < M := by exact_mod_cast hi
    have hi0 : (0 : ℚ) ≤ i := Nat.cast_nonneg i
    refine ⟨rfl, ?_, ?_⟩
    · simp only [kPktGapSeconds]
      nlinarith
    · simp only [simStop, kPktGapSeconds]
      nlinarith
  · right; right; right
    exact ⟨rfl, rfl⟩

theorem phase2Start_lt_simStop (N M : Nat) : phase2Start N < simStop N M := by
  have hM : (0 : ℚ) ≤ M := Nat.cast_nonneg M
  simp only [simStop, kPktGapSeconds]
  nlinarith

theorem firingOrder_stage_order (N M : Nat) :
    (firingOrder (scheduledEvents N M)).Pairwise (fun a b => a.2.stage ≤ b.2.stage) := by
  have hst := insertionSort_stable (fun a b => a.2.stage ≤ b.2.stage) (scheduledEvents N M)
    (scheduledEvents_stage_order N M)
  refine List.Pairwise.imp_of_mem ?_ hst
  intro a b ha hb hab
  have ha' := scheduled_stage_time N M a ((firingOrder_perm _).mem_iff.mp ha)
  have hb' := scheduled_stage_time N M b ((firingOrder_perm _).mem_iff.mp hb)
  have hlt := phase2Start_lt_simStop N M
  rcases hab with hab | ⟨_, hab⟩
  · rcases ha' with ⟨sa, ta⟩ | ⟨sa, ta⟩ | ⟨sa, ta1, ta2⟩ | ⟨sa, ta⟩ <;>
      rcases hb' with ⟨sb, tb⟩ | ⟨sb, tb⟩ | ⟨sb, tb1, tb2⟩ | ⟨sb, tb⟩ <;>
      first
        | (rw [sa, sb]; done)
        | (rw [sa, sb]; norm_num; done)
        | (exfalso; linarith)
  · exact hab

theorem firedEvents_stage_order (N M : Nat) :
    (firedEvents (scheduledEvents N M)).Pairwise (fun a b => a.stage ≤ b.stage) := by
  rw [firedEvents_eq_filter, List.pairwise_map]
  exact (firingOrder_stage_order N M).sublist (List.filter_sublist _)

theorem rxIndication_flag (g : Globals) (n : Nat) (p : Packet) (k : Nat) :
    (RxIndication g n p k).g_jammingActive = g.g_jammingActive := by
  unfold RxIndication
  split
  · split
    · split <;> rfl
    · rfl
  · rfl

theorem deliver_flag (calls : List RxCall) (g : Globals) :
    (deliver calls g).g_jammingActive = g.g_jammingActive := by
  induction calls generalizing g with
  | nil => rfl
  | cons c cs ih =>
    have h := ih (RxIndication g c.psduLength c.p c.packetSize)
    simp only [deliver, List.foldl_cons] at h ⊢
    rw [h, rxIndication_flag]

theorem firingFlags_events (phy : Nat → List RxCall) (es : List Event) (j : Nat) (g : Globals) :
    (firingFlags phy es j g).map Prod.fst = es := by
  induction es generalizing j g with
  | nil => rfl
  | cons e es ih => simp [firingFlags, ih]

theorem firingFlags_stage (phy : Nat → List RxCall) (es : List Event)
    (hp : es.Pairwise (fun a b => a.stage ≤ b.stage)) (j : Nat) (g : Globals)
    (hinv : (g.g_jammingActive = false ∧
        ((∃ e ∈ es, e.stage = 3) → Event.phase2Arm ∈ es)) ∨
      (g.g_jammingActive = true ∧ ∀ e ∈ es, 2 ≤ e.stage)) :
    ∀ eb ∈ firingFlags phy es j g,
      (eb.1.stage = 0 → eb.2 = false) ∧ (eb.1.stage = 3 → eb.2 = true) := by
  induction es generalizing j g with
  | nil =>
    intro eb h
    simp [firingFlags] at h
  | cons e es ih =>
    have hp' := List.pairwise_cons.mp hp
    intro eb h
    simp only [firingFlags, List.mem_cons] at h
    rcases hinv with ⟨hf, harm⟩ | ⟨ht, hge⟩
    · -- the flag is still clear
      have hne3 : e.stage ≠ 3 := by
        intro h3
        have hmem := harm ⟨e, List.mem_cons_self _ _, h3⟩
        rcases List.mem_cons.mp hmem with heq | hin
        · rw [← heq] at h3
          simp [Event.stage] at h3
        · have := hp'.1 _ hin
          rw [h3] at this
          simp [Event.stage] at this
      rcases h with rfl | h
      · exact ⟨fun _ => by simp only [deliver_flag, hf], fun h3 => absurd h3 hne3⟩
      · refine ih hp'.2 (j + 1) (e.fire (deliver (phy j) g)) ?_ eb h
        cases e with
        | phase1Arm =>
          left
          refine ⟨rfl, fun hex => ?_⟩
          rcases List.mem_cons.mp (harm (by
            obtain ⟨e', he', h3⟩ := hex
            exact ⟨e', List.mem_cons_of_mem _ he', h3⟩)) with heq | hin
          · cases heq
          · exact hin
        | phase1Send i =>
          left
          refine ⟨by simp only [Event.fire, deliver_flag, hf], fun hex => ?_⟩
          rcases List.mem_cons.mp (harm (by
            obtain ⟨e', he', h3⟩ := hex
            exact ⟨e', List.mem_cons_of_mem _ he', h3⟩)) with heq | hin
          · cases heq
          · exact hin
        | phase2Arm =>
          right
          exact ⟨rfl, fun e' he' => hp'.1 e' he'⟩
        | jamSend i => exact absurd rfl hne3
        | phase2Send i => exact absurd rfl hne3
        | stop =>
          left
          refine ⟨by simp only [Event.fire, deliver_flag, hf], fun hex => ?_⟩
          obtain ⟨e', he', h3⟩ := hex
          have := hp'.1 e' he'
          rw [h3] at this
          simp [Event.stage] at this
    · -- the flag is set and only phase-2 events remain
      have hge_e : 2 ≤ e.stage := hge e (List.mem_cons_self _ _)
      rcases h with rfl | h
      · refine ⟨fun h0 => ?_, fun _ => by simp only [deliver_flag, ht]⟩
        rw [h0] at hge_e
        exact absurd hge_e (by decide)
      · refine ih hp'.2 (j + 1) (e.fire (deliver (phy j) g)) ?_ eb h
        right
        refine ⟨?_, fun e' he' => hge e' (List.mem_cons_of_mem _ he')⟩
        cases e with
        | phase1Arm => simp [Event.stage] at hge_e
        | phase1Send i => simp [Event.stage] at hge_e
        | phase2Arm => rfl
        | jamSend i => simp only [Event.fire, deliver_flag, ht]
        | phase2Send i => simp only [Event.fire, deliver_flag, ht]
        | stop => simp only [Event.fire, deliver_flag, ht]

theorem mem_firingFlags_of_split (phy : Nat → List RxCall) (pre : List Event) (e : Event)
    (post : List Event) (j : Nat) (g : Globals) :
    (e, (runEvents phy pre j g).g_jammingActive) ∈ firingFlags phy (pre ++ e :: post) j g := by
  induction pre generalizing j g with
  | nil => exact List.mem_cons_self _ _
  | cons a pre ih =>
    simp only [List.cons_append, firingFlags, runEvents]
    exact List.mem_cons_of_mem _ (ih (j + 1) (a.fire (deliver (phy j) g)))

theorem phase2Arm_fired (N M : Nat) : Event.phase2Arm ∈ firedEvents (scheduledEvents N M) := by
  have hmem : (phase2Start N, Event.phase2Arm) ∈ scheduledEvents N M := by
    rw [scheduledEvents_eq]
    simp
  exact mem_firedEvents N M _ hmem (by simp)

/-- C16: in the run of one `RunScenario` call (events by timestamp, equal
timestamps in scheduling order), whatever `N`, `M`, the receive callbacks of
the PHY and the earlier value of the flag, `g_jammingActive` is false at the
moment each phase-1 send fires and true at the moment each jammer send and each
phase-2 transmitter send fires - stated on the recorded flags and, for every
fired event, on the state `runEvents` reaches on the events before it; all `N`
phase-1 sends and `2 * M` phase-2 sends fire; the arming event of phase 2
precedes every phase-2 send, including the sends with index 0, which carry its
timestamp `phase2Start`. -/
theorem jammingActive_at_sends (N M : Nat) (phy : Nat → List RxCall) (g : Globals) :
    (firingFlags phy (firedEvents (scheduledEvents N M)) 0 (ResetCounters g)).map Prod.fst =
        firedEvents (scheduledEvents N M) ∧
      (∀ eb ∈ firingFlags phy (firedEvents (scheduledEvents N M)) 0 (ResetCounters g),
        (eb.1.isPhase1Send = true → eb.2 = false) ∧
          (eb.1.isJamSend = true ∨ eb.1.isPhase2Send = true → eb.2 = true)) ∧
      (∀ pre e post, firedEvents (scheduledEvents N M) = pre ++ e :: post →
        (e.isPhase1Send = true →
            (runEvents phy pre 0 (ResetCounters g)).g_jammingActive = false) ∧
          (e.isJamSend = true ∨ e.isPhase2Send = true →
            (runEvents phy pre 0 (ResetCounters g)).g_jammingActive = true)) ∧
      (firedEvents (scheduledEvents N M)).countP Event.isPhase1Send = N ∧
      (firedEvents (scheduledEvents N M)).countP Event.isJamSend = M ∧
      (firedEvents (scheduledEvents N M)).countP Event.isPhase2Send = M ∧
      (0 < M →
        (phase2Start N, Event.phase2Arm) ∈ scheduledEvents N M ∧
          (phase2Start N, Event.jamSend 0) ∈ scheduledEvents N M ∧
          (phase2Start N, Event.phase2Send 0) ∈ scheduledEvents N M) ∧
      (firedEvents (scheduledEvents N M)).Pairwise (fun a b => a.stage ≤ b.stage) := by
  obtain ⟨c1, c2, c3⟩ := countP_scheduled N M
  have hflags : ∀ eb ∈ firingFlags phy (firedEvents (scheduledEvents N M)) 0 (ResetCounters g),
      (eb.1.isPhase1Send = true → eb.2 = false) ∧
        (eb.1.isJamSend = true ∨ eb.1.isPhase2Send = true → eb.2 = true) := by
    intro eb heb
    have h := firingFlags_stage phy (firedEvents (scheduledEvents N M))
      (firedEvents_stage_order N M) 0 (ResetCounters g)
      (Or.inl ⟨rfl, fun _ => phase2Arm_fired N M⟩) eb heb
    refine ⟨fun h1 => h.1 ?_, fun h2 => h.2 ?_⟩
    · cases heq : eb.1 <;> simp [heq, Event.isPhase1Send] at h1
      all_goals rfl
    · cases heq : eb.1 <;> simp [heq, Event.isJamSend, Event.isPhase2Send] at h2
      all_goals rfl
  refine ⟨firingFlags_events _ _ _ _, hflags, ?_, ?_, ?_, ?_, ?_, firedEvents_stage_order N M⟩
  · intro pre e post hsplit
    have hmem := mem_firingFlags_of_split phy pre e post 0 (ResetCounters g)
    rw [← hsplit] at hmem
    exact hflags _ hmem
  · rw [countP_firedEvents N M _ rfl, c1]
  · rw [countP_firedEvents N M _ rfl, c2]
  · rw [countP_firedEvents N M _ rfl, c3]
  · intro hM
    rw [scheduledEvents_eq]
    refine ⟨by simp, ?_, ?_⟩
    · simp only [List.mem_cons, List.mem_append, List.mem_map, List.mem_range]
      exact Or.inr (Or.inr (Or.inr (Or.inl ⟨0, hM, by simp⟩)))
    · simp only [List.mem_cons, List.mem_append, List.mem_map, List.mem_range]
      exact Or.inr (Or.inr (Or.inr (Or.inr (Or.inl ⟨0, hM, by simp⟩))))

end Wban
